import Mathlib

set_option linter.unusedVariables false

/-!
# Schema synthesizer of the Fivetran Terraform provider

A shallow embedding of `fivetran/connector_config_oas_service.go`: the field
table that `getFields` builds from the embedded OpenAPI document, with the
per-property classification of `createFields` / `getArrayFieldSchema` and the
collision policy of the fold in `getFields` / `updateExistingValue`.

Go maps are association lists with distinct keys; the order of a list is the
order in which `range` happens to visit the map.  Pointers to `schema.Schema`
are indices into an explicit heap, so that two keys of the table holding the
same pointer, and the in-place update of `updateExistingValue`, are visible.
-/

namespace Fivetran

/-! ## Go maps as association lists -/

/-- Lookup `m[key]` with the comma-ok result as an `Option`. -/
def mapGet {α : Type} : List (String × α) → String → Option α
  | [], _ => none
  | (k, v) :: rest, key => if k = key then some v else mapGet rest key

/-- Assignment `m[key] = v`: replaces the entry of `key`, or adds one. -/
def mapSet {α : Type} : List (String × α) → String → α → List (String × α)
  | [], key, v => [(key, v)]
  | (k, x) :: rest, key, v =>
    if k = key then (k, v) :: rest else (k, x) :: mapSet rest key v

/-- The keys of a map, in list order. -/
def mapKeys {α : Type} (m : List (String × α)) : List String := m.map Prod.fst

/-! ## JSON documents and the `gabs` container operations the program uses -/

/-- A parsed JSON value (the `interface{}` inside a `gabs.Container`).  Numbers
are never inspected by the program; `null` is Go's `nil`. -/
inductive Json where
  | null
  | bool (b : Bool)
  | num (n : Int)
  | str (s : String)
  | arr (items : List Json)
  | obj (members : List (String × Json))

/-- Go's `strings.Split(path, ".")` on the characters of a path. -/
def splitDots : List Char → List (List Char)
  | [] => [[]]
  | c :: rest =>
    if c = '.' then [] :: splitDots rest
    else match splitDots rest with
      | [] => [[c]]
      | seg :: segs => (c :: seg) :: segs

/-- Go's `strings.Replace(v, "~" + code, by, -1)`. -/
def replaceEscape (code by_ : Char) : List Char → List Char
  | [] => []
  | [c] => [c]
  | c :: d :: rest =>
    if c = '~' ∧ d = code then by_ :: replaceEscape code by_ rest
    else c :: replaceEscape code by_ (d :: rest)

/-- The `gabs.DotPathToSlice`: split on dots, then unescape `~1` and `~0`. -/
def DotPathToSlice (path : String) : List String :=
  (splitDots path.data).map
    (fun v => String.mk (replaceEscape '0' '~' (replaceEscape '1' '.' v)))

/-- The `strconv.Atoi` on an array index segment: an optional sign and decimal
digits.  Only a non-negative result is used by the caller. -/
def Atoi (s : String) : Option Int :=
  let digits (cs : List Char) : Option Nat :=
    if cs = [] ∨ ¬ cs.all Char.isDigit then none
    else some (cs.foldl (fun n c => 10 * n + (c.toNat - '0'.toNat)) 0)
  match s.data with
  | '-' :: cs => (digits cs).map (fun n => - (n : Int))
  | '+' :: cs => (digits cs).map (fun n => (n : Int))
  | cs => (digits cs).map (fun n => (n : Int))

/-- The `Container.Search(hierarchy...)`: `none` is the nil container. -/
def Search : Json → List String → Option Json
  | object, [] => some object
  | .obj mmap, pathSeg :: rest =>
    match mapGet mmap pathSeg with
    | none => none
    | some object => Search object rest
  | .arr marray, pathSeg :: rest =>
    if pathSeg = "*" then
      let tmpArray :=
        match rest with
        | [] => marray
        | _ :: _ => marray.filterMap (fun val => Search val rest)
      if tmpArray.length = 0 then none else some (.arr tmpArray)
    else
      match Atoi pathSeg with
      | none => none
      | some index =>
        if index < 0 then none
        else match marray[index.toNat]? with
          | none => none
          | some object => Search object rest
  | _, _ :: _ => none

/-- The `Container.Path(path)`. -/
def Path (g : Json) (path : String) : Option Json := Search g (DotPathToSlice path)

/-- The `Container.Data()`: the nil container holds `nil`. -/
def Data : Option Json → Json
  | none => .null
  | some object => object

/-- The `Container.ChildrenMap()`: the members of an object, else the empty map. -/
def ChildrenMap : Option Json → List (String × Json)
  | some (.obj mmap) => mmap
  | _ => []

/-! ## Terraform schema descriptors -/

/-- The `schema.ValueType`. -/
inductive ValueType where
  | TypeInvalid | TypeBool | TypeInt | TypeFloat | TypeString | TypeList | TypeMap | TypeSet
  deriving DecidableEq, Repr

mutual
/-- The fields of `schema.Schema` this program sets; all others stay zero. -/
inductive Schema where
  | mk (type : ValueType) (optional computed sensitive : Bool)
      (description : String) (elem : Elem)
/-- The dynamic values an `Elem interface{}` takes in this program: nil, a
`*schema.Schema`, a `*schema.Resource` (its `Schema` map), or a `[]string`. -/
inductive Elem where
  | nil
  | schema (s : Schema)
  | resource (fields : List (String × Schema))
  | strings (l : List String)
end

namespace Schema
def Type_ : Schema → ValueType | mk t _ _ _ _ _ => t
def Optional : Schema → Bool | mk _ o _ _ _ _ => o
def Computed : Schema → Bool | mk _ _ c _ _ _ => c
def Sensitive : Schema → Bool | mk _ _ _ s _ _ => s
def Description : Schema → String | mk _ _ _ _ d _ => d
def Elem_ : Schema → Elem | mk _ _ _ _ _ e => e
end Schema

/-- The table type `map[string]*schema.Schema`, by value. -/
abbrev Fields := List (String × Schema)

/-! ## The field table builder -/

def OBJECT_FIELD : String := "object"
def INT_FIELD : String := "integer"
def BOOL_FIELD : String := "boolean"
def ARRAY_FIELD : String := "array"

/-- Comparison `data == "text"` of an `interface{}` with a string constant. -/
def isString : Json → String → Bool
  | .str s, text => s == text
  | _, _ => false

/-- The guarded assertion `if d != nil { ... = d.(string) }`: the zero string
for nil, the text of a string, and a panic (`none`) for anything else. -/
def assertDescription : Json → Option String
  | .null => some ""
  | .str s => some s
  | _ => none

theorem sizeOf_lt_of_mapGet {mmap : List (String × Json)} {key : String} {object : Json}
    (h : mapGet mmap key = some object) : sizeOf object < sizeOf mmap := by
  induction mmap with
  | nil => simp [mapGet] at h
  | cons kv rest ih =>
    obtain ⟨k, v⟩ := kv
    simp only [mapGet] at h
    split at h
    · simp only [Option.some.injEq] at h
      subst h
      simp
      omega
    · have := ih h
      simp
      omega

theorem sizeOf_lt_of_getElem? {marray : List Json} {i : Nat} {object : Json}
    (h : marray[i]? = some object) : sizeOf object < sizeOf marray := by
  have hm : object ∈ marray := List.getElem?_mem h
  have := List.sizeOf_lt_of_mem hm
  omega

theorem Search_sizeOf_le (hierarchy : List String) :
    ∀ (g object : Json), "*" ∉ hierarchy → Search g hierarchy = some object →
      sizeOf object ≤ sizeOf g := by
  induction hierarchy with
  | nil =>
    intro g object _ h
    cases g <;> simp [Search] at h <;> subst h <;> exact Nat.le_refl _
  | cons pathSeg rest ih =>
    intro g object hstar h
    have hseg : pathSeg ≠ "*" := fun e => hstar (by simp [e])
    have hrest : "*" ∉ rest := fun e => hstar (by simp [e])
    cases g with
    | obj mmap =>
      simp only [Search] at h
      split at h
      · simp at h
      · rename_i o ho
        have h1 := sizeOf_lt_of_mapGet ho
        have h2 := ih o object hrest h
        simp
        omega
    | arr marray =>
      simp only [Search, hseg, if_false] at h
      split at h
      · simp at h
      · split at h
        · simp at h
        · split at h
          · simp at h
          · rename_i o ho
            have h1 := sizeOf_lt_of_getElem? ho
            have h2 := ih o object hrest h
            simp
            omega
    | null => simp [Search] at h
    | bool b => simp [Search] at h
    | num n => simp [Search] at h
    | str s => simp [Search] at h

theorem sizeOf_items_properties (node : Json)
    (h : (ChildrenMap (Path node "items.properties")).length > 0) :
    sizeOf (ChildrenMap (Path node "items.properties")) < sizeOf node := by
  have hp : DotPathToSlice "items.properties" = ["items", "properties"] := by decide
  unfold Path at h ⊢
  rw [hp] at h ⊢
  cases hs : Search node ["items", "properties"] with
  | none => simp [hs, ChildrenMap] at h
  | some o =>
    have hle := Search_sizeOf_le _ node o (by decide) hs
    cases o with
    | obj mmap =>
      simp only [ChildrenMap]
      simp at hle
      omega
    | null => simp [hs, ChildrenMap] at h
    | bool b => simp [hs, ChildrenMap] at h
    | num n => simp [hs, ChildrenMap] at h
    | str s => simp [hs, ChildrenMap] at h
    | arr a => simp [hs, ChildrenMap] at h

mutual
/-- The function `createFields`: one descriptor per property node. -/
def createFields (nodesMap : List (String × Json)) : Option Fields :=
  createFieldsLoop [] nodesMap
termination_by (sizeOf nodesMap, 1)

/-- The `for key, node := range nodesMap` loop of `createFields`, with the
table built so far; `none` is a panic. -/
def createFieldsLoop (fields : Fields) (nodesMap : List (String × Json)) : Option Fields :=
  match nodesMap with
  | [] => some fields
  | (key, node) :: rest =>
    match assertDescription (Data (Search node ["description"])) with
    | none => none
    | some description =>
      if isString (Data (Search node ["format"])) "password" then
        createFieldsLoop
          (mapSet fields key (.mk .TypeString true true true description .nil)) rest
      else
        let nodeType := Data (Search node ["type"])
        if isString nodeType INT_FIELD then
          createFieldsLoop
            (mapSet fields key (.mk .TypeInt true true false description .nil)) rest
        else if isString nodeType BOOL_FIELD then
          createFieldsLoop
            (mapSet fields key (.mk .TypeBool true true false description .nil)) rest
        else if isString nodeType ARRAY_FIELD then
          match getArrayFieldSchema node with
          | none => none
          | some nodeSchema => createFieldsLoop (mapSet fields key nodeSchema) rest
        else
          createFieldsLoop
            (mapSet fields key (.mk .TypeString true true false description .nil)) rest
termination_by (sizeOf nodesMap, 0)
decreasing_by
  all_goals simp_wf
  all_goals (apply Prod.Lex.left; omega)

/-- The function `getArrayFieldSchema`: a set of strings, or a set of objects
whose shape is `createFields` of the items' properties. -/
def getArrayFieldSchema (node : Json) : Option Schema :=
  let itemType := Data (Path node "items.type")
  let childrenMap := ChildrenMap (Path node "items.properties")
  if h : isString itemType OBJECT_FIELD = true ∧ childrenMap.length > 0 then
    match createFields childrenMap with
    | none => none
    | some childrenSchemaMap =>
      some (.mk .TypeSet true true false "" (.resource childrenSchemaMap))
  else
    some (.mk .TypeSet true true false ""
      (.schema (.mk .TypeString false false false "" .nil)))
termination_by (sizeOf node, 2)
decreasing_by
  apply Prod.Lex.left
  exact sizeOf_items_properties node h.2
end

/-! ## The merged field table -/

def SERVICES_PATH : String := "components.schemas.NewConnectorRequestV1.discriminator.mapping"
def SCHEMAS_PATH : String := "components.schemas."
def PROPERTIES_PATH : String := ".properties.config.properties"

/-- The table `fields` of `getFields`, a `map[string]*schema.Schema`: every key
holds a pointer (an index into `heap`), and `heap` holds what each allocated
`schema.Schema` currently contains. -/
structure FieldTable where
  fields : List (String × Nat)
  heap : List Schema

namespace FieldTable

/-- The empty table of `make(map[string]*schema.Schema)`. -/
def empty : FieldTable := ⟨[], []⟩

/-- The descriptor a key holds: `*fields[key]`. -/
def get (t : FieldTable) (key : String) : Option Schema :=
  match mapGet t.fields key with
  | none => none
  | some ref => t.heap[ref]?

/-- The keys of the table. -/
def keys (t : FieldTable) : List String := mapKeys t.fields

/-- Assignment `fields[key] = value` of a descriptor that is in no table yet:
`value` gets its own heap cell. -/
def store (t : FieldTable) (key : String) (value : Schema) : FieldTable :=
  ⟨mapSet t.fields key t.heap.length, t.heap ++ [value]⟩

end FieldTable

/-- The function `updateExistingValue`.  The Go function writes through the
pointer `existingValue` and returns that pointer; here the first component is
what `*existingValue` holds afterwards, and the caller puts it back into the
heap cell of `existingValue`. -/
def updateExistingValue (existingValue newValue : Schema) : Schema × Bool :=
  match existingValue with
  | .mk type optional computed sensitive description (.resource existingSchema) =>
    match newValue.Elem_ with
    | .resource newSchema =>
      (.mk type optional computed sensitive description
        (.resource (newSchema.foldl (fun m kv => mapSet m kv.1 kv.2) existingSchema)), true)
    | _ => (existingValue, false)
  | _ => (existingValue, false)

/-- The body of the loop `for property, value := range serviceFields` in
`getFields`; `ToLower` is Go's `strings.ToLower`. -/
def foldProperty (ToLower : String → String) (service : String) (t : FieldTable)
    (property : String) (value : Schema) : FieldTable :=
  match mapGet t.fields property with
  | none => t.store property value
  | some existingRef =>
    match t.heap[existingRef]? with
    | none => t.store property value
    | some existingValue =>
      if existingValue.Type_ ≠ value.Type_ then
        t.store (service ++ property) value
      else if existingValue.Type_ = .TypeSet then
        let property1 :=
          match value.Elem_, existingValue.Elem_ with
          | .strings _, .strings _ => property
          | .strings _, _ => service ++ "." ++ property
          | _, _ => property
        let updated := updateExistingValue existingValue value
        let property2 :=
          if updated.2 then property1 else ToLower (service ++ "_" ++ property1)
        ⟨mapSet t.fields property2 existingRef, t.heap.set existingRef updated.1⟩
      else
        t.store property value

/-- The properties of one service: the `ChildrenMap` of the node at the path
that `getFields` builds from the service identifier. -/
def serviceSchema (schemaJson : Json) (service : String) : List (String × Json) :=
  ChildrenMap (Path schemaJson (SCHEMAS_PATH ++ service ++ PROPERTIES_PATH))

/-- The loop `for property, value := range serviceFields` of `getFields`, from
the table built so far.  The order of `serviceFields` is the order in which the
loop visits the map. -/
def foldService (ToLower : String → String) (service : String) (t : FieldTable)
    (serviceFields : Fields) : FieldTable :=
  serviceFields.foldl (fun t kv => foldProperty ToLower service t kv.1 kv.2) t

/-- The loop `for _, service := range services` of `getFields`, from the table
built so far; `none` is a panic of `createFields`. -/
def foldServices (ToLower : String → String) (schemaJson : Json) :
    List String → FieldTable → Option FieldTable
  | [], t => some t
  | service :: rest, t =>
    match createFields (serviceSchema schemaJson service) with
    | none => none
    | some serviceFields =>
      foldServices ToLower schemaJson rest (foldService ToLower service t serviceFields)

/-- The function `getAvailableServiceIds`. -/
def getAvailableServiceIds (oasJson : Json) : List String :=
  (ChildrenMap (Path oasJson SERVICES_PATH)).map (fun kv => kv.1 ++ "_config_V1")

/-- The function `getFields`, on the parsed document `getSchemaJson()` returns. -/
def getFields (ToLower : String → String) (schemaJson : Json) : Option FieldTable :=
  foldServices ToLower schemaJson (getAvailableServiceIds schemaJson) FieldTable.empty

/-- Every pointer of the table is allocated. -/
def FieldTable.Valid (t : FieldTable) : Prop :=
  ∀ k r, mapGet t.fields k = some r → r < t.heap.length

/-- A pointer held by a key of `K` is held by keys of `K` only. -/
def FieldTable.Owns (t : FieldTable) (K : List String) : Prop :=
  ∀ k k' r, k ∈ K → mapGet t.fields k = some r → mapGet t.fields k' = some r → k' ∈ K

/-- Folding the property `property` of `service` writes no key of `K`: neither
the property name nor its two service-qualified names is in `K`. -/
def Frame (ToLower : String → String) (K : List String) (service property : String) : Prop :=
  property ∉ K ∧ service ++ property ∉ K ∧ ToLower (service ++ "_" ++ property) ∉ K

/-- The keys of `K` hold the same pointers and the same descriptors in `t'` as
in `t`. -/
def SameOn (K : List String) (t t' : FieldTable) : Prop :=
  ∀ k ∈ K, mapGet t'.fields k = mapGet t.fields k ∧ t'.get k = t.get k

/-- The nested table after `updateExistingValue` copied every entry of
`newSchema` into `existingSchema`. -/
def mergeNested (existingSchema newSchema : Fields) : Fields :=
  newSchema.foldl (fun m kv => mapSet m kv.1 kv.2) existingSchema

/-- The nested table with which `service` declares `f`, when it declares `f` as
a set of objects. -/
def nestedOf (schemaJson : Json) (f service : String) : Option Fields :=
  match createFields (serviceSchema schemaJson service) with
  | none => none
  | some F =>
    match mapGet F f with
    | none => none
    | some d =>
      match d.Elem_ with
      | .resource NS => some NS
      | _ => none

/-- The nested table under `f` after one more service: the first declaration
is taken as it is, a later one is merged into it. -/
def mergeStep (acc : Option Fields) (declared : Option Fields) : Option Fields :=
  match declared, acc with
  | none, _ => acc
  | some NS, none => some NS
  | some NS, some N => some (mergeNested N NS)

/-- The table has no key `f` (`acc = none`), or holds under `f` a set of
objects whose nested table is `N` (`acc = some N`). -/
def HoldsNested (f : String) (t : FieldTable) (acc : Option Fields) : Prop :=
  match acc with
  | none => mapGet t.fields f = none
  | some N => ∃ o c s desc, t.get f = some (.mk .TypeSet o c s desc (.resource N))

/-- The lowering of ASCII letters; Go's `strings.ToLower` agrees with it on
ASCII text. -/
def asciiToLower (s : String) : String := String.mk (s.data.map Char.toLower)

/-- The descriptor the loop body of `createFields` derives for one property
node (`none` when the description is not a text and the assertion panics). -/
def createField (node : Json) : Option Schema :=
  match assertDescription (Data (Search node ["description"])) with
  | none => none
  | some description =>
    if isString (Data (Search node ["format"])) "password" then
      some (.mk .TypeString true true true description .nil)
    else if isString (Data (Search node ["type"])) INT_FIELD then
      some (.mk .TypeInt true true false description .nil)
    else if isString (Data (Search node ["type"])) BOOL_FIELD then
      some (.mk .TypeBool true true false description .nil)
    else if isString (Data (Search node ["type"])) ARRAY_FIELD then
      getArrayFieldSchema node
    else
      some (.mk .TypeString true true false description .nil)

mutual
/-- Every `description` member anywhere inside the value is absent, null or a
text, so that no type assertion of `createFields` can panic on it. -/
def Json.textDescriptions : Json → Bool
  | .obj members =>
    (assertDescription (Data (mapGet members "description"))).isSome
      && textDescriptionsMembers members
  | .arr items => textDescriptionsItems items
  | _ => true
/-- The values of all members have text descriptions. -/
def textDescriptionsMembers : List (String × Json) → Bool
  | [] => true
  | (_, v) :: rest => v.textDescriptions && textDescriptionsMembers rest
/-- All items have text descriptions. -/
def textDescriptionsItems : List Json → Bool
  | [] => true
  | v :: rest => v.textDescriptions && textDescriptionsItems rest
end

/-- The string set `getArrayFieldSchema` starts from. -/
def stringSetSchema : Schema :=
  .mk .TypeSet true true false "" (.schema (.mk .TypeString false false false "" .nil))

/-- A document with the given services: the discriminator mapping lists them
and each has its properties under `<service>_config_V1`. -/
def specOf (services : List (String × List (String × Json))) : Json :=
  .obj [("components", .obj [("schemas", .obj
    (("NewConnectorRequestV1", .obj [("discriminator", .obj [("mapping",
        .obj (services.map (fun s => (s.1, Json.str ""))))])]) ::
      services.map (fun s => (s.1 ++ "_config_V1",
        Json.obj [("properties", .obj [("config", .obj [("properties", .obj s.2)])])]))))])]

/-! ## Destination schema of a connector (`framework/core/model/connector.go`) -/

/-- A string attribute of the plugin framework (`types.String`): null, unknown,
or a known text. -/
inductive StringValue where
  | null
  | unknown
  | value (s : String)

namespace StringValue
/-- The method `IsNull`. -/
def IsNull : StringValue → Bool
  | null => true
  | _ => false
/-- The method `IsUnknown`. -/
def IsUnknown : StringValue → Bool
  | unknown => true
  | _ => false
/-- The method `ValueString`: the text, or the empty string when the value is
null or unknown. -/
def ValueString : StringValue → String
  | value s => s
  | _ => ""
end StringValue

/-- What a call leaves: a result, a returned `error`, or a panic that unwinds
the provider process. -/
inductive Outcome (α : Type) where
  | ok (result : α)
  | error (message : String)
  | panic (message : String)

/-- Lookup `flags[key]` in a `map[string]bool`: a missing key reads `false`. -/
def flag (flags : List (String × Bool)) (key : String) : Bool :=
  match mapGet flags key with
  | some b => b
  | none => false

/-- The text of the Go runtime panic for a method call on a nil interface. -/
def nilDereference : String := "runtime error: invalid memory address or nil pointer dereference"

/-- The text of the Go runtime panic for the type assertion
`serviceId.(basetypes.StringValue)` on a nil interface. -/
def nilConversion : String :=
  "interface conversion: attr.Value is nil, not basetypes.StringValue"

/-- The function `getDestinatonSchemaForConfig`.  The table
`common.GetDestinationSchemaFields()` is not among the sources and is the
parameter `destinationSchemaFields`.  The four arguments are `attr.Value`
interfaces: `none` is the nil interface, which `GetDestinatonSchemaForConfig`
passes for the three attributes when `destination_schema` is null (the
attribute map of a null object is nil), and `some v` is a string value, as the
resource schema declares the attributes.  The type assertion on a nil
`serviceId` and a method call on a nil attribute panic, at the point where the
Go code reaches them. -/
def getDestinatonSchemaForConfig (destinationSchemaFields : List (String × List (String × Bool)))
    (serviceId nameAttr tableAttr prefixAttr : Option StringValue) :
    Outcome (List (String × String)) :=
  match serviceId with
  | none => .panic nilConversion
  | some serviceValue =>
    let service := serviceValue.ValueString
    match mapGet destinationSchemaFields service with
    | none => .error ("unknown connector service: `" ++ service ++ "`")
    | some flags =>
      if flag flags "schema_prefix" then
        match prefixAttr with
        | none => .panic nilDereference
        | some prefixValue =>
          if prefixValue.IsNull || prefixValue.IsUnknown then
            .error ("`destination_schema.prefix` field is required to create `" ++ service ++
              "` connector")
          else
            match nameAttr with
            | none => .panic nilDereference
            | some nameValue =>
              if !nameValue.IsNull then
                .error ("`destination_schema.name` field can't be set for `" ++ service ++
                  "` connector")
              else
                match tableAttr with
                | none => .panic nilDereference
                | some tableValue =>
                  if !tableValue.IsNull then
                    .error ("`destination_schema.table` field can't be set for `" ++ service ++
                      "` connector")
                  else
                    .ok [("schema_prefix", prefixValue.ValueString)]
      else
        match nameAttr with
        | none => .panic nilDereference
        | some nameValue =>
          if nameValue.IsNull then
            .error ("`destination_schema.name` field is required to create `" ++ service ++
              "` connector")
          else
            let result := [("schema", nameValue.ValueString)]
            if flag flags "table" then
              match tableAttr with
              | none => .panic nilDereference
              | some tableValue =>
                if tableValue.IsNull then
                  .error ("`destination_schema.table` field is required to create `" ++
                    service ++ "` connector")
                else
                  .ok (mapSet result "table" tableValue.ValueString)
            else
              .ok result

/-- The method `GetDestinatonSchemaForConfig` of the connector model: the
service is the struct field `d.Service`, and the three attributes are read from
the attribute map of `d.DestinationSchema`, where a missing key (every key,
when the object is null) reads as the nil interface. -/
def GetDestinatonSchemaForConfig (destinationSchemaFields : List (String × List (String × Bool)))
    (Service : StringValue) (DestinationSchemaAttributes : List (String × StringValue)) :
    Outcome (List (String × String)) :=
  getDestinatonSchemaForConfig destinationSchemaFields (some Service)
    (mapGet DestinationSchemaAttributes "name")
    (mapGet DestinationSchemaAttributes "table")
    (mapGet DestinationSchemaAttributes "prefix")

/-- The function `getDestinationSchemaValuesMap`, with the table
`common.GetDestinationSchemaFields()` as a parameter. -/
def getDestinationSchemaValuesMap (destinationSchemaFields : List (String × List (String × Bool)))
    (service schema : String) : Outcome (List (String × StringValue)) :=
  match mapGet destinationSchemaFields service with
  | none => .panic ("unknown connector service: `" ++ service ++ "`")
  | some flags =>
    if flag flags "schema_prefix" then
      .ok [("name", .null), ("table", .null), ("prefix", .value schema)]
    else
      let result : List (String × StringValue) := [("table", .null), ("prefix", .null)]
      let s := (splitDots schema.data).map String.mk
      let result := mapSet result "name" (.value (s.headD ""))
      if s.length > 1 ∧ flag flags "table" = true then
        .ok (mapSet result "table" (.value (s.getD 1 "")))
      else
        .ok result

/-- The function `getDestinationSchemaValue`, which `ReadFromContainer` calls:
the object built from the attribute map, or the panic of the lookup. -/
def getDestinationSchemaValue (destinationSchemaFields : List (String × List (String × Bool)))
    (service schema : String) : Outcome (List (String × StringValue)) :=
  getDestinationSchemaValuesMap destinationSchemaFields service schema

/-! ## Maps -/

theorem mapGet_mapSet_self {α : Type} (m : List (String × α)) (k : String) (v : α) :
    mapGet (mapSet m k v) k = some v := by
  induction m with
  | nil => simp [mapSet, mapGet]
  | cons kv rest ih =>
    obtain ⟨k', x⟩ := kv
    by_cases h : k' = k
    · simp [mapSet, mapGet, h]
    · simp [mapSet, mapGet, h, ih]

theorem mapGet_mapSet_ne {α : Type} (m : List (String × α)) {k k' : String} (v : α)
    (h : k' ≠ k) : mapGet (mapSet m k v) k' = mapGet m k' := by
  induction m with
  | nil =>
    have h' : ¬ k = k' := fun e => h e.symm
    simp [mapSet, mapGet, h']
  | cons kv rest ih =>
    obtain ⟨k0, x⟩ := kv
    by_cases h0 : k0 = k
    · subst h0
      have h' : ¬ k0 = k' := fun e => h e.symm
      simp [mapSet, mapGet, h']
    · by_cases h1 : k0 = k'
      · subst h1
        simp [mapSet, mapGet, h0]
      · simp [mapSet, mapGet, h0, h1, ih]

theorem mapGet_eq_none_iff {α : Type} (m : List (String × α)) (k : String) :
    mapGet m k = none ↔ k ∉ mapKeys m := by
  induction m with
  | nil => simp [mapGet, mapKeys]
  | cons kv rest ih =>
    obtain ⟨k0, x⟩ := kv
    by_cases h0 : k0 = k
    · simp [mapGet, mapKeys, h0]
    · have h0' : ¬ k = k0 := fun e => h0 e.symm
      simp only [mapKeys] at ih
      simp [mapGet, mapKeys, h0, h0', ih]

theorem mapGet_isSome_iff {α : Type} (m : List (String × α)) (k : String) :
    (∃ v, mapGet m k = some v) ↔ k ∈ mapKeys m := by
  have := mapGet_eq_none_iff m k
  cases h : mapGet m k with
  | none => simp [h] at this ⊢; exact this
  | some v =>
    simp [h] at this ⊢
    exact this

theorem mem_of_mapGet {α : Type} {m : List (String × α)} {k : String} {v : α}
    (h : mapGet m k = some v) : (k, v) ∈ m := by
  induction m with
  | nil => simp [mapGet] at h
  | cons kv rest ih =>
    obtain ⟨k0, x⟩ := kv
    by_cases h0 : k0 = k
    · simp [mapGet, h0] at h
      simp [h0, h]
    · simp [mapGet, h0] at h
      exact List.mem_cons_of_mem _ (ih h)

theorem mapGet_of_mem {α : Type} {m : List (String × α)} {k : String} {v : α}
    (hnd : (mapKeys m).Nodup) (h : (k, v) ∈ m) : mapGet m k = some v := by
  induction m with
  | nil => simp at h
  | cons kv rest ih =>
    obtain ⟨k0, x⟩ := kv
    simp only [mapKeys, List.map_cons, List.nodup_cons] at hnd
    rcases List.mem_cons.mp h with h1 | h1
    · simp only [Prod.mk.injEq] at h1
      simp [mapGet, h1.1, h1.2]
    · have hk : k ∈ rest.map Prod.fst := List.mem_map.mpr ⟨(k, v), h1, rfl⟩
      have h0 : k0 ≠ k := fun e => hnd.1 (e ▸ hk)
      simp [mapGet, h0]
      exact ih hnd.2 h1

theorem mapKeys_mapSet_of_not_mem {α : Type} (m : List (String × α)) (k : String) (v : α)
    (h : k ∉ mapKeys m) : mapKeys (mapSet m k v) = mapKeys m ++ [k] := by
  induction m with
  | nil => simp [mapSet, mapKeys]
  | cons kv rest ih =>
    obtain ⟨k0, x⟩ := kv
    simp only [mapKeys, List.map_cons, List.mem_cons, not_or] at h
    have h0 : ¬ k0 = k := fun e => h.1 e.symm
    simp only [mapKeys] at ih
    simp [mapSet, mapKeys, h0, ih h.2]

theorem mapKeys_mapSet_of_mem {α : Type} (m : List (String × α)) (k : String) (v : α)
    (h : k ∈ mapKeys m) : mapKeys (mapSet m k v) = mapKeys m := by
  induction m with
  | nil => simp [mapKeys] at h
  | cons kv rest ih =>
    obtain ⟨k0, x⟩ := kv
    by_cases h0 : k0 = k
    · simp [mapSet, mapKeys, h0]
    · simp only [mapKeys, List.map_cons, List.mem_cons] at h
      have hr : k ∈ mapKeys rest := by
        rcases h with h | h
        · exact absurd h.symm h0
        · exact h
      simp only [mapKeys] at ih
      simp [mapSet, mapKeys, h0, ih hr]

theorem mem_mapKeys_mapSet {α : Type} (m : List (String × α)) (k k' : String) (v : α) :
    k' ∈ mapKeys (mapSet m k v) ↔ k' = k ∨ k' ∈ mapKeys m := by
  by_cases h : k ∈ mapKeys m
  · rw [mapKeys_mapSet_of_mem m k v h]
    constructor
    · exact Or.inr
    · rintro (e | e)
      · exact e ▸ h
      · exact e
  · rw [mapKeys_mapSet_of_not_mem m k v h]
    simp [or_comm]

theorem nodup_mapKeys_mapSet {α : Type} (m : List (String × α)) (k : String) (v : α)
    (h : (mapKeys m).Nodup) : (mapKeys (mapSet m k v)).Nodup := by
  by_cases hk : k ∈ mapKeys m
  · rw [mapKeys_mapSet_of_mem m k v hk]; exact h
  · rw [mapKeys_mapSet_of_not_mem m k v hk]
    exact List.nodup_append.mpr ⟨h, List.nodup_singleton k, by
      intro a ha hb
      simp at hb
      exact hk (hb ▸ ha)⟩

/-! ## The field table builder: unfolding -/

theorem Path_items_type (node : Json) :
    Path node "items.type" = Search node ["items", "type"] := by
  have hp : DotPathToSlice "items.type" = ["items", "type"] := by decide
  rw [Path, hp]

theorem Path_items_properties (node : Json) :
    Path node "items.properties" = Search node ["items", "properties"] := by
  have hp : DotPathToSlice "items.properties" = ["items", "properties"] := by decide
  rw [Path, hp]

theorem createFields_eq (nodesMap : List (String × Json)) :
    createFields nodesMap = createFieldsLoop [] nodesMap := by
  rw [createFields]

theorem createFieldsLoop_nil (fields : Fields) : createFieldsLoop fields [] = some fields := by
  rw [createFieldsLoop]

theorem createFieldsLoop_cons (fields : Fields) (key : String) (node : Json)
    (rest : List (String × Json)) :
    createFieldsLoop fields ((key, node) :: rest) =
      match createField node with
      | none => none
      | some nodeSchema => createFieldsLoop (mapSet fields key nodeSchema) rest := by
  rw [createFieldsLoop, createField]
  cases assertDescription (Data (Search node ["description"])) with
  | none => rfl
  | some description =>
    simp only
    split_ifs <;> rfl

theorem getArrayFieldSchema_eq (node : Json) :
    getArrayFieldSchema node =
      if isString (Data (Path node "items.type")) OBJECT_FIELD = true ∧
          (ChildrenMap (Path node "items.properties")).length > 0 then
        match createFields (ChildrenMap (Path node "items.properties")) with
        | none => none
        | some childrenSchemaMap =>
          some (.mk .TypeSet true true false "" (.resource childrenSchemaMap))
      else some stringSetSchema := by
  rw [getArrayFieldSchema]
  simp only [stringSetSchema]
  split_ifs <;> rfl

theorem Search_description (node : Json) (h : node.textDescriptions = true) :
    (assertDescription (Data (Search node ["description"]))).isSome = true := by
  cases node with
  | obj members =>
    simp only [Json.textDescriptions, Bool.and_eq_true] at h
    simp only [Search]
    cases hm : mapGet members "description" with
    | none => simp [Data, assertDescription]
    | some o =>
      have := h.1
      rw [hm] at this
      simpa [Search] using this
  | arr items =>
    have ha : Atoi "description" = none := by decide
    simp [Search, ha, Data, assertDescription]
  | null => simp [Search, Data, assertDescription]
  | bool b => simp [Search, Data, assertDescription]
  | num n => simp [Search, Data, assertDescription]
  | str s => simp [Search, Data, assertDescription]

theorem textDescriptions_of_mapGet {members : List (String × Json)} {key : String} {v : Json}
    (h : textDescriptionsMembers members = true) (hv : mapGet members key = some v) :
    v.textDescriptions = true := by
  induction members with
  | nil => simp [mapGet] at hv
  | cons kv rest ih =>
    obtain ⟨k0, x⟩ := kv
    simp only [textDescriptionsMembers, Bool.and_eq_true] at h
    by_cases h0 : k0 = key
    · simp [mapGet, h0] at hv
      exact hv ▸ h.1
    · simp [mapGet, h0] at hv
      exact ih h.2 hv

theorem textDescriptions_items_properties (node : Json) (h : node.textDescriptions = true) :
    textDescriptionsMembers (ChildrenMap (Path node "items.properties")) = true := by
  rw [Path_items_properties]
  cases node with
  | obj members =>
    simp only [Json.textDescriptions, Bool.and_eq_true] at h
    simp only [Search]
    cases hm : mapGet members "items" with
    | none => simp [ChildrenMap, textDescriptionsMembers]
    | some items =>
      have hi := textDescriptions_of_mapGet h.2 hm
      cases items with
      | obj imembers =>
        simp only [Json.textDescriptions, Bool.and_eq_true] at hi
        simp only [Search]
        cases hp : mapGet imembers "properties" with
        | none => simp [ChildrenMap, textDescriptionsMembers]
        | some props =>
          have hpp := textDescriptions_of_mapGet hi.2 hp
          cases props with
          | obj pm =>
            simp only [Json.textDescriptions, Bool.and_eq_true] at hpp
            simpa [Search, ChildrenMap] using hpp.2
          | arr a => simp [Search, ChildrenMap, textDescriptionsMembers]
          | null => simp [Search, ChildrenMap, textDescriptionsMembers]
          | bool b => simp [Search, ChildrenMap, textDescriptionsMembers]
          | num n => simp [Search, ChildrenMap, textDescriptionsMembers]
          | str s => simp [Search, ChildrenMap, textDescriptionsMembers]
      | arr a =>
        have ha : Atoi "properties" = none := by decide
        simp [Search, ha, ChildrenMap, textDescriptionsMembers]
      | null => simp [Search, ChildrenMap, textDescriptionsMembers]
      | bool b => simp [Search, ChildrenMap, textDescriptionsMembers]
      | num n => simp [Search, ChildrenMap, textDescriptionsMembers]
      | str s => simp [Search, ChildrenMap, textDescriptionsMembers]
  | arr items =>
    have ha : Atoi "items" = none := by decide
    simp [Search, ha, ChildrenMap, textDescriptionsMembers]
  | null => simp [Search, ChildrenMap, textDescriptionsMembers]
  | bool b => simp [Search, ChildrenMap, textDescriptionsMembers]
  | num n => simp [Search, ChildrenMap, textDescriptionsMembers]
  | str s => simp [Search, ChildrenMap, textDescriptionsMembers]

/-- With text descriptions throughout, `createFields` does not panic. -/
theorem createFieldsLoop_total_aux (n : Nat) :
    ∀ (nodesMap : List (String × Json)), sizeOf nodesMap ≤ n →
      textDescriptionsMembers nodesMap = true →
      ∀ fields : Fields, ∃ out, createFieldsLoop fields nodesMap = some out := by
  induction n with
  | zero =>
    intro nodesMap hn
    cases nodesMap <;> simp at hn
  | succ n ih =>
    intro nodesMap hn ht fields
    cases nodesMap with
    | nil => exact ⟨fields, createFieldsLoop_nil fields⟩
    | cons kv rest =>
      obtain ⟨key, node⟩ := kv
      simp only [textDescriptionsMembers, Bool.and_eq_true] at ht
      have hsz : sizeOf rest ≤ n ∧ sizeOf node ≤ n := by
        simp at hn
        omega
      have hfield : ∃ s, createField node = some s := by
        have hd := Search_description node ht.1
        obtain ⟨description, hdesc⟩ := Option.isSome_iff_exists.mp hd
        rw [createField, hdesc]
        simp only
        split_ifs
        · exact ⟨_, rfl⟩
        · exact ⟨_, rfl⟩
        · exact ⟨_, rfl⟩
        · rw [getArrayFieldSchema_eq]
          split_ifs with hobj
          · have hlt := sizeOf_items_properties node hobj.2
            obtain ⟨out, hout⟩ := ih (ChildrenMap (Path node "items.properties"))
              (by omega) (textDescriptions_items_properties node ht.1) []
            rw [createFields_eq, hout]
            exact ⟨_, rfl⟩
          · exact ⟨_, rfl⟩
        · exact ⟨_, rfl⟩
      obtain ⟨s, hs⟩ := hfield
      rw [createFieldsLoop_cons, hs]
      exact ih rest hsz.1 ht.2 _

theorem createFields_total (nodesMap : List (String × Json))
    (ht : textDescriptionsMembers nodesMap = true) :
    ∃ out, createFields nodesMap = some out := by
  rw [createFields_eq]
  exact createFieldsLoop_total_aux _ nodesMap (Nat.le_refl _) ht []

theorem createFieldsLoop_get_of_not_mem (nodesMap : List (String × Json)) :
    ∀ (fields out : Fields) (k : String), createFieldsLoop fields nodesMap = some out →
      k ∉ mapKeys nodesMap → mapGet out k = mapGet fields k := by
  induction nodesMap with
  | nil =>
    intro fields out k h _
    rw [createFieldsLoop_nil] at h
    simp only [Option.some.injEq] at h
    rw [h]
  | cons kv rest ih =>
    intro fields out k h hk
    obtain ⟨key, node⟩ := kv
    simp only [mapKeys, List.map_cons, List.mem_cons, not_or] at hk
    rw [createFieldsLoop_cons] at h
    cases hs : createField node with
    | none => simp [hs] at h
    | some s =>
      rw [hs] at h
      rw [ih _ out k h hk.2, mapGet_mapSet_ne _ _ hk.1]

theorem createFieldsLoop_get_of_mem (nodesMap : List (String × Json)) :
    ∀ (fields out : Fields) (key : String) (node : Json),
      createFieldsLoop fields nodesMap = some out → (mapKeys nodesMap).Nodup →
      (key, node) ∈ nodesMap → ∃ d, createField node = some d ∧ mapGet out key = some d := by
  induction nodesMap with
  | nil =>
    intro fields out key node _ _ hmem
    simp at hmem
  | cons kv rest ih =>
    intro fields out key node h hnd hmem
    obtain ⟨k0, n0⟩ := kv
    simp only [mapKeys, List.map_cons, List.nodup_cons] at hnd
    rw [createFieldsLoop_cons] at h
    cases hs : createField n0 with
    | none => simp [hs] at h
    | some s =>
      rw [hs] at h
      rcases List.mem_cons.mp hmem with h1 | h1
      · simp only [Prod.mk.injEq] at h1
        obtain ⟨hk, hn⟩ := h1
        subst hk hn
        refine ⟨s, hs, ?_⟩
        rw [createFieldsLoop_get_of_not_mem rest _ out key h hnd.1, mapGet_mapSet_self]
      · exact ih _ out key node h hnd.2 h1

theorem createFieldsLoop_keys (nodesMap : List (String × Json)) :
    ∀ (fields out : Fields), createFieldsLoop fields nodesMap = some out →
      (mapKeys nodesMap).Nodup → (∀ k ∈ mapKeys nodesMap, k ∉ mapKeys fields) →
      mapKeys out = mapKeys fields ++ mapKeys nodesMap := by
  induction nodesMap with
  | nil =>
    intro fields out h _ _
    rw [createFieldsLoop_nil] at h
    simp only [Option.some.injEq] at h
    simp [← h, mapKeys]
  | cons kv rest ih =>
    intro fields out h hnd hdis
    obtain ⟨k0, n0⟩ := kv
    simp only [mapKeys, List.map_cons, List.nodup_cons] at hnd
    rw [createFieldsLoop_cons] at h
    cases hs : createField n0 with
    | none => simp [hs] at h
    | some s =>
      rw [hs] at h
      have hk0 : k0 ∉ mapKeys fields := hdis k0 (by simp [mapKeys])
      have hkeys := mapKeys_mapSet_of_not_mem fields k0 s hk0
      have := ih _ out h hnd.2 (by
        intro k hk
        rw [hkeys]
        simp only [List.mem_append, List.mem_singleton, not_or]
        refine ⟨hdis k (by simp only [mapKeys, List.map_cons, List.mem_cons]; exact Or.inr hk), ?_⟩
        intro e
        exact hnd.1 (e ▸ hk))
      rw [this, hkeys]
      simp [mapKeys]

theorem createFieldsLoop_nodup (nodesMap : List (String × Json)) :
    ∀ (fields out : Fields), createFieldsLoop fields nodesMap = some out →
      (mapKeys fields).Nodup → (mapKeys out).Nodup := by
  induction nodesMap with
  | nil =>
    intro fields out h hnd
    rw [createFieldsLoop_nil] at h
    simp only [Option.some.injEq] at h
    exact h ▸ hnd
  | cons kv rest ih =>
    intro fields out h hnd
    obtain ⟨k0, n0⟩ := kv
    rw [createFieldsLoop_cons] at h
    cases hs : createField n0 with
    | none => simp [hs] at h
    | some s =>
      rw [hs] at h
      exact ih _ out h (nodup_mapKeys_mapSet fields k0 s hnd)

theorem createFields_nodup {nodesMap : List (String × Json)} {out : Fields}
    (h : createFields nodesMap = some out) : (mapKeys out).Nodup := by
  rw [createFields_eq] at h
  exact createFieldsLoop_nodup nodesMap [] out h (by simp [mapKeys])

theorem getArrayFieldSchema_shape {node : Json} {d : Schema}
    (h : getArrayFieldSchema node = some d) :
    d.Type_ = .TypeSet ∧ d.Sensitive = false ∧ d.Description = "" ∧
      ((∃ nested, d.Elem_ = .resource nested) ∨
        d.Elem_ = .schema (.mk .TypeString false false false "" .nil)) := by
  rw [getArrayFieldSchema_eq] at h
  split_ifs at h
  · cases hc : createFields (ChildrenMap (Path node "items.properties")) with
    | none => simp [hc] at h
    | some m =>
      simp only [hc, Option.some.injEq] at h
      subst h
      exact ⟨rfl, rfl, rfl, Or.inl ⟨m, rfl⟩⟩
  · simp only [Option.some.injEq] at h
    subst h
    exact ⟨rfl, rfl, rfl, Or.inr rfl⟩

/-- Claim C8: for a property map (distinct keys) whose descriptions are texts,
`createFields` returns a table with exactly the keys of the map, and for every
property node: with format `password` the descriptor is a sensitive string
whatever the declared type; otherwise it is not sensitive and its kind is
integer for type `integer`, boolean for `boolean`, set for `array`, and string
for any other or absent type. -/
theorem createFields_classifies (nodesMap : List (String × Json))
    (hmap : (mapKeys nodesMap).Nodup)
    (htext : textDescriptionsMembers nodesMap = true) :
    ∃ fields, createFields nodesMap = some fields ∧
      mapKeys fields = mapKeys nodesMap ∧
      ∀ key node, (key, node) ∈ nodesMap →
        ∃ d, mapGet fields key = some d ∧
          (isString (Data (Search node ["format"])) "password" = true →
            d.Sensitive = true ∧ d.Type_ = .TypeString) ∧
          (isString (Data (Search node ["format"])) "password" = false →
            d.Sensitive = false ∧
            d.Type_ =
              (if isString (Data (Search node ["type"])) "integer" then .TypeInt
               else if isString (Data (Search node ["type"])) "boolean" then .TypeBool
               else if isString (Data (Search node ["type"])) "array" then .TypeSet
               else .TypeString)) := by
  obtain ⟨fields, hf⟩ := createFields_total nodesMap htext
  refine ⟨fields, hf, ?_, ?_⟩
  · rw [createFields_eq] at hf
    have := createFieldsLoop_keys nodesMap [] fields hf hmap (by simp [mapKeys])
    simpa [mapKeys] using this
  · intro key node hmem
    rw [createFields_eq] at hf
    obtain ⟨d, hd, hget⟩ := createFieldsLoop_get_of_mem nodesMap [] fields key node hf hmap hmem
    refine ⟨d, hget, ?_, ?_⟩
    · intro hpw
      rw [createField] at hd
      cases hdesc : assertDescription (Data (Search node ["description"])) with
      | none => simp [hdesc] at hd
      | some description =>
        simp only [hdesc, hpw, if_true, Option.some.injEq] at hd
        subst hd
        exact ⟨rfl, rfl⟩
    · intro hpw
      rw [createField] at hd
      cases hdesc : assertDescription (Data (Search node ["description"])) with
      | none => simp [hdesc] at hd
      | some description =>
        simp only [hdesc, hpw, Bool.false_eq_true, if_false, INT_FIELD, BOOL_FIELD, ARRAY_FIELD] at hd
        split_ifs at hd ⊢
        · simp only [Option.some.injEq] at hd; subst hd; exact ⟨rfl, rfl⟩
        · simp only [Option.some.injEq] at hd; subst hd; exact ⟨rfl, rfl⟩
        · have := getArrayFieldSchema_shape hd
          exact ⟨this.2.1, this.1⟩
        · simp only [Option.some.injEq] at hd; subst hd; exact ⟨rfl, rfl⟩

theorem createFields_classifies_witness :
    ∃ fields, createFields
        [("token", .obj [("type", .str "integer"), ("format", .str "password")]),
         ("ids", .obj [("type", .str "array")]), ("port", .obj [("type", .str "integer")]),
         ("host", .obj [("description", .str "The host.")])] = some fields ∧
      mapKeys fields = mapKeys
        [("token", Json.obj [("type", .str "integer"), ("format", .str "password")]),
         ("ids", .obj [("type", .str "array")]), ("port", .obj [("type", .str "integer")]),
         ("host", .obj [("description", .str "The host.")])] ∧
      ∀ key node, (key, node) ∈
        [("token", Json.obj [("type", .str "integer"), ("format", .str "password")]),
         ("ids", .obj [("type", .str "array")]), ("port", .obj [("type", .str "integer")]),
         ("host", .obj [("description", .str "The host.")])] →
        ∃ d, mapGet fields key = some d ∧
          (isString (Data (Search node ["format"])) "password" = true →
            d.Sensitive = true ∧ d.Type_ = .TypeString) ∧
          (isString (Data (Search node ["format"])) "password" = false →
            d.Sensitive = false ∧
            d.Type_ =
              (if isString (Data (Search node ["type"])) "integer" then .TypeInt
               else if isString (Data (Search node ["type"])) "boolean" then .TypeBool
               else if isString (Data (Search node ["type"])) "array" then .TypeSet
               else .TypeString)) :=
  createFields_classifies _ (by decide) (by decide)

/-- Claim C9, the code at the failing input: an array-typed property with a
description text gets a descriptor whose description is empty. -/
theorem createFields_array_description_dropped :
    createFields [("report_suites", .obj [("type", .str "array"),
        ("description", .str "Specific report suites to sync.")])] =
      some [("report_suites", .mk .TypeSet true true false ""
        (.schema (.mk .TypeString false false false "" .nil)))] := by
  simp [createFields, createFieldsLoop, getArrayFieldSchema, Path_items_type,
    Path_items_properties, Search, mapGet, Data, assertDescription, isString, mapSet,
    INT_FIELD, BOOL_FIELD, ARRAY_FIELD, OBJECT_FIELD, ChildrenMap]

/-- Claim C10: for a property node whose descriptions are texts,
`getArrayFieldSchema` returns a set descriptor; when the items are not objects
with declared sub-properties its element is a string, and when the items have
type `object` with declared sub-properties its element is the nested table
that `createFields` (the same builder, so at any depth) returns for the items'
properties.  It is the descriptor `createFields` stores for an array-typed
node without the password format. -/
theorem getArrayFieldSchema_nested (node : Json) (htext : node.textDescriptions = true) :
    ∃ d, getArrayFieldSchema node = some d ∧ d.Type_ = .TypeSet ∧
      (¬ (isString (Data (Path node "items.type")) "object" = true ∧
          ChildrenMap (Path node "items.properties") ≠ []) →
        d.Elem_ = .schema (.mk .TypeString false false false "" .nil)) ∧
      ((isString (Data (Path node "items.type")) "object" = true ∧
          ChildrenMap (Path node "items.properties") ≠ []) →
        ∃ nested, createFields (ChildrenMap (Path node "items.properties")) = some nested ∧
          d.Elem_ = .resource nested) ∧
      (∀ key, isString (Data (Search node ["format"])) "password" = false →
        isString (Data (Search node ["type"])) "array" = true →
        createFields [(key, node)] = some [(key, d)]) := by
  have hlen : ∀ l : List (String × Json), l.length > 0 ↔ l ≠ [] := by
    intro l; cases l <;> simp
  have harr : ∀ d, getArrayFieldSchema node = some d →
      ∀ key, isString (Data (Search node ["format"])) "password" = false →
        isString (Data (Search node ["type"])) "array" = true →
        createFields [(key, node)] = some [(key, d)] := by
    intro d hd key hpw hty
    obtain ⟨description, hdesc⟩ := Option.isSome_iff_exists.mp (Search_description node htext)
    have hint : isString (Data (Search node ["type"])) INT_FIELD = false := by
      cases hn : Data (Search node ["type"]) <;> simp [hn, isString, INT_FIELD] at hty ⊢
      subst hty; decide
    have hbool : isString (Data (Search node ["type"])) BOOL_FIELD = false := by
      cases hn : Data (Search node ["type"]) <;> simp [hn, isString, BOOL_FIELD] at hty ⊢
      subst hty; decide
    rw [createFields_eq, createFieldsLoop_cons, createField, hdesc]
    simp only [hpw, hint, hbool, ARRAY_FIELD, hty, Bool.false_eq_true, if_false, if_true, hd,
      createFieldsLoop_nil, mapSet]
  have hcond : (isString (Data (Path node "items.type")) OBJECT_FIELD = true ∧
      (ChildrenMap (Path node "items.properties")).length > 0) ↔
      (isString (Data (Path node "items.type")) "object" = true ∧
        ChildrenMap (Path node "items.properties") ≠ []) := by
    rw [hlen]; rfl
  by_cases hobj : isString (Data (Path node "items.type")) "object" = true ∧
      ChildrenMap (Path node "items.properties") ≠ []
  · obtain ⟨nested, hn⟩ := createFields_total _ (textDescriptions_items_properties node htext)
    have hd : getArrayFieldSchema node =
        some (.mk .TypeSet true true false "" (.resource nested)) := by
      rw [getArrayFieldSchema_eq, if_pos (hcond.mpr hobj), hn]
    exact ⟨_, hd, rfl, fun h => absurd hobj h, fun _ => ⟨nested, hn, rfl⟩, harr _ hd⟩
  · have hd : getArrayFieldSchema node = some stringSetSchema := by
      rw [getArrayFieldSchema_eq, if_neg (fun h => hobj (hcond.mp h))]
    exact ⟨_, hd, rfl, fun _ => rfl, fun h => absurd h hobj, harr _ hd⟩

theorem getArrayFieldSchema_nested_witness :
    (Json.obj [("type", .str "array"), ("items", .obj [("type", .str "object"),
        ("properties", .obj [("ids", .obj [("type", .str "array"),
          ("items", .obj [("type", .str "object"),
            ("properties", .obj [("id", .obj [("type", .str "integer")])])])])])])]).textDescriptions
      = true ∧
    ∃ d, getArrayFieldSchema (Json.obj [("type", .str "array"),
        ("items", .obj [("type", .str "object"),
        ("properties", .obj [("ids", .obj [("type", .str "array"),
          ("items", .obj [("type", .str "object"),
            ("properties", .obj [("id", .obj [("type", .str "integer")])])])])])])]) = some d ∧
      d.Elem_ = .resource [("ids", .mk .TypeSet true true false ""
        (.resource [("id", .mk .TypeInt true true false "" .nil)]))] := by
  refine ⟨by decide, ?_⟩
  obtain ⟨d, hd, _, _, hobj, _⟩ := getArrayFieldSchema_nested
    (Json.obj [("type", .str "array"), ("items", .obj [("type", .str "object"),
        ("properties", .obj [("ids", .obj [("type", .str "array"),
          ("items", .obj [("type", .str "object"),
            ("properties", .obj [("id", .obj [("type", .str "integer")])])])])])])])
    (by decide)
  refine ⟨d, hd, ?_⟩
  obtain ⟨nested, hn, he⟩ := hobj (by
    simp [Path_items_type, Path_items_properties, Search, mapGet, Data, isString, ChildrenMap])
  rw [he]
  have : createFields (ChildrenMap (Path (Json.obj [("type", .str "array"),
        ("items", .obj [("type", .str "object"),
        ("properties", .obj [("ids", .obj [("type", .str "array"),
          ("items", .obj [("type", .str "object"),
            ("properties", .obj [("id", .obj [("type", .str "integer")])])])])])])])
        "items.properties")) =
      some [("ids", .mk .TypeSet true true false ""
        (.resource [("id", .mk .TypeInt true true false "" .nil)]))] := by
    simp [createFields, createFieldsLoop, getArrayFieldSchema, Path_items_type,
      Path_items_properties, Search, mapGet, Data, assertDescription, isString, mapSet,
      INT_FIELD, BOOL_FIELD, ARRAY_FIELD, OBJECT_FIELD, ChildrenMap]
  rw [this] at hn
  simp only [Option.some.injEq] at hn
  rw [hn]

/-! ## The fold of `getFields`: one step -/

theorem updateExistingValue_ok (e v : Schema) :
    (updateExistingValue e v).2 = true ↔
      (∃ es, e.Elem_ = .resource es) ∧ (∃ ns, v.Elem_ = .resource ns) := by
  obtain ⟨t, o, c, s, d, el⟩ := e
  obtain ⟨t', o', c', s', d', el'⟩ := v
  cases el <;> cases el' <;> simp [updateExistingValue, Schema.Elem_]

theorem updateExistingValue_not_ok (e v : Schema) (h : (updateExistingValue e v).2 = false) :
    (updateExistingValue e v).1 = e := by
  obtain ⟨t, o, c, s, d, el⟩ := e
  obtain ⟨t', o', c', s', d', el'⟩ := v
  cases el <;> cases el' <;> simp [updateExistingValue, Schema.Elem_] at h ⊢

theorem updateExistingValue_resource (t : ValueType) (o c s : Bool) (d : String)
    (es ns : Fields) (v : Schema) (hv : v.Elem_ = .resource ns) :
    updateExistingValue (.mk t o c s d (.resource es)) v =
      (.mk t o c s d (.resource (ns.foldl (fun m kv => mapSet m kv.1 kv.2) es)), true) := by
  simp [updateExistingValue, hv]

/-- The step of the fold for a descriptor whose element is no `[]string`, as
every descriptor of `createFields` is. -/
theorem foldProperty_eq (ToLower : String → String) (service : String) (t : FieldTable)
    (property : String) (value : Schema) (hv : ∀ l, value.Elem_ ≠ .strings l) :
    foldProperty ToLower service t property value =
      match mapGet t.fields property with
      | none => t.store property value
      | some existingRef =>
        match t.heap[existingRef]? with
        | none => t.store property value
        | some existingValue =>
          if existingValue.Type_ ≠ value.Type_ then t.store (service ++ property) value
          else if existingValue.Type_ = .TypeSet then
            ⟨mapSet t.fields
                (if (updateExistingValue existingValue value).2 then property
                 else ToLower (service ++ "_" ++ property)) existingRef,
              t.heap.set existingRef (updateExistingValue existingValue value).1⟩
          else t.store property value := by
  unfold foldProperty
  cases mapGet t.fields property with
  | none => rfl
  | some r =>
    simp only
    cases t.heap[r]? with
    | none => rfl
    | some e =>
      simp only
      have hp : (match value.Elem_, e.Elem_ with
          | .strings _, .strings _ => property
          | .strings _, _ => service ++ "." ++ property
          | _, _ => property) = property := by
        cases hve : value.Elem_ with
        | strings l => exact absurd hve (hv l)
        | nil => rfl
        | schema x => rfl
        | resource ns => rfl
      rw [hp]

theorem Valid_empty : FieldTable.empty.Valid := by
  intro k r h
  simp [FieldTable.empty, mapGet] at h

theorem Owns_empty (K : List String) : FieldTable.empty.Owns K := by
  intro k k' r _ h
  simp [FieldTable.empty, mapGet] at h

theorem get_empty (k : String) : FieldTable.empty.get k = none := by
  simp [FieldTable.get, FieldTable.empty, mapGet]

theorem Valid_store {t : FieldTable} (h : t.Valid) (q : String) (v : Schema) :
    (t.store q v).Valid := by
  intro k r hk
  simp only [FieldTable.store, List.length_append, List.length_singleton] at hk ⊢
  by_cases e : k = q
  · subst e
    rw [mapGet_mapSet_self] at hk
    simp only [Option.some.injEq] at hk
    omega
  · rw [mapGet_mapSet_ne _ _ e] at hk
    have := h k r hk
    omega

theorem Owns_store {t : FieldTable} (h : t.Valid) {K : List String} (ho : t.Owns K)
    (q : String) (v : Schema) : (t.store q v).Owns K := by
  intro k k' r hk hkr hk'r
  simp only [FieldTable.store] at hkr hk'r
  by_cases e : k = q
  · subst e
    rw [mapGet_mapSet_self] at hkr
    simp only [Option.some.injEq] at hkr
    by_cases e' : k' = k
    · exact e' ▸ hk
    · rw [mapGet_mapSet_ne _ _ e'] at hk'r
      have := h k' r hk'r
      omega
  · rw [mapGet_mapSet_ne _ _ e] at hkr
    by_cases e' : k' = q
    · subst e'
      rw [mapGet_mapSet_self] at hk'r
      simp only [Option.some.injEq] at hk'r
      have := h k r hkr
      omega
    · rw [mapGet_mapSet_ne _ _ e'] at hk'r
      exact ho k k' r hk hkr hk'r

theorem get_store_self {t : FieldTable} (q : String) (v : Schema) :
    (t.store q v).get q = some v := by
  simp [FieldTable.get, FieldTable.store, mapGet_mapSet_self]

theorem get_store_ne {t : FieldTable} (h : t.Valid) {q k : String} (v : Schema) (hk : k ≠ q) :
    (t.store q v).get k = t.get k := by
  simp only [FieldTable.get, FieldTable.store, mapGet_mapSet_ne _ _ hk]
  cases hr : mapGet t.fields k with
  | none => rfl
  | some r =>
    have := h k r hr
    simp only
    rw [List.getElem?_append_left this]

theorem SameOn_refl (K : List String) (t : FieldTable) : SameOn K t t :=
  fun _ _ => ⟨rfl, rfl⟩

theorem SameOn_trans {K : List String} {t t' t'' : FieldTable}
    (h : SameOn K t t') (h' : SameOn K t' t'') : SameOn K t t'' :=
  fun k hk => ⟨(h' k hk).1.trans (h k hk).1, (h' k hk).2.trans (h k hk).2⟩

theorem SameOn_store {K : List String} {t : FieldTable} (h : t.Valid) {q : String}
    (v : Schema) (hq : q ∉ K) : SameOn K t (t.store q v) := by
  intro k hk
  have hkq : k ≠ q := fun e => hq (e ▸ hk)
  exact ⟨by simp only [FieldTable.store]; exact mapGet_mapSet_ne _ _ hkq, get_store_ne h v hkq⟩

theorem Valid_update {t : FieldTable} (h : t.Valid) {p : String} {r : Nat}
    (hp : mapGet t.fields p = some r) (q : String) (u : Schema) :
    FieldTable.Valid ⟨mapSet t.fields q r, t.heap.set r u⟩ := by
  intro k r' hk
  simp only [List.length_set] at hk ⊢
  by_cases e : k = q
  · subst e
    rw [mapGet_mapSet_self] at hk
    simp only [Option.some.injEq] at hk
    exact hk ▸ h p r hp
  · rw [mapGet_mapSet_ne _ _ e] at hk
    exact h k r' hk

theorem Owns_update {t : FieldTable} {K : List String} (ho : t.Owns K) {p : String} {r : Nat}
    (hp : mapGet t.fields p = some r) {q : String} (hpq : p ∈ K ↔ q ∈ K) (u : Schema) :
    FieldTable.Owns ⟨mapSet t.fields q r, t.heap.set r u⟩ K := by
  intro k k' r' hk hkr hk'r
  simp only at hkr hk'r
  by_cases e : k = q
  · subst e
    rw [mapGet_mapSet_self] at hkr
    simp only [Option.some.injEq] at hkr
    subst hkr
    by_cases e' : k' = k
    · exact e' ▸ hk
    · rw [mapGet_mapSet_ne _ _ e'] at hk'r
      exact ho p k' r (hpq.mpr hk) hp hk'r
  · rw [mapGet_mapSet_ne _ _ e] at hkr
    by_cases e' : k' = q
    · subst e'
      rw [mapGet_mapSet_self] at hk'r
      simp only [Option.some.injEq] at hk'r
      subst hk'r
      exact hpq.mp (ho k p r hk hkr hp)
    · rw [mapGet_mapSet_ne _ _ e'] at hk'r
      exact ho k k' r' hk hkr hk'r

theorem SameOn_update {t : FieldTable} {K : List String} (ho : t.Owns K) {p : String} {r : Nat}
    (hp : mapGet t.fields p = some r) (hpK : p ∉ K) {q : String} (hq : q ∉ K) (u : Schema) :
    SameOn K t ⟨mapSet t.fields q r, t.heap.set r u⟩ := by
  intro k hk
  have hkq : k ≠ q := fun e => hq (e ▸ hk)
  have hf : mapGet (mapSet t.fields q r) k = mapGet t.fields k := mapGet_mapSet_ne _ _ hkq
  refine ⟨hf, ?_⟩
  simp only [FieldTable.get, hf]
  cases hr : mapGet t.fields k with
  | none => rfl
  | some r1 =>
    have hne : r ≠ r1 := fun e => hpK (ho k p r1 hk hr (e ▸ hp))
    simp only
    rw [List.getElem?_set_ne hne]

/-- A step of the fold that is framed off `K` leaves the keys of `K` alone. -/
theorem foldProperty_frame (ToLower : String → String) (K : List String) (service : String)
    (t : FieldTable) (property : String) (value : Schema)
    (hv : ∀ l, value.Elem_ ≠ .strings l) (hvalid : t.Valid) (howns : t.Owns K)
    (hframe : Frame ToLower K service property) :
    (foldProperty ToLower service t property value).Valid ∧
    (foldProperty ToLower service t property value).Owns K ∧
    SameOn K t (foldProperty ToLower service t property value) := by
  obtain ⟨hp, hsp, hlp⟩ := hframe
  rw [foldProperty_eq ToLower service t property value hv]
  cases hr : mapGet t.fields property with
  | none => exact ⟨Valid_store hvalid _ _, Owns_store hvalid howns _ _, SameOn_store hvalid _ hp⟩
  | some r =>
    simp only
    cases he : t.heap[r]? with
    | none => exact ⟨Valid_store hvalid _ _, Owns_store hvalid howns _ _, SameOn_store hvalid _ hp⟩
    | some e =>
      simp only
      split_ifs with h1 h2 h3
      · exact ⟨Valid_store hvalid _ _, Owns_store hvalid howns _ _, SameOn_store hvalid _ hsp⟩
      · exact ⟨Valid_update hvalid hr _ _, Owns_update howns hr (by simp [hp]) _,
          SameOn_update howns hr hp hp _⟩
      · exact ⟨Valid_update hvalid hr _ _, Owns_update howns hr (by simp [hp, hlp]) _,
          SameOn_update howns hr hp hlp _⟩
      · exact ⟨Valid_store hvalid _ _, Owns_store hvalid howns _ _, SameOn_store hvalid _ hp⟩

theorem foldService_nil (ToLower : String → String) (service : String) (t : FieldTable) :
    foldService ToLower service t [] = t := rfl

theorem foldService_cons (ToLower : String → String) (service : String) (t : FieldTable)
    (kv : String × Schema) (rest : Fields) :
    foldService ToLower service t (kv :: rest) =
      foldService ToLower service (foldProperty ToLower service t kv.1 kv.2) rest := rfl

theorem foldService_append (ToLower : String → String) (service : String) (t : FieldTable)
    (xs ys : Fields) :
    foldService ToLower service t (xs ++ ys) =
      foldService ToLower service (foldService ToLower service t xs) ys := by
  simp [foldService, List.foldl_append]

theorem foldService_frame (ToLower : String → String) (K : List String) (service : String)
    (serviceFields : Fields) :
    ∀ t : FieldTable, t.Valid → t.Owns K →
      (∀ kv ∈ serviceFields, Frame ToLower K service kv.1 ∧ ∀ l, kv.2.Elem_ ≠ .strings l) →
      (foldService ToLower service t serviceFields).Valid ∧
      (foldService ToLower service t serviceFields).Owns K ∧
      SameOn K t (foldService ToLower service t serviceFields) := by
  induction serviceFields with
  | nil => intro t hv ho _; exact ⟨hv, ho, SameOn_refl K t⟩
  | cons kv rest ih =>
    intro t hv ho hall
    rw [foldService_cons]
    have h1 := hall kv (List.mem_cons_self _ _)
    obtain ⟨hv1, ho1, hs1⟩ := foldProperty_frame ToLower K service t kv.1 kv.2 h1.2 hv ho h1.1
    obtain ⟨hv2, ho2, hs2⟩ := ih _ hv1 ho1 (fun kv' hkv' => hall kv' (List.mem_cons_of_mem _ hkv'))
    exact ⟨hv2, ho2, SameOn_trans hs1 hs2⟩

/-! ## The fold of `getFields`: services -/

theorem mem_mapSet {α : Type} {m : List (String × α)} {k : String} {v : α} {kv : String × α}
    (h : kv ∈ mapSet m k v) : kv = (k, v) ∨ kv ∈ m := by
  induction m with
  | nil => simp [mapSet] at h; exact Or.inl h
  | cons x rest ih =>
    obtain ⟨k0, x0⟩ := x
    by_cases h0 : k0 = k
    · simp only [mapSet, h0, if_true, List.mem_cons] at h
      rcases h with h | h
      · exact Or.inl h
      · exact Or.inr (List.mem_cons_of_mem _ h)
    · simp only [mapSet, h0, if_false, List.mem_cons] at h
      rcases h with h | h
      · exact Or.inr (h ▸ List.mem_cons_self _ _)
      · rcases ih h with h' | h'
        · exact Or.inl h'
        · exact Or.inr (List.mem_cons_of_mem _ h')

theorem createField_no_strings {node : Json} {d : Schema} (h : createField node = some d) :
    ∀ l, d.Elem_ ≠ .strings l := by
  intro l
  rw [createField] at h
  cases hdesc : assertDescription (Data (Search node ["description"])) with
  | none => simp [hdesc] at h
  | some description =>
    simp only [hdesc] at h
    split_ifs at h
    · simp only [Option.some.injEq] at h; subst h; simp [Schema.Elem_]
    · simp only [Option.some.injEq] at h; subst h; simp [Schema.Elem_]
    · simp only [Option.some.injEq] at h; subst h; simp [Schema.Elem_]
    · rcases (getArrayFieldSchema_shape h).2.2.2 with ⟨n, hn⟩ | hn <;> simp [hn]
    · simp only [Option.some.injEq] at h; subst h; simp [Schema.Elem_]

theorem createFieldsLoop_values (P : Schema → Prop)
    (hP : ∀ node d, createField node = some d → P d) (nodesMap : List (String × Json)) :
    ∀ (fields out : Fields), createFieldsLoop fields nodesMap = some out →
      (∀ kv ∈ fields, P kv.2) → ∀ kv ∈ out, P kv.2 := by
  induction nodesMap with
  | nil =>
    intro fields out h hf
    rw [createFieldsLoop_nil] at h
    simp only [Option.some.injEq] at h
    exact h ▸ hf
  | cons x rest ih =>
    intro fields out h hf
    obtain ⟨k0, n0⟩ := x
    rw [createFieldsLoop_cons] at h
    cases hs : createField n0 with
    | none => simp [hs] at h
    | some s =>
      rw [hs] at h
      refine ih _ out h ?_
      intro kv hkv
      rcases mem_mapSet hkv with e | e
      · rw [e]; exact hP n0 s hs
      · exact hf kv e

theorem createFields_no_strings {nodesMap : List (String × Json)} {out : Fields}
    (h : createFields nodesMap = some out) : ∀ kv ∈ out, ∀ l, kv.2.Elem_ ≠ .strings l := by
  rw [createFields_eq] at h
  exact createFieldsLoop_values (fun d => ∀ l, d.Elem_ ≠ .strings l)
    (fun _ _ hd => createField_no_strings hd) nodesMap [] out h (by simp)

theorem createFieldsLoop_keys_subset (nodesMap : List (String × Json)) :
    ∀ (fields out : Fields), createFieldsLoop fields nodesMap = some out →
      ∀ k ∈ mapKeys out, k ∈ mapKeys fields ∨ k ∈ mapKeys nodesMap := by
  induction nodesMap with
  | nil =>
    intro fields out h k hk
    rw [createFieldsLoop_nil] at h
    simp only [Option.some.injEq] at h
    exact Or.inl (h ▸ hk)
  | cons x rest ih =>
    intro fields out h k hk
    obtain ⟨k0, n0⟩ := x
    rw [createFieldsLoop_cons] at h
    cases hs : createField n0 with
    | none => simp [hs] at h
    | some s =>
      rw [hs] at h
      rcases ih _ out h k hk with h1 | h1
      · rcases (mem_mapKeys_mapSet fields k0 k s).mp h1 with e | e
        · exact Or.inr (by simp [mapKeys, e])
        · exact Or.inl e
      · exact Or.inr (by
          simp only [mapKeys, List.map_cons, List.mem_cons]
          exact Or.inr h1)

theorem createFields_keys_subset {nodesMap : List (String × Json)} {out : Fields}
    (h : createFields nodesMap = some out) : ∀ k ∈ mapKeys out, k ∈ mapKeys nodesMap := by
  intro k hk
  rw [createFields_eq] at h
  rcases createFieldsLoop_keys_subset nodesMap [] out h k hk with h1 | h1
  · simp [mapKeys] at h1
  · exact h1

theorem foldServices_nil (ToLower : String → String) (schemaJson : Json) (t : FieldTable) :
    foldServices ToLower schemaJson [] t = some t := rfl

theorem foldServices_cons (ToLower : String → String) (schemaJson : Json) (service : String)
    (rest : List String) (t : FieldTable) :
    foldServices ToLower schemaJson (service :: rest) t =
      match createFields (serviceSchema schemaJson service) with
      | none => none
      | some serviceFields =>
        foldServices ToLower schemaJson rest (foldService ToLower service t serviceFields) := rfl

theorem foldServices_cons_some {ToLower : String → String} {schemaJson : Json}
    {service : String} {rest : List String} {t t' : FieldTable}
    (h : foldServices ToLower schemaJson (service :: rest) t = some t') :
    ∃ serviceFields, createFields (serviceSchema schemaJson service) = some serviceFields ∧
      foldServices ToLower schemaJson rest (foldService ToLower service t serviceFields) =
        some t' := by
  rw [foldServices_cons] at h
  cases hc : createFields (serviceSchema schemaJson service) with
  | none => simp [hc] at h
  | some serviceFields => exact ⟨serviceFields, rfl, by simpa [hc] using h⟩

theorem foldServices_append_some (ToLower : String → String) (schemaJson : Json)
    (xs ys : List String) :
    ∀ (t t' : FieldTable), foldServices ToLower schemaJson (xs ++ ys) t = some t' →
      ∃ tm, foldServices ToLower schemaJson xs t = some tm ∧
        foldServices ToLower schemaJson ys tm = some t' := by
  induction xs with
  | nil => intro t t' h; exact ⟨t, rfl, h⟩
  | cons x rest ih =>
    intro t t' h
    obtain ⟨F, hF, hrest⟩ := foldServices_cons_some h
    obtain ⟨tm, h1, h2⟩ := ih _ t' hrest
    exact ⟨tm, by rw [foldServices_cons, hF]; exact h1, h2⟩

/-- Services none of whose properties writes a key of `K` leave `K` alone. -/
theorem foldServices_frame (ToLower : String → String) (schemaJson : Json) (K : List String)
    (services : List String) :
    ∀ (t t' : FieldTable), foldServices ToLower schemaJson services t = some t' →
      t.Valid → t.Owns K →
      (∀ S ∈ services, ∀ p ∈ mapKeys (serviceSchema schemaJson S), Frame ToLower K S p) →
      t'.Valid ∧ t'.Owns K ∧ SameOn K t t' := by
  induction services with
  | nil =>
    intro t t' h hv ho _
    simp only [foldServices_nil, Option.some.injEq] at h
    subst h
    exact ⟨hv, ho, SameOn_refl K t⟩
  | cons S rest ih =>
    intro t t' h hv ho hall
    obtain ⟨F, hF, hrest⟩ := foldServices_cons_some h
    obtain ⟨hv1, ho1, hs1⟩ := foldService_frame ToLower K S F t hv ho (by
      intro kv hkv
      refine ⟨hall S (List.mem_cons_self _ _) kv.1 (createFields_keys_subset hF kv.1 ?_),
        createFields_no_strings hF kv hkv⟩
      exact List.mem_map.mpr ⟨kv, hkv, rfl⟩)
    obtain ⟨hv2, ho2, hs2⟩ := ih _ t' hrest hv1 ho1
      (fun S' hS' => hall S' (List.mem_cons_of_mem _ hS'))
    exact ⟨hv2, ho2, SameOn_trans hs1 hs2⟩

theorem exists_split_of_mapGet {F : Fields} {f : String} {d : Schema}
    (hnd : (mapKeys F).Nodup) (h : mapGet F f = some d) :
    ∃ A B, F = A ++ (f, d) :: B ∧ f ∉ mapKeys A ∧ f ∉ mapKeys B := by
  obtain ⟨A, B, hAB⟩ := List.append_of_mem (mem_of_mapGet h)
  refine ⟨A, B, hAB, ?_, ?_⟩
  · intro hA
    rw [hAB] at hnd
    simp only [mapKeys, List.map_append, List.map_cons] at hnd hA
    have := (List.nodup_append.mp hnd).2.2
    exact this hA (List.mem_cons_self _ _)
  · intro hB
    rw [hAB] at hnd
    simp only [mapKeys, List.map_append, List.map_cons] at hnd hB
    have := (List.nodup_append.mp hnd).2.1
    exact (List.nodup_cons.mp this).1 hB

/-- Folding a service that declares `f`: up to the step of `f` the keys of `K`
are left alone, and after it as well. -/
theorem foldService_at (ToLower : String → String) (K : List String) (service : String)
    (F : Fields) (f : String) (d : Schema) (t : FieldTable)
    (hv : t.Valid) (ho : t.Owns K) (hnd : (mapKeys F).Nodup)
    (hns : ∀ kv ∈ F, ∀ l, kv.2.Elem_ ≠ .strings l) (hd : mapGet F f = some d)
    (hframe : ∀ p ∈ mapKeys F, p ≠ f → Frame ToLower K service p) :
    ∃ t1, t1.Valid ∧ t1.Owns K ∧ SameOn K t t1 ∧
      ((foldProperty ToLower service t1 f d).Valid →
        (foldProperty ToLower service t1 f d).Owns K →
        (foldService ToLower service t F).Valid ∧ (foldService ToLower service t F).Owns K ∧
          SameOn K (foldProperty ToLower service t1 f d) (foldService ToLower service t F)) := by
  obtain ⟨A, B, hAB, hA, hB⟩ := exists_split_of_mapGet hnd hd
  have hmemA : ∀ kv ∈ A, kv ∈ F := fun kv h => hAB ▸ List.mem_append_left _ h
  have hmemB : ∀ kv ∈ B, kv ∈ F := fun kv h =>
    hAB ▸ List.mem_append_right _ (List.mem_cons_of_mem _ h)
  have hkey : ∀ (X : Fields), (∀ kv ∈ X, kv ∈ F) → f ∉ mapKeys X →
      ∀ kv ∈ X, Frame ToLower K service kv.1 ∧ ∀ l, kv.2.Elem_ ≠ .strings l := by
    intro X hX hfX kv hkv
    have hk : kv.1 ∈ mapKeys X := List.mem_map.mpr ⟨kv, hkv, rfl⟩
    refine ⟨hframe kv.1 (List.mem_map.mpr ⟨kv, hX kv hkv, rfl⟩) (fun e => hfX (e ▸ hk)),
      hns kv (hX kv hkv)⟩
  obtain ⟨hv1, ho1, hs1⟩ := foldService_frame ToLower K service A t hv ho (hkey A hmemA hA)
  refine ⟨foldService ToLower service t A, hv1, ho1, hs1, ?_⟩
  intro hv2 ho2
  have : foldService ToLower service t F =
      foldService ToLower service
        (foldProperty ToLower service (foldService ToLower service t A) f d) B := by
    rw [hAB, foldService_append, foldService_cons]
  rw [this]
  exact foldService_frame ToLower K service B _ hv2 ho2 (hkey B hmemB hB)

theorem foldServices_total (ToLower : String → String) (schemaJson : Json)
    (services : List String)
    (htext : ∀ S ∈ services, textDescriptionsMembers (serviceSchema schemaJson S) = true) :
    ∀ t : FieldTable, ∃ t', foldServices ToLower schemaJson services t = some t' := by
  induction services with
  | nil => intro t; exact ⟨t, rfl⟩
  | cons S rest ih =>
    intro t
    obtain ⟨F, hF⟩ := createFields_total _ (htext S (List.mem_cons_self _ _))
    rw [foldServices_cons, hF]
    exact ih (fun S' hS' => htext S' (List.mem_cons_of_mem _ hS')) _

theorem service_ne_of_mem {schemaJson : Json} {S : String}
    (h : S ∈ getAvailableServiceIds schemaJson) : 0 < S.length := by
  simp only [getAvailableServiceIds, List.mem_map] at h
  obtain ⟨kv, _, rfl⟩ := h
  rw [String.length_append]
  have : "_config_V1".length = 10 := by decide
  omega

theorem append_ne_self {S f : String} (h : 0 < S.length) : S ++ f ≠ f := by
  intro e
  have := congrArg String.length e
  rw [String.length_append] at this
  omega

theorem get_eq_some {t : FieldTable} {k : String} {d : Schema} (h : t.get k = some d) :
    ∃ r, mapGet t.fields k = some r ∧ t.heap[r]? = some d := by
  unfold FieldTable.get at h
  cases hr : mapGet t.fields k with
  | none => simp [hr] at h
  | some r => exact ⟨r, rfl, by simpa [hr] using h⟩

theorem foldProperty_absent (ToLower : String → String) (service : String) (t : FieldTable)
    (p : String) (v : Schema) (h : mapGet t.fields p = none) :
    foldProperty ToLower service t p v = t.store p v := by
  unfold foldProperty
  rw [h]

theorem nodup_two_services {pre mid post : List String} {S1 S2 : String}
    (h : (pre ++ S1 :: (mid ++ S2 :: post)).Nodup) :
    S1 ≠ S2 ∧ S1 ∉ pre ∧ S2 ∉ pre ∧ S1 ∉ mid ∧ S2 ∉ mid ∧ S1 ∉ post ∧ S2 ∉ post := by
  rw [List.nodup_append] at h
  obtain ⟨_, h2, h3⟩ := h
  rw [List.nodup_cons] at h2
  obtain ⟨h4, h5⟩ := h2
  rw [List.nodup_append] at h5
  obtain ⟨_, h6, h7⟩ := h5
  rw [List.nodup_cons] at h6
  simp only [List.mem_append, List.mem_cons, not_or] at h4
  refine ⟨h4.2.1, ?_, ?_, h4.1, ?_, h4.2.2, h6.1⟩
  · intro hp; exact h3 hp (List.mem_cons_self _ _)
  · intro hp
    exact h3 hp (List.mem_cons_of_mem _ (List.mem_append_right _ (List.mem_cons_self _ _)))
  · intro hp; exact h7 hp (List.mem_cons_self _ _)

/-- Two services `S1` (folded first) and `S2` that declare `f`, all other
properties framed off `K`: the table before the step of `S2` for `f` is, on
`K`, the table in which `f` alone was stored with the descriptor of `S1`, and
the final table is, on `K`, what that step leaves. -/
theorem getFields_two_services (ToLower : String → String) (schemaJson : Json)
    (K : List String) (S1 S2 f : String) (pre mid post : List String) (F1 F2 : Fields)
    (d1 d2 : Schema) (hfK : f ∈ K)
    (hservices : getAvailableServiceIds schemaJson = pre ++ S1 :: (mid ++ S2 :: post))
    (hdistinct : (getAvailableServiceIds schemaJson).Nodup)
    (hF1 : createFields (serviceSchema schemaJson S1) = some F1) (hd1 : mapGet F1 f = some d1)
    (hF2 : createFields (serviceSchema schemaJson S2) = some F2) (hd2 : mapGet F2 f = some d2)
    (hothers : ∀ S ∈ getAvailableServiceIds schemaJson,
      ∀ p ∈ mapKeys (serviceSchema schemaJson S),
        ¬ (p = f ∧ (S = S1 ∨ S = S2)) → Frame ToLower K S p)
    (t : FieldTable) (hret : getFields ToLower schemaJson = some t) :
    ∃ t1 t2 : FieldTable, t1.Valid ∧ (∀ k ∈ K, mapGet t1.fields k = none) ∧
      t2.Valid ∧ t2.Owns K ∧ SameOn K (t1.store f d1) t2 ∧
      ((foldProperty ToLower S2 t2 f d2).Valid → (foldProperty ToLower S2 t2 f d2).Owns K →
        t.Valid ∧ SameOn K (foldProperty ToLower S2 t2 f d2) t) := by
  rw [hservices] at hdistinct hothers
  obtain ⟨h12, h1pre, h2pre, h1mid, h2mid, h1post, h2post⟩ := nodup_two_services hdistinct
  have hother : ∀ X : List String, (∀ S ∈ X, S ∈ pre ++ S1 :: (mid ++ S2 :: post)) →
      S1 ∉ X → S2 ∉ X →
      ∀ S ∈ X, ∀ p ∈ mapKeys (serviceSchema schemaJson S), Frame ToLower K S p := by
    intro X hX h1 h2 S hS p hp
    refine hothers S (hX S hS) p hp ?_
    rintro ⟨_, rfl | rfl⟩
    · exact h1 hS
    · exact h2 hS
  have hself : ∀ S F, S ∈ pre ++ S1 :: (mid ++ S2 :: post) →
      createFields (serviceSchema schemaJson S) = some F →
      ∀ p ∈ mapKeys F, p ≠ f → Frame ToLower K S p := by
    intro S F hS hF p hp hpf
    exact hothers S hS p (createFields_keys_subset hF p hp) (fun h => hpf h.1)
  rw [getFields, hservices] at hret
  obtain ⟨ta, hpre, hret⟩ := foldServices_append_some _ _ _ _ _ _ hret
  obtain ⟨hva, hoa, hsa⟩ := foldServices_frame ToLower schemaJson K pre _ ta hpre
    Valid_empty (Owns_empty K)
    (hother pre (fun S hS => List.mem_append_left _ hS) h1pre h2pre)
  obtain ⟨F1', hF1', hret⟩ := foldServices_cons_some hret
  rw [hF1] at hF1'
  simp only [Option.some.injEq] at hF1'
  subst hF1'
  obtain ⟨t1, hv1, ho1, hs1, hafter1⟩ := foldService_at ToLower K S1 F1 f d1 ta hva hoa
    (createFields_nodup hF1) (createFields_no_strings hF1) hd1
    (hself S1 F1 (List.mem_append_right _ (List.mem_cons_self _ _)) hF1)
  have hnone : ∀ k ∈ K, mapGet t1.fields k = none := by
    intro k hk
    rw [(hs1 k hk).1, (hsa k hk).1]
    simp [FieldTable.empty, mapGet]
  have hstep1 : foldProperty ToLower S1 t1 f d1 = t1.store f d1 :=
    foldProperty_absent _ _ _ _ _ (hnone f hfK)
  rw [hstep1] at hafter1
  obtain ⟨hvb, hob, hsb⟩ := hafter1 (Valid_store hv1 _ _) (Owns_store hv1 ho1 _ _)
  obtain ⟨tc, hmid, hret⟩ := foldServices_append_some _ _ _ _ _ _ hret
  obtain ⟨hvc, hoc, hsc⟩ := foldServices_frame ToLower schemaJson K mid _ tc hmid hvb hob
    (hother mid (fun S hS =>
      List.mem_append_right _ (List.mem_cons_of_mem _ (List.mem_append_left _ hS))) h1mid h2mid)
  obtain ⟨F2', hF2', hret⟩ := foldServices_cons_some hret
  rw [hF2] at hF2'
  simp only [Option.some.injEq] at hF2'
  subst hF2'
  obtain ⟨t2, hv2, ho2, hs2, hafter2⟩ := foldService_at ToLower K S2 F2 f d2 tc hvc hoc
    (createFields_nodup hF2) (createFields_no_strings hF2) hd2
    (hself S2 F2 (List.mem_append_right _ (List.mem_cons_of_mem _
      (List.mem_append_right _ (List.mem_cons_self _ _)))) hF2)
  refine ⟨t1, t2, hv1, hnone, hv2, ho2, SameOn_trans (SameOn_trans hsb hsc) hs2, ?_⟩
  intro hvs hos
  obtain ⟨hvd, hod, hsd⟩ := hafter2 hvs hos
  obtain ⟨hve, _, hse⟩ := foldServices_frame ToLower schemaJson K post _ t hret hvd hod
    (hother post (fun S hS => List.mem_append_right _ (List.mem_cons_of_mem _
      (List.mem_append_right _ (List.mem_cons_of_mem _ hS)))) h1post h2post)
  exact ⟨hve, SameOn_trans hsd hse⟩

theorem foldProperty_differ (ToLower : String → String) (service : String) (t : FieldTable)
    (p : String) (v e : Schema) (hv : ∀ l, v.Elem_ ≠ .strings l) (he : t.get p = some e)
    (hne : e.Type_ ≠ v.Type_) :
    foldProperty ToLower service t p v = t.store (service ++ p) v := by
  obtain ⟨r, hr, hh⟩ := get_eq_some he
  rw [foldProperty_eq ToLower service t p v hv, hr]
  simp only [hh, ne_eq, hne, not_false_eq_true, if_true]

theorem foldProperty_scalar (ToLower : String → String) (service : String) (t : FieldTable)
    (p : String) (v e : Schema) (hv : ∀ l, v.Elem_ ≠ .strings l) (he : t.get p = some e)
    (heq : e.Type_ = v.Type_) (hset : e.Type_ ≠ .TypeSet) :
    foldProperty ToLower service t p v = t.store p v := by
  obtain ⟨r, hr, hh⟩ := get_eq_some he
  rw [foldProperty_eq ToLower service t p v hv, hr]
  simp only [hh, ne_eq, heq, not_true_eq_false, if_false]
  rw [if_neg (heq ▸ hset)]

theorem foldProperty_set (ToLower : String → String) (service : String) (t : FieldTable)
    (p : String) (v e : Schema) (hv : ∀ l, v.Elem_ ≠ .strings l) (he : t.get p = some e)
    (heq : e.Type_ = v.Type_) (hset : e.Type_ = .TypeSet) :
    ∃ r, mapGet t.fields p = some r ∧ t.heap[r]? = some e ∧
      foldProperty ToLower service t p v =
        ⟨mapSet t.fields
            (if (updateExistingValue e v).2 then p else ToLower (service ++ "_" ++ p)) r,
          t.heap.set r (updateExistingValue e v).1⟩ := by
  obtain ⟨r, hr, hh⟩ := get_eq_some he
  refine ⟨r, hr, hh, ?_⟩
  rw [foldProperty_eq ToLower service t p v hv, hr]
  simp only [hh, ne_eq, heq, not_true_eq_false, if_false]
  rw [if_pos (heq ▸ hset)]

theorem getFields_total (ToLower : String → String) (schemaJson : Json)
    (htext : ∀ S ∈ getAvailableServiceIds schemaJson,
      textDescriptionsMembers (serviceSchema schemaJson S) = true) :
    ∃ t, getFields ToLower schemaJson = some t :=
  foldServices_total ToLower schemaJson _ htext _

/-- Claim C1: two distinct services `S1` (folded first) and `S2` (folded second)
both declare the property `f`, `createFields` gives the two descriptors
different kinds, and no other service or property produces the keys `f` and
`S2 ++ f`.  Then the merged table holds the descriptor of `S1` under `f` and
the descriptor of `S2` under the concatenation `S2 ++ f`. -/
theorem getFields_differing_kinds (ToLower : String → String) (schemaJson : Json)
    (S1 S2 f : String) (pre mid post : List String) (F1 F2 : Fields) (d1 d2 : Schema)
    (hservices : getAvailableServiceIds schemaJson = pre ++ S1 :: (mid ++ S2 :: post))
    (hdistinct : (getAvailableServiceIds schemaJson).Nodup)
    (htext : ∀ S ∈ getAvailableServiceIds schemaJson,
      textDescriptionsMembers (serviceSchema schemaJson S) = true)
    (hF1 : createFields (serviceSchema schemaJson S1) = some F1) (hd1 : mapGet F1 f = some d1)
    (hF2 : createFields (serviceSchema schemaJson S2) = some F2) (hd2 : mapGet F2 f = some d2)
    (hkinds : d1.Type_ ≠ d2.Type_)
    (hothers : ∀ S ∈ getAvailableServiceIds schemaJson,
      ∀ p ∈ mapKeys (serviceSchema schemaJson S),
        ¬ (p = f ∧ (S = S1 ∨ S = S2)) → Frame ToLower [f, S2 ++ f] S p) :
    ∃ t, getFields ToLower schemaJson = some t ∧
      t.get f = some d1 ∧ t.get (S2 ++ f) = some d2 := by
  obtain ⟨t, ht⟩ := getFields_total ToLower schemaJson htext
  refine ⟨t, ht, ?_⟩
  have hS2 : S2 ++ f ≠ f := append_ne_self (service_ne_of_mem (by
    rw [hservices]
    exact List.mem_append_right _ (List.mem_cons_of_mem _
      (List.mem_append_right _ (List.mem_cons_self _ _)))))
  obtain ⟨t1, t2, hv1, _, hv2, ho2, hs2, hfin⟩ := getFields_two_services ToLower schemaJson
    [f, S2 ++ f] S1 S2 f pre mid post F1 F2 d1 d2 (List.mem_cons_self _ _) hservices hdistinct
    hF1 hd1 hF2 hd2 hothers t ht
  have hf2 : t2.get f = some d1 := by
    rw [(hs2 f (List.mem_cons_self _ _)).2, get_store_self]
  have hstep := foldProperty_differ ToLower S2 t2 f d2 d1
    (createFields_no_strings hF2 (f, d2) (mem_of_mapGet hd2)) hf2 hkinds
  rw [hstep] at hfin
  obtain ⟨_, hs⟩ := hfin (Valid_store hv2 _ _) (Owns_store hv2 ho2 _ _)
  constructor
  · rw [(hs f (List.mem_cons_self _ _)).2, get_store_ne hv2 _ (Ne.symm hS2), hf2]
  · rw [(hs (S2 ++ f) (by simp)).2, get_store_self]

theorem getFields_differing_kinds_witness :
    ∃ t, getFields asciiToLower (specOf
        [("a", [("host", .obj []), ("port", .obj [("type", .str "string")])]),
         ("b", [("port", .obj [("type", .str "integer")])])]) = some t ∧
      t.get "port" = some (.mk .TypeString true true false "" .nil) ∧
      t.get ("b_config_V1" ++ "port") = some (.mk .TypeInt true true false "" .nil) := by
  have hs : getAvailableServiceIds (specOf
        [("a", [("host", .obj []), ("port", .obj [("type", .str "string")])]),
         ("b", [("port", .obj [("type", .str "integer")])])]) =
      ["a_config_V1", "b_config_V1"] := by decide
  have ha : serviceSchema (specOf
        [("a", [("host", .obj []), ("port", .obj [("type", .str "string")])]),
         ("b", [("port", .obj [("type", .str "integer")])])]) "a_config_V1" =
      [("host", .obj []), ("port", .obj [("type", .str "string")])] := rfl
  have hb : serviceSchema (specOf
        [("a", [("host", .obj []), ("port", .obj [("type", .str "string")])]),
         ("b", [("port", .obj [("type", .str "integer")])])]) "b_config_V1" =
      [("port", .obj [("type", .str "integer")])] := rfl
  refine getFields_differing_kinds asciiToLower _ "a_config_V1" "b_config_V1" "port" [] [] []
    [("host", .mk .TypeString true true false "" .nil),
      ("port", .mk .TypeString true true false "" .nil)]
    [("port", .mk .TypeInt true true false "" .nil)] _ _ (by rw [hs]; rfl) (by rw [hs]; decide)
    ?_ ?_ rfl ?_ rfl (by simp [Schema.Type_]) ?_
  · intro S hS
    rw [hs] at hS
    simp only [List.mem_cons, List.mem_singleton, List.not_mem_nil, or_false] at hS
    rcases hS with rfl | rfl
    · rw [ha]; decide
    · rw [hb]; decide
  · rw [ha]
    simp [createFields, createFieldsLoop, Search, mapGet, Data, assertDescription, isString,
      mapSet, INT_FIELD, BOOL_FIELD, ARRAY_FIELD]
  · rw [hb]
    simp [createFields, createFieldsLoop, Search, mapGet, Data, assertDescription, isString,
      mapSet, INT_FIELD, BOOL_FIELD, ARRAY_FIELD]
  · intro S hS p hp hne
    rw [hs] at hS
    simp only [List.mem_cons, List.mem_singleton, List.not_mem_nil, or_false] at hS
    rcases hS with rfl | rfl
    · rw [ha] at hp
      simp only [mapKeys, List.map_cons, List.map_nil, List.mem_cons, List.mem_singleton,
        List.not_mem_nil, or_false] at hp
      rcases hp with rfl | rfl
      · simp only [Frame]; decide
      · exact absurd ⟨rfl, Or.inl rfl⟩ hne
    · rw [hb] at hp
      simp only [mapKeys, List.map_cons, List.map_nil, List.mem_singleton] at hp
      subst hp
      exact absurd ⟨rfl, Or.inr rfl⟩ hne

/-- Two services declaring `f` with the same kind, not a set: the later
descriptor replaces the earlier one under `f`, and no other key of `K` appears. -/
theorem getFields_same_scalar (ToLower : String → String) (schemaJson : Json)
    (K : List String) (S1 S2 f : String) (pre mid post : List String) (F1 F2 : Fields)
    (d1 d2 : Schema) (hfK : f ∈ K)
    (hservices : getAvailableServiceIds schemaJson = pre ++ S1 :: (mid ++ S2 :: post))
    (hdistinct : (getAvailableServiceIds schemaJson).Nodup)
    (hF1 : createFields (serviceSchema schemaJson S1) = some F1) (hd1 : mapGet F1 f = some d1)
    (hF2 : createFields (serviceSchema schemaJson S2) = some F2) (hd2 : mapGet F2 f = some d2)
    (hkind : d1.Type_ = d2.Type_) (hset : d1.Type_ ≠ .TypeSet)
    (hothers : ∀ S ∈ getAvailableServiceIds schemaJson,
      ∀ p ∈ mapKeys (serviceSchema schemaJson S),
        ¬ (p = f ∧ (S = S1 ∨ S = S2)) → Frame ToLower K S p)
    (t : FieldTable) (hret : getFields ToLower schemaJson = some t) :
    t.get f = some d2 ∧ ∀ q ∈ K, q ≠ f → mapGet t.fields q = none := by
  obtain ⟨t1, t2, hv1, hnone, hv2, ho2, hs2, hfin⟩ := getFields_two_services ToLower schemaJson
    K S1 S2 f pre mid post F1 F2 d1 d2 hfK hservices hdistinct hF1 hd1 hF2 hd2 hothers t hret
  have hf2 : t2.get f = some d1 := by rw [(hs2 f hfK).2, get_store_self]
  have hstep := foldProperty_scalar ToLower S2 t2 f d2 d1
    (createFields_no_strings hF2 (f, d2) (mem_of_mapGet hd2)) hf2 hkind hset
  rw [hstep] at hfin
  obtain ⟨_, hs⟩ := hfin (Valid_store hv2 _ _) (Owns_store hv2 ho2 _ _)
  constructor
  · rw [(hs f hfK).2, get_store_self]
  · intro q hq hqf
    rw [(hs q hq).1]
    simp only [FieldTable.store]
    rw [mapGet_mapSet_ne _ _ hqf, (hs2 q hq).1]
    simp only [FieldTable.store]
    rw [mapGet_mapSet_ne _ _ hqf]
    exact hnone q hq

theorem lower_ne {ToLower : String → String} (hlower : ∀ s, (ToLower s).length = s.length)
    (S f : String) : ToLower (S ++ "_" ++ f) ≠ f := by
  intro e
  have := congrArg String.length e
  rw [hlower, String.length_append, String.length_append] at this
  have h1 : "_".length = 1 := by decide
  omega

/-- Claim C2, with its scope made explicit: two distinct services `S1` and `S2`
(named in the order of the fold) both declare the property `f` with the same
scalar kind (string, integer or boolean), and no other service or property
produces the keys involved.
Then the merged table has one descriptor for `f`, under the key `f`: the
descriptor of `S2`, the service folded last, which is of that kind; and it has
none of the service-qualified keys of `f`. -/
theorem getFields_same_scalar_kind (ToLower : String → String)
    (hlower : ∀ s, (ToLower s).length = s.length) (schemaJson : Json)
    (S1 S2 f : String) (pre mid post : List String) (F1 F2 : Fields) (d1 d2 : Schema)
    (hservices : getAvailableServiceIds schemaJson = pre ++ S1 :: (mid ++ S2 :: post))
    (hdistinct : (getAvailableServiceIds schemaJson).Nodup)
    (htext : ∀ S ∈ getAvailableServiceIds schemaJson,
      textDescriptionsMembers (serviceSchema schemaJson S) = true)
    (hF1 : createFields (serviceSchema schemaJson S1) = some F1) (hd1 : mapGet F1 f = some d1)
    (hF2 : createFields (serviceSchema schemaJson S2) = some F2) (hd2 : mapGet F2 f = some d2)
    (hkind : d1.Type_ = d2.Type_)
    (hscalar : d1.Type_ = .TypeString ∨ d1.Type_ = .TypeInt ∨ d1.Type_ = .TypeBool)
    (hothers : ∀ S ∈ getAvailableServiceIds schemaJson,
      ∀ p ∈ mapKeys (serviceSchema schemaJson S),
        ¬ (p = f ∧ (S = S1 ∨ S = S2)) →
          Frame ToLower [f, S1 ++ f, S2 ++ f, ToLower (S1 ++ "_" ++ f),
            ToLower (S2 ++ "_" ++ f)] S p) :
    ∃ t, getFields ToLower schemaJson = some t ∧
      t.get f = some d2 ∧ d2.Type_ = d1.Type_ ∧
      S1 ++ f ∉ t.keys ∧ S2 ++ f ∉ t.keys ∧
      ToLower (S1 ++ "_" ++ f) ∉ t.keys ∧ ToLower (S2 ++ "_" ++ f) ∉ t.keys := by
  obtain ⟨t, ht⟩ := getFields_total ToLower schemaJson htext
  have hset : d1.Type_ ≠ .TypeSet := by
    rcases hscalar with h | h | h <;> rw [h] <;> decide
  obtain ⟨hget, hnone⟩ := getFields_same_scalar ToLower schemaJson _ S1 S2 f pre mid post
    F1 F2 d1 d2 (List.mem_cons_self _ _) hservices hdistinct hF1 hd1 hF2 hd2 hkind hset
    hothers t ht
  have hmem : ∀ S, S ∈ getAvailableServiceIds schemaJson → S ++ f ≠ f :=
    fun S hS => append_ne_self (service_ne_of_mem hS)
  have h1 : S1 ∈ getAvailableServiceIds schemaJson := by
    rw [hservices]; exact List.mem_append_right _ (List.mem_cons_self _ _)
  have h2 : S2 ∈ getAvailableServiceIds schemaJson := by
    rw [hservices]
    exact List.mem_append_right _ (List.mem_cons_of_mem _
      (List.mem_append_right _ (List.mem_cons_self _ _)))
  refine ⟨t, ht, hget, hkind.symm, ?_, ?_, ?_, ?_⟩
  · exact (mapGet_eq_none_iff _ _).mp (hnone _ (by simp) (hmem S1 h1))
  · exact (mapGet_eq_none_iff _ _).mp (hnone _ (by simp) (hmem S2 h2))
  · exact (mapGet_eq_none_iff _ _).mp (hnone _ (by simp) (lower_ne hlower S1 f))
  · exact (mapGet_eq_none_iff _ _).mp (hnone _ (by simp) (lower_ne hlower S2 f))

theorem asciiToLower_length (s : String) : (asciiToLower s).length = s.length := by
  cases s with
  | mk data => exact List.length_map _ _

theorem getFields_same_scalar_kind_witness :
    ∃ t, getFields asciiToLower (specOf
        [("a", [("port", .obj [("type", .str "integer"), ("description", .str "Port.")])]),
         ("b", [("port", .obj [("type", .str "integer")]), ("user", .obj [])])]) = some t ∧
      t.get "port" = some (.mk .TypeInt true true false "" .nil) ∧
      (Schema.mk .TypeInt true true false "" .nil).Type_ =
        (Schema.mk .TypeInt true true false "Port." .nil).Type_ ∧
      "a_config_V1" ++ "port" ∉ t.keys ∧ "b_config_V1" ++ "port" ∉ t.keys ∧
      asciiToLower ("a_config_V1" ++ "_" ++ "port") ∉ t.keys ∧
      asciiToLower ("b_config_V1" ++ "_" ++ "port") ∉ t.keys := by
  have hs : getAvailableServiceIds (specOf
        [("a", [("port", .obj [("type", .str "integer"), ("description", .str "Port.")])]),
         ("b", [("port", .obj [("type", .str "integer")]), ("user", .obj [])])]) =
      ["a_config_V1", "b_config_V1"] := by decide
  have ha : serviceSchema (specOf
        [("a", [("port", .obj [("type", .str "integer"), ("description", .str "Port.")])]),
         ("b", [("port", .obj [("type", .str "integer")]), ("user", .obj [])])])
        "a_config_V1" =
      [("port", .obj [("type", .str "integer"), ("description", .str "Port.")])] := rfl
  have hb : serviceSchema (specOf
        [("a", [("port", .obj [("type", .str "integer"), ("description", .str "Port.")])]),
         ("b", [("port", .obj [("type", .str "integer")]), ("user", .obj [])])])
        "b_config_V1" =
      [("port", .obj [("type", .str "integer")]), ("user", .obj [])] := rfl
  refine getFields_same_scalar_kind asciiToLower asciiToLower_length _
    "a_config_V1" "b_config_V1" "port" [] [] []
    [("port", .mk .TypeInt true true false "Port." .nil)]
    [("port", .mk .TypeInt true true false "" .nil),
      ("user", .mk .TypeString true true false "" .nil)] _ _
    (by rw [hs]; rfl) (by rw [hs]; decide) ?_ ?_ rfl ?_ rfl rfl (Or.inr (Or.inl rfl)) ?_
  · intro S hS
    rw [hs] at hS
    simp only [List.mem_cons, List.mem_singleton, List.not_mem_nil, or_false] at hS
    rcases hS with rfl | rfl
    · rw [ha]; decide
    · rw [hb]; decide
  · rw [ha]
    simp [createFields, createFieldsLoop, Search, mapGet, Data, assertDescription, isString,
      mapSet, INT_FIELD, BOOL_FIELD, ARRAY_FIELD]
  · rw [hb]
    simp [createFields, createFieldsLoop, Search, mapGet, Data, assertDescription, isString,
      mapSet, INT_FIELD, BOOL_FIELD, ARRAY_FIELD]
  · intro S hS p hp hne
    rw [hs] at hS
    simp only [List.mem_cons, List.mem_singleton, List.not_mem_nil, or_false] at hS
    rcases hS with rfl | rfl
    · rw [ha] at hp
      simp only [mapKeys, List.map_cons, List.map_nil, List.mem_singleton] at hp
      subst hp
      exact absurd ⟨rfl, Or.inl rfl⟩ hne
    · rw [hb] at hp
      simp only [mapKeys, List.map_cons, List.map_nil, List.mem_cons, List.mem_singleton,
        List.not_mem_nil, or_false] at hp
      rcases hp with rfl | rfl
      · exact absurd ⟨rfl, Or.inr rfl⟩ hne
      · simp only [Frame]; decide

theorem service_length_of_mem {schemaJson : Json} {S : String}
    (h : S ∈ getAvailableServiceIds schemaJson) : 10 ≤ S.length := by
  simp only [getAvailableServiceIds, List.mem_map] at h
  obtain ⟨kv, _, rfl⟩ := h
  rw [String.length_append]
  have : "_config_V1".length = 10 := by decide
  omega

theorem createField_password {node : Json} {d : Schema} (h : createField node = some d)
    (hformat : isString (Data (Search node ["format"])) "password" = true) :
    d.Type_ = .TypeString ∧ d.Sensitive = true := by
  rw [createField] at h
  cases hdesc : assertDescription (Data (Search node ["description"])) with
  | none => simp [hdesc] at h
  | some description =>
    simp only [hdesc, hformat, if_true, Option.some.injEq] at h
    subst h
    exact ⟨rfl, rfl⟩

theorem createField_plain_string {node : Json} {d : Schema} (h : createField node = some d)
    (hformat : Data (Search node ["format"]) = .null)
    (htype : isString (Data (Search node ["type"])) "string" = true) :
    d.Type_ = .TypeString ∧ d.Sensitive = false := by
  have hty : Data (Search node ["type"]) = .str "string" := by
    cases hn : Data (Search node ["type"]) <;> simp [hn, isString] at htype
    rw [htype]
  rw [createField] at h
  cases hdesc : assertDescription (Data (Search node ["description"])) with
  | none => simp [hdesc] at h
  | some description =>
    have h1 : isString (Json.str "string") INT_FIELD = false := by decide
    have h2 : isString (Json.str "string") BOOL_FIELD = false := by decide
    have h3 : isString (Json.str "string") ARRAY_FIELD = false := by decide
    have h0 : isString Json.null "password" = false := rfl
    simp only [hdesc, hformat, hty, h0, h1, h2, h3, Bool.false_eq_true, if_false,
      Option.some.injEq] at h
    subst h
    exact ⟨rfl, rfl⟩

theorem createFields_get_of_mem {nodesMap : List (String × Json)} {key : String} {node : Json}
    (htext : textDescriptionsMembers nodesMap = true) (hmap : (mapKeys nodesMap).Nodup)
    (hmem : (key, node) ∈ nodesMap) :
    ∃ F d, createFields nodesMap = some F ∧ createField node = some d ∧
      mapGet F key = some d := by
  obtain ⟨F, hF⟩ := createFields_total nodesMap htext
  have hF' := hF
  rw [createFields_eq] at hF'
  obtain ⟨d, hd, hget⟩ := createFieldsLoop_get_of_mem nodesMap [] F key node hF' hmap hmem
  exact ⟨F, d, hF, hd, hget⟩

/-- Claim C7, as the code has it: service `A` declares `token` as a string with
format `password`, service `B` declares `token` as a string with no format, and
no other service declares `token`.  The table holds under `token` the
descriptor of whichever of the two is folded last: it is not sensitive when
`A` is folded first, and sensitive when `B` is folded first. -/
theorem getFields_token_last_wins (ToLower : String → String)
    (hlower : ∀ s, (ToLower s).length = s.length) (schemaJson : Json)
    (A B : String) (pre mid post : List String) (nodeA nodeB : Json)
    (hdistinct : (getAvailableServiceIds schemaJson).Nodup)
    (htext : ∀ S ∈ getAvailableServiceIds schemaJson,
      textDescriptionsMembers (serviceSchema schemaJson S) = true)
    (hAmap : (mapKeys (serviceSchema schemaJson A)).Nodup)
    (hA : ("token", nodeA) ∈ serviceSchema schemaJson A)
    (hAformat : isString (Data (Search nodeA ["format"])) "password" = true)
    (hAtype : isString (Data (Search nodeA ["type"])) "string" = true)
    (hBmap : (mapKeys (serviceSchema schemaJson B)).Nodup)
    (hB : ("token", nodeB) ∈ serviceSchema schemaJson B)
    (hBformat : Data (Search nodeB ["format"]) = .null)
    (hBtype : isString (Data (Search nodeB ["type"])) "string" = true)
    (honly : ∀ S ∈ getAvailableServiceIds schemaJson, S ≠ A → S ≠ B →
      "token" ∉ mapKeys (serviceSchema schemaJson S)) :
    (getAvailableServiceIds schemaJson = pre ++ A :: (mid ++ B :: post) →
      ∃ t d, getFields ToLower schemaJson = some t ∧ t.get "token" = some d ∧
        d.Sensitive = false) ∧
    (getAvailableServiceIds schemaJson = pre ++ B :: (mid ++ A :: post) →
      ∃ t d, getFields ToLower schemaJson = some t ∧ t.get "token" = some d ∧
        d.Sensitive = true) := by
  obtain ⟨t, ht⟩ := getFields_total ToLower schemaJson htext
  have hframe : ∀ S1 S2, (S1 = A ∧ S2 = B ∨ S1 = B ∧ S2 = A) →
      ∀ S ∈ getAvailableServiceIds schemaJson, ∀ p ∈ mapKeys (serviceSchema schemaJson S),
        ¬ (p = "token" ∧ (S = S1 ∨ S = S2)) → Frame ToLower ["token"] S p := by
    intro S1 S2 h12 S hS p hp hne
    have hlen := service_length_of_mem hS
    have h5 : "token".length = 5 := by decide
    have h1 : "_".length = 1 := by decide
    refine ⟨?_, ?_, ?_⟩
    · simp only [List.mem_singleton]
      intro e
      subst e
      refine honly S hS ?_ ?_ hp
      · intro e; exact hne ⟨rfl, by rcases h12 with h | h <;> simp [h, e]⟩
      · intro e; exact hne ⟨rfl, by rcases h12 with h | h <;> simp [h, e]⟩
    · simp only [List.mem_singleton]
      intro e
      have := congrArg String.length e
      rw [String.length_append] at this
      omega
    · simp only [List.mem_singleton]
      intro e
      have := congrArg String.length e
      rw [hlower, String.length_append, String.length_append] at this
      omega
  have hmemA : ∀ l r : List String, getAvailableServiceIds schemaJson = l ++ A :: r →
      A ∈ getAvailableServiceIds schemaJson := fun l r h => by
    rw [h]; exact List.mem_append_right _ (List.mem_cons_self _ _)
  have hmemB : ∀ l r : List String, getAvailableServiceIds schemaJson = l ++ B :: r →
      B ∈ getAvailableServiceIds schemaJson := fun l r h => by
    rw [h]; exact List.mem_append_right _ (List.mem_cons_self _ _)
  constructor
  · intro hservices
    obtain ⟨FA, dA, hFA, hdA, hgA⟩ :=
      createFields_get_of_mem (htext A (hmemA _ _ hservices)) hAmap hA
    have hB' : B ∈ getAvailableServiceIds schemaJson := by
      rw [hservices]
      exact List.mem_append_right _ (List.mem_cons_of_mem _
        (List.mem_append_right _ (List.mem_cons_self _ _)))
    obtain ⟨FB, dB, hFB, hdB, hgB⟩ := createFields_get_of_mem (htext B hB') hBmap hB
    have hpA := createField_password hdA hAformat
    have hpB := createField_plain_string hdB hBformat hBtype
    obtain ⟨hget, _⟩ := getFields_same_scalar ToLower schemaJson ["token"] A B "token"
      pre mid post FA FB dA dB (List.mem_cons_self _ _) hservices hdistinct hFA hgA hFB hgB
      (hpA.1.trans hpB.1.symm) (by rw [hpA.1]; decide) (hframe A B (Or.inl ⟨rfl, rfl⟩)) t ht
    exact ⟨t, dB, ht, hget, hpB.2⟩
  · intro hservices
    obtain ⟨FB, dB, hFB, hdB, hgB⟩ :=
      createFields_get_of_mem (htext B (hmemB _ _ hservices)) hBmap hB
    have hA' : A ∈ getAvailableServiceIds schemaJson := by
      rw [hservices]
      exact List.mem_append_right _ (List.mem_cons_of_mem _
        (List.mem_append_right _ (List.mem_cons_self _ _)))
    obtain ⟨FA, dA, hFA, hdA, hgA⟩ := createFields_get_of_mem (htext A hA') hAmap hA
    have hpA := createField_password hdA hAformat
    have hpB := createField_plain_string hdB hBformat hBtype
    obtain ⟨hget, _⟩ := getFields_same_scalar ToLower schemaJson ["token"] B A "token"
      pre mid post FB FA dB dA (List.mem_cons_self _ _) hservices hdistinct hFB hgB hFA hgA
      (hpB.1.trans hpA.1.symm) (by rw [hpB.1]; decide) (hframe B A (Or.inr ⟨rfl, rfl⟩)) t ht
    exact ⟨t, dA, ht, hget, hpA.2⟩

theorem getFields_token_last_wins_witness :
    ∃ t d, getFields asciiToLower (specOf
        [("b", [("token", .obj [("type", .str "string")])]),
         ("a", [("token", .obj [("type", .str "string"), ("format", .str "password")])])])
        = some t ∧ t.get "token" = some d ∧ d.Sensitive = true := by
  have hs : getAvailableServiceIds (specOf
        [("b", [("token", .obj [("type", .str "string")])]),
         ("a", [("token", .obj [("type", .str "string"), ("format", .str "password")])])]) =
      ["b_config_V1", "a_config_V1"] := by decide
  have ha : serviceSchema (specOf
        [("b", [("token", .obj [("type", .str "string")])]),
         ("a", [("token", .obj [("type", .str "string"), ("format", .str "password")])])])
        "a_config_V1" =
      [("token", .obj [("type", .str "string"), ("format", .str "password")])] := rfl
  have hb : serviceSchema (specOf
        [("b", [("token", .obj [("type", .str "string")])]),
         ("a", [("token", .obj [("type", .str "string"), ("format", .str "password")])])])
        "b_config_V1" = [("token", .obj [("type", .str "string")])] := rfl
  refine (getFields_token_last_wins asciiToLower asciiToLower_length _
    "a_config_V1" "b_config_V1" [] [] []
    (.obj [("type", .str "string"), ("format", .str "password")])
    (.obj [("type", .str "string")]) (by rw [hs]; decide) ?_ (by rw [ha]; decide)
    (by rw [ha]; simp) (by decide) (by decide) (by rw [hb]; decide) (by rw [hb]; simp)
    rfl (by decide) ?_).2 (by rw [hs]; rfl)
  · intro S hS
    rw [hs] at hS
    simp only [List.mem_cons, List.mem_singleton, List.not_mem_nil, or_false] at hS
    rcases hS with rfl | rfl
    · rw [hb]; decide
    · rw [ha]; decide
  · intro S hS hA hB
    rw [hs] at hS
    simp only [List.mem_cons, List.mem_singleton, List.not_mem_nil, or_false] at hS
    rcases hS with rfl | rfl
    · exact absurd rfl hB
    · exact absurd rfl hA

/-- Claim C7 fails when the service with the password format is folded first:
the plain declaration of `b`, folded second, replaces the sensitive one. -/
theorem getFields_token_password_first_not_sensitive :
    ∃ t, getFields asciiToLower (specOf
        [("a", [("token", .obj [("type", .str "string"), ("format", .str "password")])]),
         ("b", [("token", .obj [("type", .str "string")])])]) = some t ∧
      (t.get "token").map Schema.Sensitive = some false := by
  have hs : getAvailableServiceIds (specOf
        [("a", [("token", .obj [("type", .str "string"), ("format", .str "password")])]),
         ("b", [("token", .obj [("type", .str "string")])])]) =
      ["a_config_V1", "b_config_V1"] := by decide
  have ha : serviceSchema (specOf
        [("a", [("token", .obj [("type", .str "string"), ("format", .str "password")])]),
         ("b", [("token", .obj [("type", .str "string")])])]) "a_config_V1" =
      [("token", .obj [("type", .str "string"), ("format", .str "password")])] := rfl
  have hb : serviceSchema (specOf
        [("a", [("token", .obj [("type", .str "string"), ("format", .str "password")])]),
         ("b", [("token", .obj [("type", .str "string")])])]) "b_config_V1" =
      [("token", .obj [("type", .str "string")])] := rfl
  have hFa : createFields
      [("token", .obj [("type", .str "string"), ("format", .str "password")])] =
      some [("token", .mk .TypeString true true true "" .nil)] := by
    simp [createFields, createFieldsLoop, Search, mapGet, Data, assertDescription, isString,
      mapSet]
  have hFb : createFields [("token", .obj [("type", .str "string")])] =
      some [("token", .mk .TypeString true true false "" .nil)] := by
    simp [createFields, createFieldsLoop, Search, mapGet, Data, assertDescription, isString,
      mapSet, INT_FIELD, BOOL_FIELD, ARRAY_FIELD]
  have hfold : foldService asciiToLower "b_config_V1"
      (foldService asciiToLower "a_config_V1" FieldTable.empty
        [("token", .mk .TypeString true true true "" .nil)])
      [("token", .mk .TypeString true true false "" .nil)] =
      ⟨[("token", 1)], [.mk .TypeString true true true "" .nil,
        .mk .TypeString true true false "" .nil]⟩ := by
    simp [foldService, foldProperty, FieldTable.store, FieldTable.empty, mapGet, mapSet,
      Schema.Type_]
  refine ⟨⟨[("token", 1)], [.mk .TypeString true true true "" .nil,
    .mk .TypeString true true false "" .nil]⟩, ?_, rfl⟩
  rw [getFields, hs, foldServices_cons, ha, hFa]
  simp only []
  rw [foldServices_cons, hb, hFb]
  simp only []
  rw [foldServices_nil, hfold]

theorem get_update_self {t : FieldTable} (hv : t.Valid) {p : String} {r : Nat}
    (hp : mapGet t.fields p = some r) (q : String) (u : Schema) :
    FieldTable.get ⟨mapSet t.fields q r, t.heap.set r u⟩ q = some u := by
  simp only [FieldTable.get, mapGet_mapSet_self]
  exact List.getElem?_set_self (hv p r hp)

theorem get_update_of_ref {t : FieldTable} (hv : t.Valid) {k : String} {r : Nat}
    (hk : mapGet t.fields k = some r) (q : String) (u : Schema) :
    FieldTable.get ⟨mapSet t.fields q r, t.heap.set r u⟩ k = some u := by
  by_cases e : k = q
  · subst e; exact get_update_self hv hk k u
  · simp only [FieldTable.get, mapGet_mapSet_ne _ _ e, hk]
    exact List.getElem?_set_self (hv k r hk)

theorem updateExistingValue_schema (e v x : Schema) (he : e.Elem_ = .schema x) :
    updateExistingValue e v = (e, false) := by
  obtain ⟨t, o, c, s, d, el⟩ := e
  simp only [Schema.Elem_] at he
  subst he
  rfl

/-- Claim C4, as the code has it: two distinct services `S1` (folded first) and
`S2` both declare `f` as a set of strings, and no other service or property
produces the keys involved.  The table holds the string-set descriptor under
`f`, has no key `S2 ++ f`, and has the additional lowercase key
`ToLower (S2 ++ "_" ++ f)`, which holds that same descriptor. -/
theorem getFields_string_sets_alias (ToLower : String → String)
    (hlower : ∀ s, (ToLower s).length = s.length) (schemaJson : Json)
    (S1 S2 f : String) (pre mid post : List String) (F1 F2 : Fields)
    (hservices : getAvailableServiceIds schemaJson = pre ++ S1 :: (mid ++ S2 :: post))
    (hdistinct : (getAvailableServiceIds schemaJson).Nodup)
    (htext : ∀ S ∈ getAvailableServiceIds schemaJson,
      textDescriptionsMembers (serviceSchema schemaJson S) = true)
    (hF1 : createFields (serviceSchema schemaJson S1) = some F1)
    (hd1 : mapGet F1 f = some stringSetSchema)
    (hF2 : createFields (serviceSchema schemaJson S2) = some F2)
    (hd2 : mapGet F2 f = some stringSetSchema)
    (hothers : ∀ S ∈ getAvailableServiceIds schemaJson,
      ∀ p ∈ mapKeys (serviceSchema schemaJson S),
        ¬ (p = f ∧ (S = S1 ∨ S = S2)) →
          Frame ToLower [f, S2 ++ f, ToLower (S2 ++ "_" ++ f)] S p) :
    ∃ t, getFields ToLower schemaJson = some t ∧
      t.get f = some stringSetSchema ∧
      t.get (ToLower (S2 ++ "_" ++ f)) = some stringSetSchema ∧
      ToLower (S2 ++ "_" ++ f) ∈ t.keys ∧ ToLower (S2 ++ "_" ++ f) ≠ f ∧
      S2 ++ f ∉ t.keys := by
  obtain ⟨t, ht⟩ := getFields_total ToLower schemaJson htext
  refine ⟨t, ht, ?_⟩
  have hS2 : S2 ++ f ≠ f := append_ne_self (service_ne_of_mem (by
    rw [hservices]
    exact List.mem_append_right _ (List.mem_cons_of_mem _
      (List.mem_append_right _ (List.mem_cons_self _ _)))))
  have hq : ToLower (S2 ++ "_" ++ f) ≠ f := lower_ne hlower S2 f
  have hqs : S2 ++ f ≠ ToLower (S2 ++ "_" ++ f) := by
    intro e
    have := congrArg String.length e
    rw [hlower, String.length_append, String.length_append, String.length_append] at this
    have h1 : "_".length = 1 := by decide
    omega
  obtain ⟨t1, t2, hv1, hnone, hv2, ho2, hs2, hfin⟩ := getFields_two_services ToLower schemaJson
    [f, S2 ++ f, ToLower (S2 ++ "_" ++ f)] S1 S2 f pre mid post F1 F2 stringSetSchema
    stringSetSchema (List.mem_cons_self _ _) hservices hdistinct hF1 hd1 hF2 hd2 hothers t ht
  have hf2 : t2.get f = some stringSetSchema := by
    rw [(hs2 f (List.mem_cons_self _ _)).2, get_store_self]
  obtain ⟨r, hr, hh, hstep⟩ := foldProperty_set ToLower S2 t2 f stringSetSchema stringSetSchema
    (createFields_no_strings hF2 (f, stringSetSchema) (mem_of_mapGet hd2)) hf2 rfl rfl
  have hu : updateExistingValue stringSetSchema stringSetSchema = (stringSetSchema, false) :=
    updateExistingValue_schema _ _ _ rfl
  rw [hu] at hstep
  simp only [Bool.false_eq_true, if_false] at hstep
  rw [hstep] at hfin
  obtain ⟨hvt, hs⟩ := hfin (Valid_update hv2 hr _ _) (Owns_update ho2 hr (by simp) _)
  have hgq : t.get (ToLower (S2 ++ "_" ++ f)) = some stringSetSchema := by
    rw [(hs _ (by simp)).2]; exact get_update_self hv2 hr _ _
  refine ⟨?_, hgq, ?_, hq, ?_⟩
  · rw [(hs f (List.mem_cons_self _ _)).2]; exact get_update_of_ref hv2 hr _ _
  · apply (mapGet_isSome_iff _ _).mp
    obtain ⟨r', hr', _⟩ := get_eq_some hgq
    exact ⟨r', hr'⟩
  · apply (mapGet_eq_none_iff _ _).mp
    rw [(hs (S2 ++ f) (by simp)).1]
    simp only
    rw [mapGet_mapSet_ne _ _ hqs, (hs2 (S2 ++ f) (by simp)).1]
    simp only [FieldTable.store]
    rw [mapGet_mapSet_ne _ _ hS2]
    exact hnone _ (by simp)

theorem getFields_string_sets_alias_witness :
    ∃ t, getFields asciiToLower (specOf
        [("a", [("tables", .obj [("type", .str "array")])]),
         ("b", [("tables", .obj [("type", .str "array"),
            ("items", .obj [("type", .str "string")])])])]) = some t ∧
      t.get "tables" = some stringSetSchema ∧
      t.get (asciiToLower ("b_config_V1" ++ "_" ++ "tables")) = some stringSetSchema ∧
      asciiToLower ("b_config_V1" ++ "_" ++ "tables") ∈ t.keys ∧
      asciiToLower ("b_config_V1" ++ "_" ++ "tables") ≠ "tables" ∧
      "b_config_V1" ++ "tables" ∉ t.keys := by
  have hs : getAvailableServiceIds (specOf
        [("a", [("tables", .obj [("type", .str "array")])]),
         ("b", [("tables", .obj [("type", .str "array"),
            ("items", .obj [("type", .str "string")])])])]) =
      ["a_config_V1", "b_config_V1"] := by decide
  have ha : serviceSchema (specOf
        [("a", [("tables", .obj [("type", .str "array")])]),
         ("b", [("tables", .obj [("type", .str "array"),
            ("items", .obj [("type", .str "string")])])])]) "a_config_V1" =
      [("tables", .obj [("type", .str "array")])] := rfl
  have hb : serviceSchema (specOf
        [("a", [("tables", .obj [("type", .str "array")])]),
         ("b", [("tables", .obj [("type", .str "array"),
            ("items", .obj [("type", .str "string")])])])]) "b_config_V1" =
      [("tables", .obj [("type", .str "array"),
        ("items", .obj [("type", .str "string")])])] := rfl
  refine getFields_string_sets_alias asciiToLower asciiToLower_length _
    "a_config_V1" "b_config_V1" "tables" [] [] []
    [("tables", stringSetSchema)] [("tables", stringSetSchema)]
    (by rw [hs]; rfl) (by rw [hs]; decide) ?_ ?_ rfl ?_ rfl ?_
  · intro S hS
    rw [hs] at hS
    simp only [List.mem_cons, List.mem_singleton, List.not_mem_nil, or_false] at hS
    rcases hS with rfl | rfl
    · rw [ha]; decide
    · rw [hb]; decide
  · rw [ha]
    simp [createFields, createFieldsLoop, getArrayFieldSchema, Path_items_type,
      Path_items_properties, Search, mapGet, Data, assertDescription, isString, mapSet,
      INT_FIELD, BOOL_FIELD, ARRAY_FIELD, OBJECT_FIELD, ChildrenMap, stringSetSchema]
  · rw [hb]
    simp [createFields, createFieldsLoop, getArrayFieldSchema, Path_items_type,
      Path_items_properties, Search, mapGet, Data, assertDescription, isString, mapSet,
      INT_FIELD, BOOL_FIELD, ARRAY_FIELD, OBJECT_FIELD, ChildrenMap, stringSetSchema]
  · intro S hS p hp hne
    rw [hs] at hS
    simp only [List.mem_cons, List.mem_singleton, List.not_mem_nil, or_false] at hS
    rcases hS with rfl | rfl
    · rw [ha] at hp
      simp only [mapKeys, List.map_cons, List.map_nil, List.mem_singleton] at hp
      subst hp
      exact absurd ⟨rfl, Or.inl rfl⟩ hne
    · rw [hb] at hp
      simp only [mapKeys, List.map_cons, List.map_nil, List.mem_singleton] at hp
      subst hp
      exact absurd ⟨rfl, Or.inr rfl⟩ hne

/-- Claim C4 fails: two services declaring `ids` as a set of strings leave the
table with the key `ids` and the additional lowercase key `b_config_v1_ids`. -/
theorem getFields_string_sets_extra_key :
    ∃ t, getFields asciiToLower (specOf
        [("a", [("ids", .obj [("type", .str "array")])]),
         ("b", [("ids", .obj [("type", .str "array")])])]) = some t ∧
      t.keys = ["ids", "b_config_v1_ids"] ∧
      asciiToLower ("b_config_V1" ++ "_" ++ "ids") = "b_config_v1_ids" := by
  have hs : getAvailableServiceIds (specOf
        [("a", [("ids", .obj [("type", .str "array")])]),
         ("b", [("ids", .obj [("type", .str "array")])])]) =
      ["a_config_V1", "b_config_V1"] := by decide
  have ha : serviceSchema (specOf
        [("a", [("ids", .obj [("type", .str "array")])]),
         ("b", [("ids", .obj [("type", .str "array")])])]) "a_config_V1" =
      [("ids", .obj [("type", .str "array")])] := rfl
  have hb : serviceSchema (specOf
        [("a", [("ids", .obj [("type", .str "array")])]),
         ("b", [("ids", .obj [("type", .str "array")])])]) "b_config_V1" =
      [("ids", .obj [("type", .str "array")])] := rfl
  have hF : createFields [("ids", .obj [("type", .str "array")])] =
      some [("ids", stringSetSchema)] := by
    simp [createFields, createFieldsLoop, getArrayFieldSchema, Path_items_type,
      Path_items_properties, Search, mapGet, Data, assertDescription, isString, mapSet,
      INT_FIELD, BOOL_FIELD, ARRAY_FIELD, OBJECT_FIELD, ChildrenMap, stringSetSchema]
  have hl : asciiToLower "b_config_V1_ids" = "b_config_v1_ids" := by decide
  have hfold : foldService asciiToLower "b_config_V1"
      (foldService asciiToLower "a_config_V1" FieldTable.empty [("ids", stringSetSchema)])
      [("ids", stringSetSchema)] =
      ⟨[("ids", 0), ("b_config_v1_ids", 0)], [stringSetSchema]⟩ := by
    simp [foldService, foldProperty, FieldTable.store, FieldTable.empty, mapGet, mapSet,
      updateExistingValue, Schema.Type_, Schema.Elem_, stringSetSchema, hl]
  refine ⟨⟨[("ids", 0), ("b_config_v1_ids", 0)], [stringSetSchema]⟩, ?_, rfl, by decide⟩
  rw [getFields, hs, foldServices_cons, ha, hF]
  simp only []
  rw [foldServices_cons, hb, hF]
  simp only []
  rw [foldServices_nil, hfold]

/-- Claim C5, the code at the failing input: `a` declares `columns` as a set of
objects and `b`, folded second, as a set of strings.  The lowercase key
`b_config_v1_columns` holds the object set of `a` once more (the same pointer
as `columns`); the string set of `b` is in no entry of the table. -/
theorem getFields_mixed_sets_second_lost :
    ∃ t, getFields asciiToLower (specOf
        [("a", [("columns", .obj [("type", .str "array"),
            ("items", .obj [("type", .str "object"),
              ("properties", .obj [("name", .obj [("type", .str "string")])])])])]),
         ("b", [("columns", .obj [("type", .str "array")])])]) = some t ∧
      createFields (serviceSchema (specOf
        [("a", [("columns", .obj [("type", .str "array"),
            ("items", .obj [("type", .str "object"),
              ("properties", .obj [("name", .obj [("type", .str "string")])])])])]),
         ("b", [("columns", .obj [("type", .str "array")])])]) "b_config_V1") =
        some [("columns", stringSetSchema)] ∧
      t.fields = [("columns", 0), ("b_config_v1_columns", 0)] ∧
      t.heap = [.mk .TypeSet true true false ""
        (.resource [("name", .mk .TypeString true true false "" .nil)])] := by
  have hs : getAvailableServiceIds (specOf
        [("a", [("columns", .obj [("type", .str "array"),
            ("items", .obj [("type", .str "object"),
              ("properties", .obj [("name", .obj [("type", .str "string")])])])])]),
         ("b", [("columns", .obj [("type", .str "array")])])]) =
      ["a_config_V1", "b_config_V1"] := by decide
  have ha : serviceSchema (specOf
        [("a", [("columns", .obj [("type", .str "array"),
            ("items", .obj [("type", .str "object"),
              ("properties", .obj [("name", .obj [("type", .str "string")])])])])]),
         ("b", [("columns", .obj [("type", .str "array")])])]) "a_config_V1" =
      [("columns", .obj [("type", .str "array"),
            ("items", .obj [("type", .str "object"),
              ("properties", .obj [("name", .obj [("type", .str "string")])])])])] := rfl
  have hb : serviceSchema (specOf
        [("a", [("columns", .obj [("type", .str "array"),
            ("items", .obj [("type", .str "object"),
              ("properties", .obj [("name", .obj [("type", .str "string")])])])])]),
         ("b", [("columns", .obj [("type", .str "array")])])]) "b_config_V1" =
      [("columns", .obj [("type", .str "array")])] := rfl
  have hFa : createFields [("columns", .obj [("type", .str "array"),
            ("items", .obj [("type", .str "object"),
              ("properties", .obj [("name", .obj [("type", .str "string")])])])])] =
      some [("columns", .mk .TypeSet true true false ""
        (.resource [("name", .mk .TypeString true true false "" .nil)]))] := by
    simp [createFields, createFieldsLoop, getArrayFieldSchema, Path_items_type,
      Path_items_properties, Search, mapGet, Data, assertDescription, isString, mapSet,
      INT_FIELD, BOOL_FIELD, ARRAY_FIELD, OBJECT_FIELD, ChildrenMap]
  have hFb : createFields [("columns", .obj [("type", .str "array")])] =
      some [("columns", stringSetSchema)] := by
    simp [createFields, createFieldsLoop, getArrayFieldSchema, Path_items_type,
      Path_items_properties, Search, mapGet, Data, assertDescription, isString, mapSet,
      INT_FIELD, BOOL_FIELD, ARRAY_FIELD, OBJECT_FIELD, ChildrenMap, stringSetSchema]
  have hl : asciiToLower "b_config_V1_columns" = "b_config_v1_columns" := by decide
  have hfold : foldService asciiToLower "b_config_V1"
      (foldService asciiToLower "a_config_V1" FieldTable.empty
        [("columns", .mk .TypeSet true true false ""
          (.resource [("name", .mk .TypeString true true false "" .nil)]))])
      [("columns", stringSetSchema)] =
      ⟨[("columns", 0), ("b_config_v1_columns", 0)], [.mk .TypeSet true true false ""
        (.resource [("name", .mk .TypeString true true false "" .nil)])]⟩ := by
    simp [foldService, foldProperty, FieldTable.store, FieldTable.empty, mapGet, mapSet,
      updateExistingValue, Schema.Type_, Schema.Elem_, stringSetSchema, hl]
  refine ⟨⟨[("columns", 0), ("b_config_v1_columns", 0)], [.mk .TypeSet true true false ""
        (.resource [("name", .mk .TypeString true true false "" .nil)])]⟩, ?_, ?_, rfl, rfl⟩
  · rw [getFields, hs, foldServices_cons, ha, hFa]
    simp only []
    rw [foldServices_cons, hb, hFb]
    simp only []
    rw [foldServices_nil, hfold]
  · rw [hb, hFb]

/-! ## Sets of objects: the nested tables are merged -/

theorem mem_mapKeys_mergeNested (NS : Fields) :
    ∀ (N : Fields) (k : String),
      k ∈ mapKeys (mergeNested N NS) ↔ k ∈ mapKeys N ∨ k ∈ mapKeys NS := by
  induction NS with
  | nil => intro N k; simp [mergeNested, mapKeys]
  | cons kv rest ih =>
    intro N k
    have : mergeNested N (kv :: rest) = mergeNested (mapSet N kv.1 kv.2) rest := rfl
    rw [this, ih, mem_mapKeys_mapSet]
    simp only [mapKeys, List.map_cons, List.mem_cons]
    tauto

theorem mapSet_eq_self_of_mem {α : Type} {m : List (String × α)} {k : String} {v : α}
    (hnd : (mapKeys m).Nodup) (h : (k, v) ∈ m) : mapSet m k v = m := by
  induction m with
  | nil => simp at h
  | cons x rest ih =>
    obtain ⟨k0, x0⟩ := x
    simp only [mapKeys, List.map_cons, List.nodup_cons] at hnd
    rcases List.mem_cons.mp h with h1 | h1
    · simp only [Prod.mk.injEq] at h1
      simp [mapSet, h1.1, h1.2]
    · have hk : k ∈ rest.map Prod.fst := List.mem_map.mpr ⟨(k, v), h1, rfl⟩
      have h0 : k0 ≠ k := fun e => hnd.1 (e ▸ hk)
      simp only [mapSet, h0, if_false]
      rw [ih hnd.2 h1]

theorem mergeNested_sublist (N : Fields) (hnd : (mapKeys N).Nodup) (NS : Fields) :
    (∀ kv ∈ NS, kv ∈ N) → mergeNested N NS = N := by
  induction NS with
  | nil => intro _; rfl
  | cons kv rest ih =>
    intro h
    have : mergeNested N (kv :: rest) = mergeNested (mapSet N kv.1 kv.2) rest := rfl
    rw [this, mapSet_eq_self_of_mem hnd (h kv (List.mem_cons_self _ _))]
    exact ih (fun kv' h' => h kv' (List.mem_cons_of_mem _ h'))

theorem mergeNested_self (N : Fields) (hnd : (mapKeys N).Nodup) : mergeNested N N = N :=
  mergeNested_sublist N hnd N (fun _ h => h)

theorem nestedOf_eq_some {schemaJson : Json} {f S : String} {NS : Fields} :
    nestedOf schemaJson f S = some NS ↔
      ∃ F d, createFields (serviceSchema schemaJson S) = some F ∧ mapGet F f = some d ∧
        d.Elem_ = .resource NS := by
  unfold nestedOf
  cases hF : createFields (serviceSchema schemaJson S) with
  | none => simp
  | some F =>
    cases hd : mapGet F f with
    | none => simp [hd]
    | some d =>
      cases he : d.Elem_ with
      | resource N => simp [hd, he]
      | nil => simp [hd, he]
      | schema x => simp [hd, he]
      | strings l => simp [hd, he]

theorem mergeStep_keys (acc declared : Option Fields) (k : String) :
    (∃ N, mergeStep acc declared = some N ∧ k ∈ mapKeys N) ↔
      ((∃ N, acc = some N ∧ k ∈ mapKeys N) ∨ ∃ NS, declared = some NS ∧ k ∈ mapKeys NS) := by
  cases declared with
  | none => simp [mergeStep]
  | some NS =>
    cases acc with
    | none => simp [mergeStep]
    | some N => simp [mergeStep, mem_mapKeys_mergeNested]

theorem mergeStep_foldl_keys (schemaJson : Json) (f : String) (xs : List String) :
    ∀ (acc : Option Fields) (k : String),
      (∃ N, xs.foldl (fun a S => mergeStep a (nestedOf schemaJson f S)) acc = some N ∧
        k ∈ mapKeys N) ↔
      ((∃ N, acc = some N ∧ k ∈ mapKeys N) ∨
        ∃ S ∈ xs, ∃ NS, nestedOf schemaJson f S = some NS ∧ k ∈ mapKeys NS) := by
  induction xs with
  | nil => intro acc k; simp
  | cons S rest ih =>
    intro acc k
    rw [List.foldl_cons, ih, mergeStep_keys]
    constructor
    · rintro ((h | h) | ⟨S', hS', h⟩)
      · exact Or.inl h
      · exact Or.inr ⟨S, List.mem_cons_self _ _, h⟩
      · exact Or.inr ⟨S', List.mem_cons_of_mem _ hS', h⟩
    · rintro (h | ⟨S', hS', h⟩)
      · exact Or.inl (Or.inl h)
      · rcases List.mem_cons.mp hS' with e | e
        · subst e; exact Or.inl (Or.inr h)
        · exact Or.inr ⟨S', e, h⟩

theorem mergeStep_foldl_same (schemaJson : Json) (f : String) (N0 : Fields)
    (hnd : (mapKeys N0).Nodup) (xs : List String)
    (hall : ∀ S ∈ xs, ∀ NS, nestedOf schemaJson f S = some NS → NS = N0) :
    ∀ acc : Option Fields, (acc = none ∨ acc = some N0) →
      (xs.foldl (fun a S => mergeStep a (nestedOf schemaJson f S)) acc = none ∨
        xs.foldl (fun a S => mergeStep a (nestedOf schemaJson f S)) acc = some N0) := by
  induction xs with
  | nil => intro acc h; exact h
  | cons S rest ih =>
    intro acc h
    rw [List.foldl_cons]
    apply ih (fun S' hS' => hall S' (List.mem_cons_of_mem _ hS'))
    cases hn : nestedOf schemaJson f S with
    | none => simpa [mergeStep] using h
    | some NS =>
      have := hall S (List.mem_cons_self _ _) NS hn
      subst this
      rcases h with h | h
      · subst h; right; rfl
      · subst h; right
        simp only [mergeStep]
        rw [mergeNested_self NS hnd]

theorem HoldsNested_of_SameOn {f : String} {t t' : FieldTable} {acc : Option Fields}
    (hs : SameOn [f] t t') (h : HoldsNested f t acc) : HoldsNested f t' acc := by
  have hf := hs f (List.mem_cons_self _ _)
  cases acc with
  | none => simp only [HoldsNested] at h ⊢; rw [hf.1]; exact h
  | some N => simp only [HoldsNested] at h ⊢; rw [hf.2]; exact h

theorem foldService_object_set (ToLower : String → String) (schemaJson : Json)
    (f S : String) (F : Fields) (t : FieldTable) (acc : Option Fields)
    (hv : t.Valid) (ho : t.Owns [f]) (hacc : HoldsNested f t acc)
    (hF : createFields (serviceSchema schemaJson S) = some F)
    (hframe : ∀ p ∈ mapKeys (serviceSchema schemaJson S), p ≠ f → Frame ToLower [f] S p)
    (hdecl : ∀ d, mapGet F f = some d → d.Type_ = .TypeSet ∧ ∃ N, d.Elem_ = .resource N) :
    (foldService ToLower S t F).Valid ∧ (foldService ToLower S t F).Owns [f] ∧
      HoldsNested f (foldService ToLower S t F) (mergeStep acc (nestedOf schemaJson f S)) := by
  have hframeF : ∀ p ∈ mapKeys F, p ≠ f → Frame ToLower [f] S p :=
    fun p hp hpf => hframe p (createFields_keys_subset hF p hp) hpf
  cases hd : mapGet F f with
  | none =>
    have hn : nestedOf schemaJson f S = none := by simp [nestedOf, hF, hd]
    have hm : mergeStep acc none = acc := by cases acc <;> rfl
    rw [hn, hm]
    have hnot : f ∉ mapKeys F := (mapGet_eq_none_iff F f).mp hd
    obtain ⟨hv', ho', hs'⟩ := foldService_frame ToLower [f] S F t hv ho (by
      intro kv hkv
      have hk : kv.1 ∈ mapKeys F := List.mem_map.mpr ⟨kv, hkv, rfl⟩
      exact ⟨hframeF kv.1 hk (fun e => hnot (e ▸ hk)), createFields_no_strings hF kv hkv⟩)
    exact ⟨hv', ho', HoldsNested_of_SameOn hs' hacc⟩
  | some d =>
    obtain ⟨hty, NS, hel⟩ := hdecl d hd
    have hn : nestedOf schemaJson f S = some NS := nestedOf_eq_some.mpr ⟨F, d, hF, hd, hel⟩
    rw [hn]
    have hns := createFields_no_strings hF (f, d) (mem_of_mapGet hd)
    obtain ⟨t1, hv1, ho1, hs1, hafter⟩ := foldService_at ToLower [f] S F f d t hv ho
      (createFields_nodup hF) (createFields_no_strings hF) hd hframeF
    have hacc1 := HoldsNested_of_SameOn hs1 hacc
    obtain ⟨ty, o, c, s, desc, el⟩ := d
    simp only [Schema.Type_, Schema.Elem_] at hty hel
    subst hty hel
    cases acc with
    | none =>
      simp only [HoldsNested] at hacc1
      rw [foldProperty_absent _ _ _ _ _ hacc1] at hafter
      obtain ⟨hv', ho', hs'⟩ := hafter (Valid_store hv1 _ _) (Owns_store hv1 ho1 _ _)
      refine ⟨hv', ho', HoldsNested_of_SameOn hs' ?_⟩
      exact ⟨o, c, s, desc, get_store_self _ _⟩
    | some N =>
      simp only [HoldsNested] at hacc1
      obtain ⟨o', c', s', desc', hget⟩ := hacc1
      obtain ⟨r, hr, hh, hstep⟩ := foldProperty_set ToLower S t1 f
        (.mk .TypeSet o c s desc (.resource NS)) (.mk .TypeSet o' c' s' desc' (.resource N))
        hns hget rfl rfl
      rw [updateExistingValue_resource .TypeSet o' c' s' desc' N NS
        (.mk .TypeSet o c s desc (.resource NS)) rfl] at hstep
      simp only [if_true] at hstep
      rw [hstep] at hafter
      obtain ⟨hv', ho', hs'⟩ := hafter (Valid_update hv1 hr _ _)
        (Owns_update ho1 hr Iff.rfl _)
      refine ⟨hv', ho', HoldsNested_of_SameOn hs' ?_⟩
      exact ⟨o', c', s', desc', get_update_self hv1 hr _ _⟩

theorem foldServices_object_sets (ToLower : String → String) (schemaJson : Json) (f : String)
    (xs : List String) :
    ∀ (t t' : FieldTable) (acc : Option Fields),
      foldServices ToLower schemaJson xs t = some t' → t.Valid → t.Owns [f] →
      HoldsNested f t acc →
      (∀ S ∈ xs, ∀ p ∈ mapKeys (serviceSchema schemaJson S), p ≠ f → Frame ToLower [f] S p) →
      (∀ S ∈ xs, ∀ F d, createFields (serviceSchema schemaJson S) = some F →
        mapGet F f = some d → d.Type_ = .TypeSet ∧ ∃ N, d.Elem_ = .resource N) →
      HoldsNested f t' (xs.foldl (fun a S => mergeStep a (nestedOf schemaJson f S)) acc) := by
  induction xs with
  | nil =>
    intro t t' acc h _ _ hacc _ _
    simp only [foldServices_nil, Option.some.injEq] at h
    subst h
    exact hacc
  | cons S rest ih =>
    intro t t' acc h hv ho hacc hframe hdecl
    obtain ⟨F, hF, hrest⟩ := foldServices_cons_some h
    obtain ⟨hv1, ho1, hacc1⟩ := foldService_object_set ToLower schemaJson f S F t acc hv ho hacc
      hF (hframe S (List.mem_cons_self _ _)) (fun d hd => hdecl S (List.mem_cons_self _ _) F d hF hd)
    exact ih _ t' _ hrest hv1 ho1 hacc1
      (fun S' hS' => hframe S' (List.mem_cons_of_mem _ hS'))
      (fun S' hS' => hdecl S' (List.mem_cons_of_mem _ hS'))

theorem createField_nested_nodup {node : Json} {d : Schema} (h : createField node = some d) :
    ∀ NS, d.Elem_ = .resource NS → (mapKeys NS).Nodup := by
  intro NS hNS
  rw [createField] at h
  cases hdesc : assertDescription (Data (Search node ["description"])) with
  | none => simp [hdesc] at h
  | some description =>
    simp only [hdesc] at h
    split_ifs at h
    · simp only [Option.some.injEq] at h; subst h; simp [Schema.Elem_] at hNS
    · simp only [Option.some.injEq] at h; subst h; simp [Schema.Elem_] at hNS
    · simp only [Option.some.injEq] at h; subst h; simp [Schema.Elem_] at hNS
    · rw [getArrayFieldSchema_eq] at h
      split_ifs at h
      · cases hc : createFields (ChildrenMap (Path node "items.properties")) with
        | none => simp [hc] at h
        | some m =>
          simp only [hc, Option.some.injEq] at h
          subst h
          simp only [Schema.Elem_, Elem.resource.injEq] at hNS
          subst hNS
          exact createFields_nodup hc
      · simp only [Option.some.injEq] at h; subst h
        simp [Schema.Elem_, stringSetSchema] at hNS
    · simp only [Option.some.injEq] at h; subst h; simp [Schema.Elem_] at hNS

theorem createFields_nested_nodup {nodesMap : List (String × Json)} {F : Fields}
    (h : createFields nodesMap = some F) {f : String} {d : Schema} (hd : mapGet F f = some d)
    {NS : Fields} (hNS : d.Elem_ = .resource NS) : (mapKeys NS).Nodup := by
  rw [createFields_eq] at h
  exact createFieldsLoop_values (fun d => ∀ NS, d.Elem_ = .resource NS → (mapKeys NS).Nodup)
    (fun _ _ hd => createField_nested_nodup hd) nodesMap [] F h (by simp) (f, d)
    (mem_of_mapGet hd) NS hNS

theorem mergeStep_foldl_some (schemaJson : Json) (f : String) (xs : List String) :
    ∀ acc : Option Fields,
      ((∃ N, acc = some N) ∨ ∃ S ∈ xs, ∃ NS, nestedOf schemaJson f S = some NS) →
      ∃ N, xs.foldl (fun a S => mergeStep a (nestedOf schemaJson f S)) acc = some N := by
  induction xs with
  | nil =>
    intro acc h
    rcases h with h | ⟨S, hS, _⟩
    · exact h
    · simp at hS
  | cons S rest ih =>
    intro acc h
    rw [List.foldl_cons]
    apply ih
    rcases h with ⟨N, rfl⟩ | ⟨S', hS', NS, hNS⟩
    · left
      cases nestedOf schemaJson f S with
      | none => exact ⟨N, rfl⟩
      | some NS => exact ⟨_, rfl⟩
    · rcases List.mem_cons.mp hS' with e | e
      · subst e
        left
        rw [hNS]
        cases acc with
        | none => exact ⟨_, rfl⟩
        | some N => exact ⟨_, rfl⟩
      · right; exact ⟨S', e, NS, hNS⟩

/-- Claim C3, with its scope made explicit: in a document where every service
that declares `f` declares it as a set of objects (at least one does), and no
other property produces the key `f`, the table of `getFields` holds under `f` a set of objects whose nested
field names are exactly the union of the nested field names these services
declare; when they all declare the same nested table, it is that table. -/
theorem getFields_object_sets_union (ToLower : String → String) (schemaJson : Json)
    (f : String)
    (htext : ∀ S ∈ getAvailableServiceIds schemaJson,
      textDescriptionsMembers (serviceSchema schemaJson S) = true)
    (hsome : ∃ S ∈ getAvailableServiceIds schemaJson, ∃ F d,
      createFields (serviceSchema schemaJson S) = some F ∧ mapGet F f = some d)
    (hdecl : ∀ S ∈ getAvailableServiceIds schemaJson, ∀ F d,
      createFields (serviceSchema schemaJson S) = some F → mapGet F f = some d →
        d.Type_ = .TypeSet ∧ ∃ N, d.Elem_ = .resource N)
    (hothers : ∀ S ∈ getAvailableServiceIds schemaJson,
      ∀ p ∈ mapKeys (serviceSchema schemaJson S), p ≠ f → Frame ToLower [f] S p) :
    ∃ t d N, getFields ToLower schemaJson = some t ∧ t.get f = some d ∧
      d.Type_ = .TypeSet ∧ d.Elem_ = .resource N ∧
      (∀ k, k ∈ mapKeys N ↔
        ∃ S ∈ getAvailableServiceIds schemaJson, ∃ F dS NS,
          createFields (serviceSchema schemaJson S) = some F ∧ mapGet F f = some dS ∧
            dS.Elem_ = .resource NS ∧ k ∈ mapKeys NS) ∧
      (∀ N0, (∀ S ∈ getAvailableServiceIds schemaJson, ∀ F dS,
          createFields (serviceSchema schemaJson S) = some F → mapGet F f = some dS →
            dS.Elem_ = .resource N0) → N = N0) := by
  obtain ⟨t, ht⟩ := getFields_total ToLower schemaJson htext
  have hfold := foldServices_object_sets ToLower schemaJson f _ FieldTable.empty t none ht
    Valid_empty (Owns_empty _) (by simp [HoldsNested, FieldTable.empty, mapGet]) hothers hdecl
  obtain ⟨S0, hS0, F0, d0, hF0, hd0⟩ := hsome
  obtain ⟨_, N00, hN00⟩ := hdecl S0 hS0 F0 d0 hF0 hd0
  have hn0 : nestedOf schemaJson f S0 = some N00 := nestedOf_eq_some.mpr ⟨F0, d0, hF0, hd0, hN00⟩
  obtain ⟨N, hN⟩ := mergeStep_foldl_some schemaJson f (getAvailableServiceIds schemaJson) none
    (Or.inr ⟨S0, hS0, N00, hn0⟩)
  rw [hN] at hfold
  obtain ⟨o, c, s, desc, hget⟩ := hfold
  refine ⟨t, _, N, ht, hget, rfl, rfl, ?_, ?_⟩
  · intro k
    have := mergeStep_foldl_keys schemaJson f (getAvailableServiceIds schemaJson) none k
    simp only [hN, Option.some.injEq, exists_eq_left', false_and, exists_false, false_or,
      reduceCtorEq] at this
    rw [this]
    constructor
    · rintro ⟨S, hS, NS, hNS, hk⟩
      obtain ⟨F, dS, hF, hdS, he⟩ := nestedOf_eq_some.mp hNS
      exact ⟨S, hS, F, dS, NS, hF, hdS, he, hk⟩
    · rintro ⟨S, hS, F, dS, NS, hF, hdS, he, hk⟩
      exact ⟨S, hS, NS, nestedOf_eq_some.mpr ⟨F, dS, hF, hdS, he⟩, hk⟩
  · intro N0 hall
    have h0 := hall S0 hS0 F0 d0 hF0 hd0
    have hnd : (mapKeys N0).Nodup := createFields_nested_nodup hF0 hd0 h0
    have := mergeStep_foldl_same schemaJson f N0 hnd (getAvailableServiceIds schemaJson) (by
      intro S hS NS hNS
      obtain ⟨F, dS, hF, hdS, he⟩ := nestedOf_eq_some.mp hNS
      have := hall S hS F dS hF hdS
      rw [he] at this
      exact Elem.resource.inj this) none (Or.inl rfl)
    rw [hN] at this
    rcases this with h | h
    · simp at h
    · exact Option.some.inj h

theorem getFields_object_sets_union_witness :
    ∃ t d N, getFields asciiToLower (specOf
        [("a", [("columns", .obj [("type", .str "array"),
            ("items", .obj [("type", .str "object"),
              ("properties", .obj [("name", .obj [("type", .str "string")])])])])]),
         ("b", [("columns", .obj [("type", .str "array"),
            ("items", .obj [("type", .str "object"),
              ("properties", .obj [("id", .obj [("type", .str "integer")])])])]),
            ("host", .obj [])])]) = some t ∧ t.get "columns" = some d ∧
      d.Type_ = .TypeSet ∧ d.Elem_ = .resource N ∧
      (∀ k, k ∈ mapKeys N ↔ k ∈ mapKeys [("name", Schema.mk .TypeString true true false "" .nil)]
        ∨ k ∈ mapKeys [("id", Schema.mk .TypeInt true true false "" .nil)]) := by
  have hs : getAvailableServiceIds (specOf
        [("a", [("columns", .obj [("type", .str "array"),
            ("items", .obj [("type", .str "object"),
              ("properties", .obj [("name", .obj [("type", .str "string")])])])])]),
         ("b", [("columns", .obj [("type", .str "array"),
            ("items", .obj [("type", .str "object"),
              ("properties", .obj [("id", .obj [("type", .str "integer")])])])]),
            ("host", .obj [])])]) = ["a_config_V1", "b_config_V1"] := by decide
  have ha : serviceSchema (specOf
        [("a", [("columns", .obj [("type", .str "array"),
            ("items", .obj [("type", .str "object"),
              ("properties", .obj [("name", .obj [("type", .str "string")])])])])]),
         ("b", [("columns", .obj [("type", .str "array"),
            ("items", .obj [("type", .str "object"),
              ("properties", .obj [("id", .obj [("type", .str "integer")])])])]),
            ("host", .obj [])])]) "a_config_V1" =
      [("columns", .obj [("type", .str "array"),
            ("items", .obj [("type", .str "object"),
              ("properties", .obj [("name", .obj [("type", .str "string")])])])])] := rfl
  have hb : serviceSchema (specOf
        [("a", [("columns", .obj [("type", .str "array"),
            ("items", .obj [("type", .str "object"),
              ("properties", .obj [("name", .obj [("type", .str "string")])])])])]),
         ("b", [("columns", .obj [("type", .str "array"),
            ("items", .obj [("type", .str "object"),
              ("properties", .obj [("id", .obj [("type", .str "integer")])])])]),
            ("host", .obj [])])]) "b_config_V1" =
      [("columns", .obj [("type", .str "array"),
            ("items", .obj [("type", .str "object"),
              ("properties", .obj [("id", .obj [("type", .str "integer")])])])]),
        ("host", .obj [])] := rfl
  have hFa : createFields [("columns", .obj [("type", .str "array"),
            ("items", .obj [("type", .str "object"),
              ("properties", .obj [("name", .obj [("type", .str "string")])])])])] =
      some [("columns", .mk .TypeSet true true false ""
        (.resource [("name", .mk .TypeString true true false "" .nil)]))] := by
    simp [createFields, createFieldsLoop, getArrayFieldSchema, Path_items_type,
      Path_items_properties, Search, mapGet, Data, assertDescription, isString, mapSet,
      INT_FIELD, BOOL_FIELD, ARRAY_FIELD, OBJECT_FIELD, ChildrenMap]
  have hFb : createFields [("columns", .obj [("type", .str "array"),
            ("items", .obj [("type", .str "object"),
              ("properties", .obj [("id", .obj [("type", .str "integer")])])])]),
        ("host", .obj [])] =
      some [("columns", .mk .TypeSet true true false ""
        (.resource [("id", .mk .TypeInt true true false "" .nil)])),
        ("host", .mk .TypeString true true false "" .nil)] := by
    simp [createFields, createFieldsLoop, getArrayFieldSchema, Path_items_type,
      Path_items_properties, Search, mapGet, Data, assertDescription, isString, mapSet,
      INT_FIELD, BOOL_FIELD, ARRAY_FIELD, OBJECT_FIELD, ChildrenMap]
  obtain ⟨t, d, N, ht, hget, hty, hel, hkeys, _⟩ := getFields_object_sets_union asciiToLower
    (specOf
        [("a", [("columns", .obj [("type", .str "array"),
            ("items", .obj [("type", .str "object"),
              ("properties", .obj [("name", .obj [("type", .str "string")])])])])]),
         ("b", [("columns", .obj [("type", .str "array"),
            ("items", .obj [("type", .str "object"),
              ("properties", .obj [("id", .obj [("type", .str "integer")])])])]),
            ("host", .obj [])])]) "columns"
    (by
      intro S hS
      rw [hs] at hS
      simp only [List.mem_cons, List.mem_singleton, List.not_mem_nil, or_false] at hS
      rcases hS with rfl | rfl
      · rw [ha]; decide
      · rw [hb]; decide)
    ⟨"a_config_V1", by rw [hs]; decide,
      [("columns", (Schema.mk .TypeSet true true false "" (.resource [("name", .mk .TypeString true true false "" .nil)])))],
      (Schema.mk .TypeSet true true false "" (.resource [("name", .mk .TypeString true true false "" .nil)])),
      by rw [ha]; exact hFa, rfl⟩
    (by
      intro S hS F d hF hd
      rw [hs] at hS
      simp only [List.mem_cons, List.mem_singleton, List.not_mem_nil, or_false] at hS
      rcases hS with rfl | rfl
      · rw [ha, hFa] at hF
        simp only [Option.some.injEq] at hF
        subst hF
        simp only [mapGet, if_true, Option.some.injEq] at hd
        subst hd
        exact ⟨rfl, _, rfl⟩
      · rw [hb, hFb] at hF
        simp only [Option.some.injEq] at hF
        subst hF
        simp only [mapGet, if_true, Option.some.injEq] at hd
        subst hd
        exact ⟨rfl, _, rfl⟩)
    (by
      intro S hS p hp hne
      rw [hs] at hS
      simp only [List.mem_cons, List.mem_singleton, List.not_mem_nil, or_false] at hS
      rcases hS with rfl | rfl
      · rw [ha] at hp
        simp only [mapKeys, List.map_cons, List.map_nil, List.mem_singleton] at hp
        exact absurd hp hne
      · rw [hb] at hp
        simp only [mapKeys, List.map_cons, List.map_nil, List.mem_cons, List.mem_singleton,
          List.not_mem_nil, or_false] at hp
        rcases hp with rfl | rfl
        · exact absurd rfl hne
        · simp only [Frame]; decide)
  refine ⟨t, d, N, ht, hget, hty, hel, ?_⟩
  intro k
  rw [hkeys k]
  constructor
  · rintro ⟨S, hS, F, dS, NS, hF, hdS, he, hk⟩
    rw [hs] at hS
    simp only [List.mem_cons, List.mem_singleton, List.not_mem_nil, or_false] at hS
    rcases hS with rfl | rfl
    · rw [ha, hFa] at hF
      simp only [Option.some.injEq] at hF
      subst hF
      simp only [mapGet, if_true, Option.some.injEq] at hdS
      subst hdS
      simp only [Schema.Elem_, Elem.resource.injEq] at he
      subst he
      exact Or.inl hk
    · rw [hb, hFb] at hF
      simp only [Option.some.injEq] at hF
      subst hF
      simp only [mapGet, if_true, Option.some.injEq] at hdS
      subst hdS
      simp only [Schema.Elem_, Elem.resource.injEq] at he
      subst he
      exact Or.inr hk
  · rintro (hk | hk)
    · exact ⟨"a_config_V1", by rw [hs]; decide,
        [("columns", (Schema.mk .TypeSet true true false "" (.resource [("name", .mk .TypeString true true false "" .nil)])))],
        (Schema.mk .TypeSet true true false "" (.resource [("name", .mk .TypeString true true false "" .nil)])),
        [("name", .mk .TypeString true true false "" .nil)],
        by rw [ha]; exact hFa, rfl, rfl, hk⟩
    · exact ⟨"b_config_V1", by rw [hs]; decide,
        [("columns", (Schema.mk .TypeSet true true false "" (.resource [("id", .mk .TypeInt true true false "" .nil)]))), ("host", .mk .TypeString true true false "" .nil)],
        (Schema.mk .TypeSet true true false "" (.resource [("id", .mk .TypeInt true true false "" .nil)])),
        [("id", .mk .TypeInt true true false "" .nil)],
        by rw [hb]; exact hFb, rfl, rfl, hk⟩

/-- Claim C2 fails when something else produces the keys involved.  With a
third service `c` declaring `port` as an integer, the table has a second,
service-qualified descriptor for `port` although `a` and `b` agree on the kind
string.  With `a` and `b` alone, both declaring `b_config_V1id` as a string and
`id` with differing kinds, the key `b_config_V1id` ends up holding an integer
and the service-qualified key `b_config_V1b_config_V1id` is added. -/
theorem getFields_same_scalar_not_alone :
    (∃ t, getFields asciiToLower (specOf
        [("a", [("port", .obj [("type", .str "string")])]),
         ("b", [("port", .obj [("type", .str "string")])]),
         ("c", [("port", .obj [("type", .str "integer")])])]) = some t ∧
      t.keys = ["port", "c_config_V1port"] ∧
      (t.get "port").map Schema.Type_ = some .TypeString ∧
      (t.get "c_config_V1port").map Schema.Type_ = some .TypeInt) ∧
    (∃ t, getFields asciiToLower (specOf
        [("a", [("id", .obj [("type", .str "string")]),
                ("b_config_V1id", .obj [("type", .str "string")])]),
         ("b", [("id", .obj [("type", .str "integer")]),
                ("b_config_V1id", .obj [("type", .str "string")])])]) = some t ∧
      t.keys = ["id", "b_config_V1id", "b_config_V1b_config_V1id"] ∧
      (t.get "b_config_V1id").map Schema.Type_ = some .TypeInt) := by
  constructor
  · have hs : getAvailableServiceIds (specOf
        [("a", [("port", .obj [("type", .str "string")])]),
         ("b", [("port", .obj [("type", .str "string")])]),
         ("c", [("port", .obj [("type", .str "integer")])])]) =
        ["a_config_V1", "b_config_V1", "c_config_V1"] := by decide
    have ha : serviceSchema (specOf
        [("a", [("port", .obj [("type", .str "string")])]),
         ("b", [("port", .obj [("type", .str "string")])]),
         ("c", [("port", .obj [("type", .str "integer")])])]) "a_config_V1" =
        [("port", .obj [("type", .str "string")])] := rfl
    have hb : serviceSchema (specOf
        [("a", [("port", .obj [("type", .str "string")])]),
         ("b", [("port", .obj [("type", .str "string")])]),
         ("c", [("port", .obj [("type", .str "integer")])])]) "b_config_V1" =
        [("port", .obj [("type", .str "string")])] := rfl
    have hc : serviceSchema (specOf
        [("a", [("port", .obj [("type", .str "string")])]),
         ("b", [("port", .obj [("type", .str "string")])]),
         ("c", [("port", .obj [("type", .str "integer")])])]) "c_config_V1" =
        [("port", .obj [("type", .str "integer")])] := rfl
    have hFs : createFields [("port", .obj [("type", .str "string")])] =
        some [("port", .mk .TypeString true true false "" .nil)] := by
      simp [createFields, createFieldsLoop, Search, mapGet, Data, assertDescription, isString,
        mapSet, INT_FIELD, BOOL_FIELD, ARRAY_FIELD]
    have hFi : createFields [("port", .obj [("type", .str "integer")])] =
        some [("port", .mk .TypeInt true true false "" .nil)] := by
      simp [createFields, createFieldsLoop, Search, mapGet, Data, assertDescription, isString,
        mapSet, INT_FIELD, BOOL_FIELD, ARRAY_FIELD]
    have hfold : foldService asciiToLower "c_config_V1"
        (foldService asciiToLower "b_config_V1"
          (foldService asciiToLower "a_config_V1" FieldTable.empty
            [("port", .mk .TypeString true true false "" .nil)])
          [("port", .mk .TypeString true true false "" .nil)])
        [("port", .mk .TypeInt true true false "" .nil)] =
        ⟨[("port", 1), ("c_config_V1port", 2)], [.mk .TypeString true true false "" .nil,
          .mk .TypeString true true false "" .nil, .mk .TypeInt true true false "" .nil]⟩ := by
      simp [foldService, foldProperty, FieldTable.store, FieldTable.empty, mapGet, mapSet,
        Schema.Type_]
    refine ⟨⟨[("port", 1), ("c_config_V1port", 2)], [.mk .TypeString true true false "" .nil,
      .mk .TypeString true true false "" .nil, .mk .TypeInt true true false "" .nil]⟩,
      ?_, rfl, rfl, rfl⟩
    rw [getFields, hs, foldServices_cons, ha, hFs]
    simp only []
    rw [foldServices_cons, hb, hFs]
    simp only []
    rw [foldServices_cons, hc, hFi]
    simp only []
    rw [foldServices_nil, hfold]
  · have hs : getAvailableServiceIds (specOf
        [("a", [("id", .obj [("type", .str "string")]),
                ("b_config_V1id", .obj [("type", .str "string")])]),
         ("b", [("id", .obj [("type", .str "integer")]),
                ("b_config_V1id", .obj [("type", .str "string")])])]) =
        ["a_config_V1", "b_config_V1"] := by decide
    have ha : serviceSchema (specOf
        [("a", [("id", .obj [("type", .str "string")]),
                ("b_config_V1id", .obj [("type", .str "string")])]),
         ("b", [("id", .obj [("type", .str "integer")]),
                ("b_config_V1id", .obj [("type", .str "string")])])]) "a_config_V1" =
        [("id", .obj [("type", .str "string")]),
          ("b_config_V1id", .obj [("type", .str "string")])] := rfl
    have hb : serviceSchema (specOf
        [("a", [("id", .obj [("type", .str "string")]),
                ("b_config_V1id", .obj [("type", .str "string")])]),
         ("b", [("id", .obj [("type", .str "integer")]),
                ("b_config_V1id", .obj [("type", .str "string")])])]) "b_config_V1" =
        [("id", .obj [("type", .str "integer")]),
          ("b_config_V1id", .obj [("type", .str "string")])] := rfl
    have hFa : createFields [("id", .obj [("type", .str "string")]),
          ("b_config_V1id", .obj [("type", .str "string")])] =
        some [("id", .mk .TypeString true true false "" .nil),
          ("b_config_V1id", .mk .TypeString true true false "" .nil)] := by
      simp [createFields, createFieldsLoop, Search, mapGet, Data, assertDescription, isString,
        mapSet, INT_FIELD, BOOL_FIELD, ARRAY_FIELD]
    have hFb : createFields [("id", .obj [("type", .str "integer")]),
          ("b_config_V1id", .obj [("type", .str "string")])] =
        some [("id", .mk .TypeInt true true false "" .nil),
          ("b_config_V1id", .mk .TypeString true true false "" .nil)] := by
      simp [createFields, createFieldsLoop, Search, mapGet, Data, assertDescription, isString,
        mapSet, INT_FIELD, BOOL_FIELD, ARRAY_FIELD]
    have hfold : foldService asciiToLower "b_config_V1"
        (foldService asciiToLower "a_config_V1" FieldTable.empty
          [("id", .mk .TypeString true true false "" .nil),
            ("b_config_V1id", .mk .TypeString true true false "" .nil)])
        [("id", .mk .TypeInt true true false "" .nil),
          ("b_config_V1id", .mk .TypeString true true false "" .nil)] =
        ⟨[("id", 0), ("b_config_V1id", 2), ("b_config_V1b_config_V1id", 3)],
          [.mk .TypeString true true false "" .nil, .mk .TypeString true true false "" .nil,
            .mk .TypeInt true true false "" .nil, .mk .TypeString true true false "" .nil]⟩ := by
      simp [foldService, foldProperty, FieldTable.store, FieldTable.empty, mapGet, mapSet,
        Schema.Type_]
    refine ⟨⟨[("id", 0), ("b_config_V1id", 2), ("b_config_V1b_config_V1id", 3)],
      [.mk .TypeString true true false "" .nil, .mk .TypeString true true false "" .nil,
        .mk .TypeInt true true false "" .nil, .mk .TypeString true true false "" .nil]⟩,
      ?_, rfl, rfl⟩
    rw [getFields, hs, foldServices_cons, ha, hFa]
    simp only []
    rw [foldServices_cons, hb, hFb]
    simp only []
    rw [foldServices_nil, hfold]


/-- Claim C3 fails when another property produces the key: `a` and `b` both
declare `b_config_V1port` as a set of objects, and `port` with differing kinds.
The integer `port` of `b` is renamed to `b_config_V1port` and replaces the set
of objects stored there. -/
theorem getFields_object_set_overwritten :
    ∃ t, getFields asciiToLower (specOf
        [("a", [("port", .obj [("type", .str "string")]),
                ("b_config_V1port", .obj [("type", .str "array"),
                  ("items", .obj [("type", .str "object"),
                    ("properties", .obj [("name", .obj [])])])])]),
         ("b", [("b_config_V1port", .obj [("type", .str "array"),
                  ("items", .obj [("type", .str "object"),
                    ("properties", .obj [("name", .obj [])])])]),
                ("port", .obj [("type", .str "integer")])])]) = some t ∧
      t.get "b_config_V1port" = some (.mk .TypeInt true true false "" .nil) := by
  have hs : getAvailableServiceIds (specOf
        [("a", [("port", .obj [("type", .str "string")]),
                ("b_config_V1port", .obj [("type", .str "array"),
                  ("items", .obj [("type", .str "object"),
                    ("properties", .obj [("name", .obj [])])])])]),
         ("b", [("b_config_V1port", .obj [("type", .str "array"),
                  ("items", .obj [("type", .str "object"),
                    ("properties", .obj [("name", .obj [])])])]),
                ("port", .obj [("type", .str "integer")])])]) =
      ["a_config_V1", "b_config_V1"] := by decide
  have ha : serviceSchema (specOf
        [("a", [("port", .obj [("type", .str "string")]),
                ("b_config_V1port", .obj [("type", .str "array"),
                  ("items", .obj [("type", .str "object"),
                    ("properties", .obj [("name", .obj [])])])])]),
         ("b", [("b_config_V1port", .obj [("type", .str "array"),
                  ("items", .obj [("type", .str "object"),
                    ("properties", .obj [("name", .obj [])])])]),
                ("port", .obj [("type", .str "integer")])])]) "a_config_V1" =
      [("port", .obj [("type", .str "string")]),
        ("b_config_V1port", .obj [("type", .str "array"),
          ("items", .obj [("type", .str "object"),
            ("properties", .obj [("name", .obj [])])])])] := rfl
  have hb : serviceSchema (specOf
        [("a", [("port", .obj [("type", .str "string")]),
                ("b_config_V1port", .obj [("type", .str "array"),
                  ("items", .obj [("type", .str "object"),
                    ("properties", .obj [("name", .obj [])])])])]),
         ("b", [("b_config_V1port", .obj [("type", .str "array"),
                  ("items", .obj [("type", .str "object"),
                    ("properties", .obj [("name", .obj [])])])]),
                ("port", .obj [("type", .str "integer")])])]) "b_config_V1" =
      [("b_config_V1port", .obj [("type", .str "array"),
          ("items", .obj [("type", .str "object"),
            ("properties", .obj [("name", .obj [])])])]),
        ("port", .obj [("type", .str "integer")])] := rfl
  have hFa : createFields [("port", .obj [("type", .str "string")]),
        ("b_config_V1port", .obj [("type", .str "array"),
          ("items", .obj [("type", .str "object"),
            ("properties", .obj [("name", .obj [])])])])] =
      some [("port", .mk .TypeString true true false "" .nil),
        ("b_config_V1port", .mk .TypeSet true true false ""
          (.resource [("name", .mk .TypeString true true false "" .nil)]))] := by
    simp [createFields, createFieldsLoop, getArrayFieldSchema, Path_items_type,
      Path_items_properties, Search, mapGet, Data, assertDescription, isString, mapSet,
      INT_FIELD, BOOL_FIELD, ARRAY_FIELD, OBJECT_FIELD, ChildrenMap]
  have hFb : createFields [("b_config_V1port", .obj [("type", .str "array"),
          ("items", .obj [("type", .str "object"),
            ("properties", .obj [("name", .obj [])])])]),
        ("port", .obj [("type", .str "integer")])] =
      some [("b_config_V1port", .mk .TypeSet true true false ""
          (.resource [("name", .mk .TypeString true true false "" .nil)])),
        ("port", .mk .TypeInt true true false "" .nil)] := by
    simp [createFields, createFieldsLoop, getArrayFieldSchema, Path_items_type,
      Path_items_properties, Search, mapGet, Data, assertDescription, isString, mapSet,
      INT_FIELD, BOOL_FIELD, ARRAY_FIELD, OBJECT_FIELD, ChildrenMap]
  have hfold : foldService asciiToLower "b_config_V1"
      (foldService asciiToLower "a_config_V1" FieldTable.empty
        [("port", .mk .TypeString true true false "" .nil),
          ("b_config_V1port", .mk .TypeSet true true false ""
            (.resource [("name", .mk .TypeString true true false "" .nil)]))])
      [("b_config_V1port", .mk .TypeSet true true false ""
          (.resource [("name", .mk .TypeString true true false "" .nil)])),
        ("port", .mk .TypeInt true true false "" .nil)] =
      ⟨[("port", 0), ("b_config_V1port", 2)],
        [.mk .TypeString true true false "" .nil,
          .mk .TypeSet true true false ""
            (.resource [("name", .mk .TypeString true true false "" .nil)]),
          .mk .TypeInt true true false "" .nil]⟩ := by
    simp [foldService, foldProperty, FieldTable.store, FieldTable.empty, mapGet, mapSet,
      updateExistingValue, Schema.Type_, Schema.Elem_]
  refine ⟨⟨[("port", 0), ("b_config_V1port", 2)],
    [.mk .TypeString true true false "" .nil,
      .mk .TypeSet true true false ""
        (.resource [("name", .mk .TypeString true true false "" .nil)]),
      .mk .TypeInt true true false "" .nil]⟩, ?_, rfl⟩
  rw [getFields, hs, foldServices_cons, ha, hFa]
  simp only []
  rw [foldServices_cons, hb, hFb]
  simp only []
  rw [foldServices_nil, hfold]

/-! ## Services that agree on the properties they share: the order does not matter -/

theorem get_isSome_iff_mem_keys {t : FieldTable} (hv : t.Valid) (k : String) :
    (∃ d, t.get k = some d) ↔ k ∈ t.keys := by
  rw [FieldTable.keys, ← mapGet_isSome_iff]
  constructor
  · rintro ⟨d, hd⟩
    obtain ⟨r, hr, _⟩ := get_eq_some hd
    exact ⟨r, hr⟩
  · rintro ⟨r, hr⟩
    have hlt := hv k r hr
    refine ⟨t.heap[r], ?_⟩
    simp only [FieldTable.get, hr]
    exact List.getElem?_eq_getElem hlt

theorem set_eq_self_of_getElem? {l : List Schema} {r : Nat} {e : Schema}
    (h : l[r]? = some e) : l.set r e = l := by
  apply List.ext_getElem?
  intro i
  by_cases hi : r = i
  · subst hi
    have hlt : r < l.length := by
      by_contra hge
      rw [List.getElem?_eq_none (by omega)] at h
      cases h
    rw [List.getElem?_set_self hlt, h]
  · rw [List.getElem?_set_ne hi]

/-- A step of the fold for a property whose key, when the table has it, holds
that same descriptor, which is no set of scalars: the key holds the descriptor
afterwards and no other key changes. -/
theorem foldProperty_agree (ToLower : String → String) (service : String) (t : FieldTable)
    (p : String) (v : Schema) (hv : ∀ l, v.Elem_ ≠ .strings l) (hvalid : t.Valid)
    (hnd : ∀ N, v.Elem_ = .resource N → (mapKeys N).Nodup)
    (hagree : ∀ e, t.get p = some e →
      e = v ∧ (v.Type_ = .TypeSet → ∃ N, v.Elem_ = .resource N)) :
    (foldProperty ToLower service t p v).Valid ∧
    (foldProperty ToLower service t p v).get p = some v ∧
    ∀ k, k ≠ p → (foldProperty ToLower service t p v).get k = t.get k := by
  have hstore : (t.store p v).Valid ∧ (t.store p v).get p = some v ∧
      ∀ k, k ≠ p → (t.store p v).get k = t.get k :=
    ⟨Valid_store hvalid _ _, get_store_self _ _, fun k hk => get_store_ne hvalid v hk⟩
  rw [foldProperty_eq ToLower service t p v hv]
  cases hr : mapGet t.fields p with
  | none => exact hstore
  | some r =>
    simp only
    cases he : t.heap[r]? with
    | none => exact hstore
    | some e =>
      simp only
      have hget : t.get p = some e := by simp [FieldTable.get, hr, he]
      obtain ⟨hev, hset⟩ := hagree e hget
      subst hev
      rw [if_neg (by simp)]
      by_cases h2 : e.Type_ = .TypeSet
      · rw [if_pos h2]
        obtain ⟨N, hN⟩ := hset h2
        obtain ⟨ty, o, c, s, d, el⟩ := e
        simp only [Schema.Elem_] at hN
        subst hN
        have hup : updateExistingValue (.mk ty o c s d (.resource N))
            (.mk ty o c s d (.resource N)) = (.mk ty o c s d (.resource N), true) := by
          rw [updateExistingValue_resource ty o c s d N N (.mk ty o c s d (.resource N)) rfl]
          have hself := mergeNested_self N (hnd N rfl)
          unfold mergeNested at hself
          rw [hself]
        rw [hup]
        simp only [if_true]
        rw [set_eq_self_of_getElem? he]
        refine ⟨?_, ?_, ?_⟩
        · have hvu := Valid_update hvalid hr p (.mk ty o c s d (.resource N))
          rwa [set_eq_self_of_getElem? he] at hvu
        · simp [FieldTable.get, mapGet_mapSet_self, he]
        · intro k hk
          simp only [FieldTable.get, mapGet_mapSet_ne _ _ hk]
      · rw [if_neg h2]
        exact hstore

theorem foldService_agree (ToLower : String → String) (service : String) (F : Fields) :
    ∀ t : FieldTable, t.Valid → (mapKeys F).Nodup →
      (∀ kv ∈ F, (∀ l, kv.2.Elem_ ≠ .strings l) ∧
        ∀ N, kv.2.Elem_ = .resource N → (mapKeys N).Nodup) →
      (∀ kv ∈ F, ∀ e, t.get kv.1 = some e →
        e = kv.2 ∧ (kv.2.Type_ = .TypeSet → ∃ N, kv.2.Elem_ = .resource N)) →
      (foldService ToLower service t F).Valid ∧
      ∀ k, (k ∈ mapKeys F → (foldService ToLower service t F).get k = mapGet F k) ∧
        (k ∉ mapKeys F → (foldService ToLower service t F).get k = t.get k) := by
  induction F with
  | nil =>
    intro t hv _ _ _
    exact ⟨hv, fun k => ⟨fun h => by simp [mapKeys] at h, fun _ => rfl⟩⟩
  | cons kv rest ih =>
    intro t hv hnd hvals hagree
    obtain ⟨p, v⟩ := kv
    simp only [mapKeys, List.map_cons, List.nodup_cons] at hnd
    have hpv := hvals (p, v) (List.mem_cons_self _ _)
    obtain ⟨hv1, hp1, hk1⟩ := foldProperty_agree ToLower service t p v hpv.1 hv hpv.2
      (hagree (p, v) (List.mem_cons_self _ _))
    rw [foldService_cons]
    obtain ⟨hv', hk'⟩ := ih (foldProperty ToLower service t p v) hv1 hnd.2
      (fun kv hkv => hvals kv (List.mem_cons_of_mem _ hkv))
      (by
        intro kv hkv e he
        have hkp : kv.1 ≠ p := fun e' => hnd.1 (e' ▸ List.mem_map.mpr ⟨kv, hkv, rfl⟩)
        rw [hk1 kv.1 hkp] at he
        exact hagree kv (List.mem_cons_of_mem _ hkv) e he)
    refine ⟨hv', fun k => ⟨?_, ?_⟩⟩
    · intro hk
      simp only [mapKeys, List.map_cons, List.mem_cons] at hk
      by_cases hkp : k = p
      · subst hkp
        rw [(hk' k).2 hnd.1, hp1]
        simp [mapGet]
      · have hkr : k ∈ mapKeys rest := by
          rcases hk with h | h
          · exact absurd h hkp
          · exact h
        rw [(hk' k).1 hkr]
        have : ¬ p = k := fun e => hkp e.symm
        simp [mapGet, this]
    · intro hk
      simp only [mapKeys, List.map_cons, List.mem_cons, not_or] at hk
      rw [(hk' k).2 hk.2, hk1 k hk.1]

theorem foldServices_agree (ToLower : String → String) (schemaJson : Json)
    (xs : List String) :
    ∀ (t t' : FieldTable), foldServices ToLower schemaJson xs t = some t' → t.Valid →
      xs.Nodup →
      (∀ S ∈ xs, ∀ S' ∈ xs, S ≠ S' → ∀ F F' k d d',
        createFields (serviceSchema schemaJson S) = some F →
        createFields (serviceSchema schemaJson S') = some F' →
        mapGet F k = some d → mapGet F' k = some d' →
        d = d' ∧ (d.Type_ = .TypeSet → ∃ N, d.Elem_ = .resource N)) →
      (∀ S ∈ xs, ∀ F k d e, createFields (serviceSchema schemaJson S) = some F →
        mapGet F k = some d → t.get k = some e →
        e = d ∧ (d.Type_ = .TypeSet → ∃ N, d.Elem_ = .resource N)) →
      t'.Valid ∧ ∀ k d, t'.get k = some d ↔
        (t.get k = some d ∨ ∃ S ∈ xs, ∃ F,
          createFields (serviceSchema schemaJson S) = some F ∧ mapGet F k = some d) := by
  induction xs with
  | nil =>
    intro t t' h hv _ _ _
    simp only [foldServices_nil, Option.some.injEq] at h
    subst h
    exact ⟨hv, fun k d => by simp⟩
  | cons S rest ih =>
    intro t t' h hv hnd hagree hstart
    obtain ⟨F, hF, hrest⟩ := foldServices_cons_some h
    rw [List.nodup_cons] at hnd
    have hFnd := createFields_nodup hF
    obtain ⟨hv1, hk1⟩ := foldService_agree ToLower S F t hv hFnd
      (fun kv hkv => ⟨createFields_no_strings hF kv hkv,
        fun N hN => createFields_nested_nodup hF (mapGet_of_mem hFnd hkv) hN⟩)
      (fun kv hkv e he => hstart S (List.mem_cons_self _ _) F kv.1 kv.2 e hF
        (mapGet_of_mem hFnd hkv) he)
    have h1 : ∀ k d, (foldService ToLower S t F).get k = some d ↔
        (t.get k = some d ∨ mapGet F k = some d) := by
      intro k d
      by_cases hkF : k ∈ mapKeys F
      · rw [(hk1 k).1 hkF]
        constructor
        · exact Or.inr
        · rintro (h0 | h0)
          · obtain ⟨d0, hd0⟩ := (mapGet_isSome_iff F k).mpr hkF
            rw [hd0, (hstart S (List.mem_cons_self _ _) F k d0 d hF hd0 h0).1]
          · exact h0
      · rw [(hk1 k).2 hkF]
        have : mapGet F k = none := (mapGet_eq_none_iff F k).mpr hkF
        simp [this]
    obtain ⟨hv', hk'⟩ := ih _ t' hrest hv1 hnd.2
      (fun A hA B hB => hagree A (List.mem_cons_of_mem _ hA) B (List.mem_cons_of_mem _ hB))
      (by
        intro S' hS' F' k d e hF' hd he
        rcases (h1 k e).mp he with h0 | h0
        · exact hstart S' (List.mem_cons_of_mem _ hS') F' k d e hF' hd h0
        · have hne : S ≠ S' := fun e' => hnd.1 (e' ▸ hS')
          obtain ⟨hed, hset⟩ := hagree S (List.mem_cons_self _ _) S'
            (List.mem_cons_of_mem _ hS') hne F F' k e d hF hF' h0 hd
          subst hed
          exact ⟨rfl, hset⟩)
    refine ⟨hv', fun k d => ?_⟩
    rw [hk' k d, h1 k d]
    constructor
    · rintro ((h | h) | ⟨S', hS', F', hF', hd⟩)
      · exact Or.inl h
      · exact Or.inr ⟨S, List.mem_cons_self _ _, F, hF, h⟩
      · exact Or.inr ⟨S', List.mem_cons_of_mem _ hS', F', hF', hd⟩
    · rintro (h | ⟨S', hS', F', hF', hd⟩)
      · exact Or.inl (Or.inl h)
      · rcases List.mem_cons.mp hS' with e | e
        · subst e
          rw [hF] at hF'
          simp only [Option.some.injEq] at hF'
          subst hF'
          exact Or.inl (Or.inr hd)
        · exact Or.inr ⟨S', e, F', hF', hd⟩

theorem textDescriptionsMembers_iff (l : List (String × Json)) :
    textDescriptionsMembers l = true ↔ ∀ kv ∈ l, kv.2.textDescriptions = true := by
  induction l with
  | nil => simp [textDescriptionsMembers]
  | cons kv rest ih =>
    obtain ⟨k, v⟩ := kv
    simp only [textDescriptionsMembers, Bool.and_eq_true, ih, List.mem_cons, forall_eq_or_imp]

theorem textDescriptionsMembers_perm {l l' : List (String × Json)} (h : l.Perm l')
    (ht : textDescriptionsMembers l = true) : textDescriptionsMembers l' = true := by
  rw [textDescriptionsMembers_iff] at ht ⊢
  exact fun kv hkv => ht kv (h.mem_iff.mpr hkv)

theorem mapKeys_perm {l l' : List (String × Json)} (h : l.Perm l') :
    (mapKeys l).Perm (mapKeys l') := h.map _

/-- On a Go map (distinct keys) `createFields` gives the same table content
whatever the order in which the loop visits the properties. -/
theorem createFields_perm {nodes nodes' : List (String × Json)} {F F' : Fields}
    (h : nodes.Perm nodes') (hnd : (mapKeys nodes).Nodup)
    (hF : createFields nodes = some F) (hF' : createFields nodes' = some F') (k : String) :
    mapGet F k = mapGet F' k := by
  have hnd' : (mapKeys nodes').Nodup := (mapKeys_perm h).nodup_iff.mp hnd
  rw [createFields_eq] at hF hF'
  by_cases hk : k ∈ mapKeys nodes
  · obtain ⟨kv, hkv, rfl⟩ := List.mem_map.mp hk
    obtain ⟨d, hd, hg⟩ := createFieldsLoop_get_of_mem nodes [] F kv.1 kv.2 hF hnd hkv
    obtain ⟨d', hd', hg'⟩ := createFieldsLoop_get_of_mem nodes' [] F' kv.1 kv.2 hF' hnd'
      (h.mem_iff.mp hkv)
    rw [hg, hg', ← hd, ← hd']
  · have hk' : k ∉ mapKeys nodes' := fun e => hk ((mapKeys_perm h).mem_iff.mpr e)
    rw [createFieldsLoop_get_of_not_mem nodes [] F k hF hk,
      createFieldsLoop_get_of_not_mem nodes' [] F' k hF' hk']

/-- When the services agree on every property name two of them declare (the
same descriptor from both, and no set of scalars), a key of the table holds the
descriptor its declaring services give it. -/
theorem getFields_agree (ToLower : String → String) (schemaJson : Json)
    (hdistinct : (getAvailableServiceIds schemaJson).Nodup)
    (htext : ∀ S ∈ getAvailableServiceIds schemaJson,
      textDescriptionsMembers (serviceSchema schemaJson S) = true)
    (hagree : ∀ S ∈ getAvailableServiceIds schemaJson,
      ∀ S' ∈ getAvailableServiceIds schemaJson, S ≠ S' → ∀ F F' k d d',
        createFields (serviceSchema schemaJson S) = some F →
        createFields (serviceSchema schemaJson S') = some F' →
        mapGet F k = some d → mapGet F' k = some d' →
        d = d' ∧ (d.Type_ = .TypeSet → ∃ N, d.Elem_ = .resource N)) :
    ∃ t, getFields ToLower schemaJson = some t ∧ t.Valid ∧
      ∀ k d, t.get k = some d ↔ ∃ S ∈ getAvailableServiceIds schemaJson, ∃ F,
        createFields (serviceSchema schemaJson S) = some F ∧ mapGet F k = some d := by
  obtain ⟨t, ht⟩ := getFields_total ToLower schemaJson htext
  obtain ⟨hv, hk⟩ := foldServices_agree ToLower schemaJson _ FieldTable.empty t ht Valid_empty
    hdistinct hagree (fun _ _ _ k _ e _ _ he => by simp [get_empty] at he)
  refine ⟨t, ht, hv, fun k d => ?_⟩
  rw [hk k d]
  simp [get_empty]

/-- Claim C6, as the code allows it: take a spec document in which the services
agree on the properties they share, that is, whenever two distinct services
declare the same property name, `createFields` gives both the same descriptor
and this descriptor, when it is a set, is a set of objects (not a set of
strings).  Then for every two iteration orders of its discriminator mapping (the service list) and
of each service's properties, the two tables `getFields` builds have the same
keys and the same descriptor under each key. -/
theorem getFields_order_independent (ToLower : String → String) (schemaJson schemaJson' : Json)
    (hservices : (getAvailableServiceIds schemaJson).Perm (getAvailableServiceIds schemaJson'))
    (hprops : ∀ S ∈ getAvailableServiceIds schemaJson,
      (serviceSchema schemaJson S).Perm (serviceSchema schemaJson' S))
    (hdistinct : (getAvailableServiceIds schemaJson).Nodup)
    (hmaps : ∀ S ∈ getAvailableServiceIds schemaJson,
      (mapKeys (serviceSchema schemaJson S)).Nodup)
    (htext : ∀ S ∈ getAvailableServiceIds schemaJson,
      textDescriptionsMembers (serviceSchema schemaJson S) = true)
    (hagree : ∀ S ∈ getAvailableServiceIds schemaJson,
      ∀ S' ∈ getAvailableServiceIds schemaJson, S ≠ S' → ∀ F F' k d d',
        createFields (serviceSchema schemaJson S) = some F →
        createFields (serviceSchema schemaJson S') = some F' →
        mapGet F k = some d → mapGet F' k = some d' →
        d = d' ∧ (d.Type_ = .TypeSet → ∃ N, d.Elem_ = .resource N)) :
    ∃ t t', getFields ToLower schemaJson = some t ∧ getFields ToLower schemaJson' = some t' ∧
      (∀ k, k ∈ t.keys ↔ k ∈ t'.keys) ∧ ∀ k, t.get k = t'.get k := by
  have hmem : ∀ S, S ∈ getAvailableServiceIds schemaJson' ↔
      S ∈ getAvailableServiceIds schemaJson := fun S => hservices.mem_iff.symm
  obtain ⟨t, ht, hv, hk⟩ := getFields_agree ToLower schemaJson hdistinct htext hagree
  obtain ⟨t', ht', hv', hk'⟩ := getFields_agree ToLower schemaJson'
    (hservices.nodup_iff.mp hdistinct)
    (fun S hS => textDescriptionsMembers_perm (hprops S ((hmem S).mp hS))
      (htext S ((hmem S).mp hS)))
    (by
      intro S hS S' hS' hne F F' k d d' hF hF' hd hd'
      have hS0 := (hmem S).mp hS
      have hS0' := (hmem S').mp hS'
      obtain ⟨F0, hF0⟩ := createFields_total _ (htext S hS0)
      obtain ⟨F0', hF0'⟩ := createFields_total _ (htext S' hS0')
      refine hagree S hS0 S' hS0' hne F0 F0' k d d' hF0 hF0' ?_ ?_
      · rw [createFields_perm (hprops S hS0) (hmaps S hS0) hF0 hF k]; exact hd
      · rw [createFields_perm (hprops S' hS0') (hmaps S' hS0') hF0' hF' k]; exact hd')
  have hsame : ∀ k d, t.get k = some d ↔ t'.get k = some d := by
    intro k d
    rw [hk k d, hk' k d]
    constructor
    · rintro ⟨S, hS, F, hF, hd⟩
      obtain ⟨F', hF'⟩ := createFields_total _
        (textDescriptionsMembers_perm (hprops S hS) (htext S hS))
      exact ⟨S, (hmem S).mpr hS, F', hF',
        by rw [← createFields_perm (hprops S hS) (hmaps S hS) hF hF' k]; exact hd⟩
    · rintro ⟨S, hS, F', hF', hd⟩
      have hS0 := (hmem S).mp hS
      obtain ⟨F, hF⟩ := createFields_total _ (htext S hS0)
      exact ⟨S, hS0, F, hF,
        by rw [createFields_perm (hprops S hS0) (hmaps S hS0) hF hF' k]; exact hd⟩
  refine ⟨t, t', ht, ht', ?_, ?_⟩
  · intro k
    rw [← get_isSome_iff_mem_keys hv, ← get_isSome_iff_mem_keys hv']
    exact exists_congr (hsame k)
  · intro k
    cases h : t.get k with
    | some d => exact ((hsame k d).mp h).symm
    | none =>
      cases h' : t'.get k with
      | none => rfl
      | some d' =>
        have := (hsame k d').mpr h'
        rw [h] at this
        simp at this
theorem getFields_order_independent_witness :
    ∃ t t', getFields asciiToLower (specOf
        [("a", [("host", .obj []), ("port", .obj [("type", .str "integer")]),
          ("columns", .obj [("type", .str "array"),
            ("items", .obj [("type", .str "object"),
              ("properties", .obj [("name", .obj [("type", .str "string")])])])])]),
         ("b", [("columns", .obj [("type", .str "array"),
            ("items", .obj [("type", .str "object"),
              ("properties", .obj [("name", .obj [("type", .str "string")])])])]),
          ("port", .obj [("type", .str "integer")]), ("token", .obj [("format", .str "password")])])]) = some t ∧
      getFields asciiToLower (specOf
        [("b", [("port", .obj [("type", .str "integer")]),
          ("columns", .obj [("type", .str "array"),
            ("items", .obj [("type", .str "object"),
              ("properties", .obj [("name", .obj [("type", .str "string")])])])]),
          ("token", .obj [("format", .str "password")])]),
         ("a", [("port", .obj [("type", .str "integer")]), ("host", .obj []),
          ("columns", .obj [("type", .str "array"),
            ("items", .obj [("type", .str "object"),
              ("properties", .obj [("name", .obj [("type", .str "string")])])])])])]) = some t' ∧
      (∀ k, k ∈ t.keys ↔ k ∈ t'.keys) ∧ ∀ k, t.get k = t'.get k := by
  have hs : getAvailableServiceIds (specOf
        [("a", [("host", .obj []), ("port", .obj [("type", .str "integer")]),
          ("columns", .obj [("type", .str "array"),
            ("items", .obj [("type", .str "object"),
              ("properties", .obj [("name", .obj [("type", .str "string")])])])])]),
         ("b", [("columns", .obj [("type", .str "array"),
            ("items", .obj [("type", .str "object"),
              ("properties", .obj [("name", .obj [("type", .str "string")])])])]),
          ("port", .obj [("type", .str "integer")]), ("token", .obj [("format", .str "password")])])]) =
      ["a_config_V1", "b_config_V1"] := by decide
  have hs' : getAvailableServiceIds (specOf
        [("b", [("port", .obj [("type", .str "integer")]),
          ("columns", .obj [("type", .str "array"),
            ("items", .obj [("type", .str "object"),
              ("properties", .obj [("name", .obj [("type", .str "string")])])])]),
          ("token", .obj [("format", .str "password")])]),
         ("a", [("port", .obj [("type", .str "integer")]), ("host", .obj []),
          ("columns", .obj [("type", .str "array"),
            ("items", .obj [("type", .str "object"),
              ("properties", .obj [("name", .obj [("type", .str "string")])])])])])]) =
      ["b_config_V1", "a_config_V1"] := by decide
  have ha : serviceSchema (specOf
        [("a", [("host", .obj []), ("port", .obj [("type", .str "integer")]),
          ("columns", .obj [("type", .str "array"),
            ("items", .obj [("type", .str "object"),
              ("properties", .obj [("name", .obj [("type", .str "string")])])])])]),
         ("b", [("columns", .obj [("type", .str "array"),
            ("items", .obj [("type", .str "object"),
              ("properties", .obj [("name", .obj [("type", .str "string")])])])]),
          ("port", .obj [("type", .str "integer")]), ("token", .obj [("format", .str "password")])])]) "a_config_V1" =
      [("host", .obj []), ("port", .obj [("type", .str "integer")]),
          ("columns", .obj [("type", .str "array"),
            ("items", .obj [("type", .str "object"),
              ("properties", .obj [("name", .obj [("type", .str "string")])])])])] := rfl
  have hb : serviceSchema (specOf
        [("a", [("host", .obj []), ("port", .obj [("type", .str "integer")]),
          ("columns", .obj [("type", .str "array"),
            ("items", .obj [("type", .str "object"),
              ("properties", .obj [("name", .obj [("type", .str "string")])])])])]),
         ("b", [("columns", .obj [("type", .str "array"),
            ("items", .obj [("type", .str "object"),
              ("properties", .obj [("name", .obj [("type", .str "string")])])])]),
          ("port", .obj [("type", .str "integer")]), ("token", .obj [("format", .str "password")])])]) "b_config_V1" =
      [("columns", .obj [("type", .str "array"),
            ("items", .obj [("type", .str "object"),
              ("properties", .obj [("name", .obj [("type", .str "string")])])])]),
          ("port", .obj [("type", .str "integer")]), ("token", .obj [("format", .str "password")])] := rfl
  have ha' : serviceSchema (specOf
        [("b", [("port", .obj [("type", .str "integer")]),
          ("columns", .obj [("type", .str "array"),
            ("items", .obj [("type", .str "object"),
              ("properties", .obj [("name", .obj [("type", .str "string")])])])]),
          ("token", .obj [("format", .str "password")])]),
         ("a", [("port", .obj [("type", .str "integer")]), ("host", .obj []),
          ("columns", .obj [("type", .str "array"),
            ("items", .obj [("type", .str "object"),
              ("properties", .obj [("name", .obj [("type", .str "string")])])])])])]) "a_config_V1" =
      [("port", .obj [("type", .str "integer")]), ("host", .obj []),
          ("columns", .obj [("type", .str "array"),
            ("items", .obj [("type", .str "object"),
              ("properties", .obj [("name", .obj [("type", .str "string")])])])])] := rfl
  have hb' : serviceSchema (specOf
        [("b", [("port", .obj [("type", .str "integer")]),
          ("columns", .obj [("type", .str "array"),
            ("items", .obj [("type", .str "object"),
              ("properties", .obj [("name", .obj [("type", .str "string")])])])]),
          ("token", .obj [("format", .str "password")])]),
         ("a", [("port", .obj [("type", .str "integer")]), ("host", .obj []),
          ("columns", .obj [("type", .str "array"),
            ("items", .obj [("type", .str "object"),
              ("properties", .obj [("name", .obj [("type", .str "string")])])])])])]) "b_config_V1" =
      [("port", .obj [("type", .str "integer")]),
          ("columns", .obj [("type", .str "array"),
            ("items", .obj [("type", .str "object"),
              ("properties", .obj [("name", .obj [("type", .str "string")])])])]),
          ("token", .obj [("format", .str "password")])] := rfl
  have hFa : createFields [("host", .obj []), ("port", .obj [("type", .str "integer")]),
          ("columns", .obj [("type", .str "array"),
            ("items", .obj [("type", .str "object"),
              ("properties", .obj [("name", .obj [("type", .str "string")])])])])] =
      some [("host", .mk .TypeString true true false "" .nil), ("port", .mk .TypeInt true true false "" .nil),
        ("columns", .mk .TypeSet true true false ""
          (.resource [("name", .mk .TypeString true true false "" .nil)]))] := by
    simp [createFields, createFieldsLoop, getArrayFieldSchema, Path_items_type,
      Path_items_properties, Search, mapGet, Data, assertDescription, isString, mapSet,
      INT_FIELD, BOOL_FIELD, ARRAY_FIELD, OBJECT_FIELD, ChildrenMap]
  have hFb : createFields [("columns", .obj [("type", .str "array"),
            ("items", .obj [("type", .str "object"),
              ("properties", .obj [("name", .obj [("type", .str "string")])])])]),
          ("port", .obj [("type", .str "integer")]), ("token", .obj [("format", .str "password")])] =
      some [("columns", .mk .TypeSet true true false ""
          (.resource [("name", .mk .TypeString true true false "" .nil)])),
        ("port", .mk .TypeInt true true false "" .nil), ("token", .mk .TypeString true true true "" .nil)] := by
    simp [createFields, createFieldsLoop, getArrayFieldSchema, Path_items_type,
      Path_items_properties, Search, mapGet, Data, assertDescription, isString, mapSet,
      INT_FIELD, BOOL_FIELD, ARRAY_FIELD, OBJECT_FIELD, ChildrenMap]
  refine getFields_order_independent asciiToLower _ _ ?_ ?_ (by rw [hs]; decide) ?_ ?_ ?_
  · rw [hs, hs']; exact List.Perm.swap _ _ _
  · intro S hS
    rw [hs] at hS
    simp only [List.mem_cons, List.mem_singleton, List.not_mem_nil, or_false] at hS
    rcases hS with rfl | rfl
    · rw [ha, ha']; exact List.Perm.swap _ _ _
    · rw [hb, hb']; exact List.Perm.swap _ _ _
  · intro S hS
    rw [hs] at hS
    simp only [List.mem_cons, List.mem_singleton, List.not_mem_nil, or_false] at hS
    rcases hS with rfl | rfl
    · rw [ha]; decide
    · rw [hb]; decide
  · intro S hS
    rw [hs] at hS
    simp only [List.mem_cons, List.mem_singleton, List.not_mem_nil, or_false] at hS
    rcases hS with rfl | rfl
    · rw [ha]; decide
    · rw [hb]; decide
  · intro S hS S' hS' hne F F' k d d' hF hF' hd hd'
    rw [hs] at hS hS'
    simp only [List.mem_cons, List.mem_singleton, List.not_mem_nil, or_false] at hS hS'
    rcases hS with rfl | rfl <;> rcases hS' with rfl | rfl
    · exact absurd rfl hne
    · rw [ha, hFa] at hF
      rw [hb, hFb] at hF'
      simp only [Option.some.injEq] at hF hF'
      subst hF
      subst hF'
      simp only [mapGet] at hd hd'
      split_ifs at hd hd' with h1 h2 h3 h4 h5 h6 <;> subst_vars <;>
        first
          | (exfalso; simp_all; done)
          | (simp only [Option.some.injEq] at hd hd'
             subst hd
             subst hd'
             exact ⟨rfl, fun _ => ⟨_, rfl⟩⟩)
          | (simp only [Option.some.injEq] at hd hd'
             subst hd
             subst hd'
             exact ⟨rfl, fun h => by cases h⟩)
    · rw [hb, hFb] at hF
      rw [ha, hFa] at hF'
      simp only [Option.some.injEq] at hF hF'
      subst hF
      subst hF'
      simp only [mapGet] at hd hd'
      split_ifs at hd hd' with h1 h2 h3 h4 h5 h6 <;> subst_vars <;>
        first
          | (exfalso; simp_all; done)
          | (simp only [Option.some.injEq] at hd hd'
             subst hd
             subst hd'
             exact ⟨rfl, fun _ => ⟨_, rfl⟩⟩)
          | (simp only [Option.some.injEq] at hd hd'
             subst hd
             subst hd'
             exact ⟨rfl, fun h => by cases h⟩)
    · exact absurd rfl hne

/-- Claim C6 fails: the same spec with its discriminator mapping visited in the
two possible orders gives tables with different keys, and different kinds
under the key `port`. -/
theorem getFields_order_dependent :
    (getAvailableServiceIds (specOf
        [("a", [("port", .obj [("type", .str "string")])]),
         ("b", [("port", .obj [("type", .str "integer")])])])).Perm
      (getAvailableServiceIds (specOf
        [("b", [("port", .obj [("type", .str "integer")])]),
         ("a", [("port", .obj [("type", .str "string")])])])) ∧
    (∀ S ∈ ["a_config_V1", "b_config_V1"],
      serviceSchema (specOf
        [("a", [("port", .obj [("type", .str "string")])]),
         ("b", [("port", .obj [("type", .str "integer")])])]) S =
      serviceSchema (specOf
        [("b", [("port", .obj [("type", .str "integer")])]),
         ("a", [("port", .obj [("type", .str "string")])])]) S) ∧
    ∃ t t', getFields asciiToLower (specOf
        [("a", [("port", .obj [("type", .str "string")])]),
         ("b", [("port", .obj [("type", .str "integer")])])]) = some t ∧
      getFields asciiToLower (specOf
        [("b", [("port", .obj [("type", .str "integer")])]),
         ("a", [("port", .obj [("type", .str "string")])])]) = some t' ∧
      t.keys = ["port", "b_config_V1port"] ∧ t'.keys = ["port", "a_config_V1port"] ∧
      (t.get "port").map Schema.Type_ = some .TypeString ∧
      (t'.get "port").map Schema.Type_ = some .TypeInt := by
  have hs : getAvailableServiceIds (specOf
        [("a", [("port", .obj [("type", .str "string")])]),
         ("b", [("port", .obj [("type", .str "integer")])])]) =
      ["a_config_V1", "b_config_V1"] := by decide
  have hs' : getAvailableServiceIds (specOf
        [("b", [("port", .obj [("type", .str "integer")])]),
         ("a", [("port", .obj [("type", .str "string")])])]) =
      ["b_config_V1", "a_config_V1"] := by decide
  have ha : serviceSchema (specOf
        [("a", [("port", .obj [("type", .str "string")])]),
         ("b", [("port", .obj [("type", .str "integer")])])]) "a_config_V1" =
      [("port", .obj [("type", .str "string")])] := rfl
  have hb : serviceSchema (specOf
        [("a", [("port", .obj [("type", .str "string")])]),
         ("b", [("port", .obj [("type", .str "integer")])])]) "b_config_V1" =
      [("port", .obj [("type", .str "integer")])] := rfl
  have ha' : serviceSchema (specOf
        [("b", [("port", .obj [("type", .str "integer")])]),
         ("a", [("port", .obj [("type", .str "string")])])]) "a_config_V1" =
      [("port", .obj [("type", .str "string")])] := rfl
  have hb' : serviceSchema (specOf
        [("b", [("port", .obj [("type", .str "integer")])]),
         ("a", [("port", .obj [("type", .str "string")])])]) "b_config_V1" =
      [("port", .obj [("type", .str "integer")])] := rfl
  have hFs : createFields [("port", .obj [("type", .str "string")])] =
      some [("port", .mk .TypeString true true false "" .nil)] := by
    simp [createFields, createFieldsLoop, Search, mapGet, Data, assertDescription, isString,
      mapSet, INT_FIELD, BOOL_FIELD, ARRAY_FIELD]
  have hFi : createFields [("port", .obj [("type", .str "integer")])] =
      some [("port", .mk .TypeInt true true false "" .nil)] := by
    simp [createFields, createFieldsLoop, Search, mapGet, Data, assertDescription, isString,
      mapSet, INT_FIELD, BOOL_FIELD, ARRAY_FIELD]
  refine ⟨by rw [hs, hs']; exact List.Perm.swap _ _ _, ?_, ?_⟩
  · intro S hS
    simp only [List.mem_cons, List.mem_singleton, List.not_mem_nil, or_false] at hS
    rcases hS with rfl | rfl
    · rw [ha, ha']
    · rw [hb, hb']
  · have hfold : foldService asciiToLower "b_config_V1"
        (foldService asciiToLower "a_config_V1" FieldTable.empty
          [("port", .mk .TypeString true true false "" .nil)])
        [("port", .mk .TypeInt true true false "" .nil)] =
        ⟨[("port", 0), ("b_config_V1port", 1)],
          [.mk .TypeString true true false "" .nil, .mk .TypeInt true true false "" .nil]⟩ := by
      simp [foldService, foldProperty, FieldTable.store, FieldTable.empty, mapGet, mapSet,
        Schema.Type_]
    have hfold' : foldService asciiToLower "a_config_V1"
        (foldService asciiToLower "b_config_V1" FieldTable.empty
          [("port", .mk .TypeInt true true false "" .nil)])
        [("port", .mk .TypeString true true false "" .nil)] =
        ⟨[("port", 0), ("a_config_V1port", 1)],
          [.mk .TypeInt true true false "" .nil, .mk .TypeString true true false "" .nil]⟩ := by
      simp [foldService, foldProperty, FieldTable.store, FieldTable.empty, mapGet, mapSet,
        Schema.Type_]
    refine ⟨⟨[("port", 0), ("b_config_V1port", 1)],
        [.mk .TypeString true true false "" .nil, .mk .TypeInt true true false "" .nil]⟩,
      ⟨[("port", 0), ("a_config_V1port", 1)],
        [.mk .TypeInt true true false "" .nil, .mk .TypeString true true false "" .nil]⟩,
      ?_, ?_, rfl, rfl, rfl, rfl⟩
    · rw [getFields, hs, foldServices_cons, ha, hFs]
      simp only []
      rw [foldServices_cons, hb, hFi]
      simp only []
      rw [foldServices_nil, hfold]
    · rw [getFields, hs', foldServices_cons, hb', hFi]
      simp only []
      rw [foldServices_cons, ha', hFs]
      simp only []
      rw [foldServices_nil, hfold']

/-! ## Destination schema of a connector: the two mappings -/

/-- Claim C11, as the code has it: for a service name that is not a key of the
destination-schema field table, the write mapping
`getDestinatonSchemaForConfig` returns an error result whose message names the
service, whatever the three attributes are (nil interfaces included); the read
mapping `getDestinationSchemaValuesMap` (and `getDestinationSchemaValue`, which
`ReadFromContainer` calls) raises a panic with that same message and returns
nothing. -/
theorem unknown_service_error_and_panic
    (destinationSchemaFields : List (String × List (String × Bool)))
    (serviceId : StringValue) (nameAttr tableAttr prefixAttr : Option StringValue)
    (schema : String)
    (hunknown : serviceId.ValueString ∉ mapKeys destinationSchemaFields) :
    getDestinatonSchemaForConfig destinationSchemaFields (some serviceId) nameAttr tableAttr
        prefixAttr =
      .error ("unknown connector service: `" ++ serviceId.ValueString ++ "`") ∧
    getDestinationSchemaValuesMap destinationSchemaFields serviceId.ValueString schema =
      .panic ("unknown connector service: `" ++ serviceId.ValueString ++ "`") ∧
    getDestinationSchemaValue destinationSchemaFields serviceId.ValueString schema =
      .panic ("unknown connector service: `" ++ serviceId.ValueString ++ "`") := by
  have h := (mapGet_eq_none_iff destinationSchemaFields serviceId.ValueString).mpr hunknown
  refine ⟨?_, ?_, ?_⟩
  · simp only [getDestinatonSchemaForConfig, h]
  · simp only [getDestinationSchemaValuesMap, h]
  · simp only [getDestinationSchemaValue, getDestinationSchemaValuesMap, h]

theorem unknown_service_error_and_panic_witness :
    getDestinatonSchemaForConfig [("adwords", [("schema", true)])] (some (.value "nosuch"))
        (some (.value "s")) (some .null) none =
      .error ("unknown connector service: `" ++ (StringValue.value "nosuch").ValueString ++
        "`") ∧
    getDestinationSchemaValuesMap [("adwords", [("schema", true)])]
        (StringValue.value "nosuch").ValueString "s" =
      .panic ("unknown connector service: `" ++ (StringValue.value "nosuch").ValueString ++
        "`") ∧
    getDestinationSchemaValue [("adwords", [("schema", true)])]
        (StringValue.value "nosuch").ValueString "s" =
      .panic ("unknown connector service: `" ++ (StringValue.value "nosuch").ValueString ++
        "`") :=
  unknown_service_error_and_panic [("adwords", [("schema", true)])] (.value "nosuch")
    (some (.value "s")) (some .null) none "s" (by decide)

/-- Claim C11 fails for the read mapping: on a service that is not in the
table, `getDestinationSchemaValuesMap` panics and returns no error result. -/
theorem getDestinationSchemaValuesMap_unknown_panics :
    getDestinationSchemaValuesMap [("adwords", [("schema", true)])] "nosuch" "my_schema" =
      .panic "unknown connector service: `nosuch`" ∧
    ∀ message, getDestinationSchemaValuesMap [("adwords", [("schema", true)])] "nosuch"
      "my_schema" ≠ .error message := by
  have h : getDestinationSchemaValuesMap [("adwords", [("schema", true)])] "nosuch"
      "my_schema" = .panic "unknown connector service: `nosuch`" := rfl
  refine ⟨h, fun message e => ?_⟩
  rw [h] at e
  cases e

/-- Claim C12, for attributes that are present: for a known service and three
attributes that are string values (not nil interfaces),
`getDestinatonSchemaForConfig` succeeds exactly in these cases, with exactly
these maps.  With the `schema_prefix` flag: when the prefix is neither null nor
unknown and name and table are both null, returning `{schema_prefix: prefix}`.
Without the flag: when the name is not null and the service has no `table` flag
or the table is not null, returning `{schema: name}` with the entry
`table: table` exactly when the service has the `table` flag.  In every other
case with present attributes it returns an error and no map.  When the three
attributes are nil interfaces, which is what `GetDestinatonSchemaForConfig`
passes for a `destination_schema` without attributes, the call panics for
every known service and returns neither a map nor an error. -/
theorem getDestinatonSchemaForConfig_cases
    (destinationSchemaFields : List (String × List (String × Bool)))
    (flags : List (String × Bool))
    (serviceId nameAttr tableAttr prefixAttr : StringValue)
    (hknown : mapGet destinationSchemaFields serviceId.ValueString = some flags) :
    (flag flags "schema_prefix" = true →
      ((prefixAttr.IsNull = false ∧ prefixAttr.IsUnknown = false ∧ nameAttr.IsNull = true ∧
          tableAttr.IsNull = true) →
        getDestinatonSchemaForConfig destinationSchemaFields (some serviceId) (some nameAttr)
          (some tableAttr) (some prefixAttr) =
          .ok [("schema_prefix", prefixAttr.ValueString)]) ∧
      (¬ (prefixAttr.IsNull = false ∧ prefixAttr.IsUnknown = false ∧ nameAttr.IsNull = true ∧
          tableAttr.IsNull = true) →
        ∃ message, getDestinatonSchemaForConfig destinationSchemaFields (some serviceId)
          (some nameAttr) (some tableAttr) (some prefixAttr) = .error message)) ∧
    (flag flags "schema_prefix" = false →
      ((nameAttr.IsNull = false ∧ (flag flags "table" = false ∨ tableAttr.IsNull = false)) →
        getDestinatonSchemaForConfig destinationSchemaFields (some serviceId) (some nameAttr)
          (some tableAttr) (some prefixAttr) =
          .ok (if flag flags "table" = true then
              [("schema", nameAttr.ValueString), ("table", tableAttr.ValueString)]
            else [("schema", nameAttr.ValueString)])) ∧
      (¬ (nameAttr.IsNull = false ∧ (flag flags "table" = false ∨ tableAttr.IsNull = false)) →
        ∃ message, getDestinatonSchemaForConfig destinationSchemaFields (some serviceId)
          (some nameAttr) (some tableAttr) (some prefixAttr) = .error message)) ∧
    getDestinatonSchemaForConfig destinationSchemaFields (some serviceId) none none none =
      .panic nilDereference ∧
    GetDestinatonSchemaForConfig destinationSchemaFields serviceId [] =
      .panic nilDereference := by
  refine ⟨?_, ?_, ?_, ?_⟩
  · intro hp
    constructor
    · rintro ⟨h1, h2, h3, h4⟩
      simp [getDestinatonSchemaForConfig, hknown, hp, h1, h2, h3, h4]
    · intro hn
      simp only [getDestinatonSchemaForConfig, hknown, hp, if_true]
      cases h1 : prefixAttr.IsNull
      · cases h2 : prefixAttr.IsUnknown
        · cases h3 : nameAttr.IsNull
          · simp
          · cases h4 : tableAttr.IsNull
            · simp
            · exact absurd ⟨h1, h2, h3, h4⟩ hn
        · simp
      · simp
  · intro hp
    constructor
    · rintro ⟨h1, h2⟩
      cases ht : flag flags "table"
      · simp [getDestinatonSchemaForConfig, hknown, hp, h1, ht]
      · have h4 : tableAttr.IsNull = false := by
          rcases h2 with h | h
          · rw [ht] at h; cases h
          · exact h
        simp [getDestinatonSchemaForConfig, hknown, hp, h1, ht, h4, mapSet]
    · intro hn
      simp only [getDestinatonSchemaForConfig, hknown, hp, Bool.false_eq_true, if_false]
      cases h1 : nameAttr.IsNull
      · cases ht : flag flags "table"
        · exact absurd ⟨h1, Or.inl ht⟩ hn
        · cases h4 : tableAttr.IsNull
          · exact absurd ⟨h1, Or.inr h4⟩ hn
          · simp
      · simp
  · cases hp : flag flags "schema_prefix" <;>
      simp [getDestinatonSchemaForConfig, hknown, hp]
  · cases hp : flag flags "schema_prefix" <;>
      simp [GetDestinatonSchemaForConfig, getDestinatonSchemaForConfig, hknown, hp, mapGet]

theorem getDestinatonSchemaForConfig_cases_witness :
    getDestinatonSchemaForConfig
        [("adroll", [("schema_prefix", true)]),
         ("google_sheets", [("schema", true), ("table", true)])]
        (some (.value "google_sheets")) (some (.value "my_schema")) (some (.value "my_table"))
        (some .null) =
      .ok [("schema", "my_schema"), ("table", "my_table")] ∧
    getDestinatonSchemaForConfig
        [("adroll", [("schema_prefix", true)]),
         ("google_sheets", [("schema", true), ("table", true)])]
        (some (.value "adroll")) (some .null) (some .null) (some (.value "pre")) =
      .ok [("schema_prefix", "pre")] ∧
    (∃ message, getDestinatonSchemaForConfig
        [("adroll", [("schema_prefix", true)]),
         ("google_sheets", [("schema", true), ("table", true)])]
        (some (.value "adroll")) (some (.value "my_schema")) (some .null)
        (some (.value "pre")) = .error message) ∧
    getDestinatonSchemaForConfig
        [("adroll", [("schema_prefix", true)]),
         ("google_sheets", [("schema", true), ("table", true)])]
        (some (.value "google_sheets")) none none none = .panic nilDereference :=
  ⟨((getDestinatonSchemaForConfig_cases
        [("adroll", [("schema_prefix", true)]),
         ("google_sheets", [("schema", true), ("table", true)])]
        [("schema", true), ("table", true)]
        (.value "google_sheets") (.value "my_schema") (.value "my_table") .null rfl).2.1 rfl).1
      ⟨rfl, Or.inr rfl⟩,
    ((getDestinatonSchemaForConfig_cases
        [("adroll", [("schema_prefix", true)]),
         ("google_sheets", [("schema", true), ("table", true)])]
        [("schema_prefix", true)]
        (.value "adroll") .null .null (.value "pre") rfl).1 rfl).1 ⟨rfl, rfl, rfl, rfl⟩,
    ((getDestinatonSchemaForConfig_cases
        [("adroll", [("schema_prefix", true)]),
         ("google_sheets", [("schema", true), ("table", true)])]
        [("schema_prefix", true)]
        (.value "adroll") (.value "my_schema") .null (.value "pre") rfl).1 rfl).2
      (fun h => by cases h.2.2.1),
    (getDestinatonSchemaForConfig_cases
        [("adroll", [("schema_prefix", true)]),
         ("google_sheets", [("schema", true), ("table", true)])]
        [("schema", true), ("table", true)]
        (.value "google_sheets") (.value "my_schema") (.value "my_table") .null rfl).2.2.1⟩

/-- Claim C12 fails when the attributes are nil interfaces: for the known
services `adroll` (with the `schema_prefix` flag) and `google_sheets` (without
it) and a `destination_schema` without attributes,
`GetDestinatonSchemaForConfig` hands three nil interfaces to
`getDestinatonSchemaForConfig`, which panics at `prefixAttr.IsNull()` or at
`nameAttr.IsNull()`: the call neither succeeds nor returns an error. -/
theorem getDestinatonSchemaForConfig_nil_panics :
    GetDestinatonSchemaForConfig
        [("adroll", [("schema_prefix", true)]),
         ("google_sheets", [("schema", true), ("table", true)])]
        (.value "adroll") [] = .panic nilDereference ∧
    getDestinatonSchemaForConfig
        [("adroll", [("schema_prefix", true)]),
         ("google_sheets", [("schema", true), ("table", true)])]
        (some (.value "adroll")) none none none = .panic nilDereference ∧
    getDestinatonSchemaForConfig
        [("adroll", [("schema_prefix", true)]),
         ("google_sheets", [("schema", true), ("table", true)])]
        (some (.value "google_sheets")) none none none = .panic nilDereference ∧
    (∀ message, getDestinatonSchemaForConfig
        [("adroll", [("schema_prefix", true)]),
         ("google_sheets", [("schema", true), ("table", true)])]
        (some (.value "adroll")) none none none ≠ .error message) ∧
    ∀ result, getDestinatonSchemaForConfig
        [("adroll", [("schema_prefix", true)]),
         ("google_sheets", [("schema", true), ("table", true)])]
        (some (.value "adroll")) none none none ≠ .ok result := by
  have h : getDestinatonSchemaForConfig
      [("adroll", [("schema_prefix", true)]),
       ("google_sheets", [("schema", true), ("table", true)])]
      (some (.value "adroll")) none none none = .panic nilDereference := rfl
  refine ⟨rfl, h, rfl, fun message e => ?_, fun result e => ?_⟩
  · rw [h] at e
    cases e
  · rw [h] at e
    cases e

end Fivetran
